import Mathlib

/-!
# Script binding layer of forge (`luaxx`) and its callers

A shallow embedding of `src/sweet/luaxx/luaxx.cpp`, of the script entry points
`LuaGraph::add_target` and `LuaGraph::postorder` (`src/forge/forge_lua/LuaGraph.cpp`)
and of `LuaTarget::create_target`, `recover_target`, `update_target` and
`destroy_target` (`src/sweet/build_tool/build_tool_lua/LuaTarget.cpp`).

The Lua stack API that the source calls is embedded as explicit state passing
over `LuaState`: a value stack, the registry, a heap of tables and their
metatables.  A native address (`void*`) is a `Nat`, the null address is `0`.
Every function is written call by call after the C++ body.

Conventions:
* `SWEET_ASSERT` is a debug check and is not part of the behaviour embedded;
  where the Lua API is then applied to a non-table, the outcome is `LuaError.api`.
* A raise is the `longjmp` of `lua_error`; the state at the raise is kept.
* Garbage collection is not embedded: the weak objects table keeps its entries.
* Allocation failure is not embedded: `lua_newtable` always returns.
-/

namespace sweet

/-! ## Lua values and the Lua state -/

/-- Lua values that the binding layer manipulates. Tables and functions are
references (identities), compared by identity as `lua_rawequal` does. -/
inductive Value where
  | nil
  | boolean (b : Bool)
  | number (n : Int)
  | string (s : String)
  | lightuserdata (p : Nat)
  | table (id : Nat)
  | function (id : Nat)
  deriving DecidableEq, Repr

/-- Raw contents of a table: every key maps to a value, absent keys map to `nil`. -/
abbrev Fields := Value → Value

/-- The table without entries. -/
def emptyFields : Fields := fun _ => Value.nil

/-- Raw assignment `t[k] = v` (assigning `nil` erases the entry). -/
def setRaw (t : Fields) (k v : Value) : Fields :=
  fun x => if x = k then v else t x

/-- State of one `lua_State`.  The head of `stack` is the top of the stack. -/
structure LuaState where
  stack : List Value
  registry : Fields
  heap : Nat → Fields
  metatable : Nat → Option Nat
  stringMeta : Option Nat
  next : Nat

/-- Errors raised through `lua_error` (a `longjmp` out of the running C function). -/
inductive LuaError where
  | index (v : Value)
  | arg (position : Int) (msg : String)
  | error (msg : String)
  | api
  | loop
  | call
  deriving DecidableEq, Repr

/-- Outcome of running a C function on a state `σ`: it returns, or it raises; the
state reached is kept in both cases. -/
inductive Res (σ α : Type) where
  | ok (a : α) (s : σ)
  | raise (e : LuaError) (s : σ)

/-- Computations on a state `σ` that return or raise. -/
def Run (σ α : Type) : Type := σ → Res σ α

/-- Sequencing: a raise skips the rest. -/
def Run.bind {σ α β : Type} (m : Run σ α) (f : α → Run σ β) : Run σ β :=
  fun s => match m s with
    | Res.ok a s1 => f a s1
    | Res.raise e s1 => Res.raise e s1

instance (σ : Type) : Monad (Run σ) where
  pure := fun a s => Res.ok a s
  bind := Run.bind

/-- Computations on a `lua_State`. -/
abbrev LuaM (α : Type) : Type := Run LuaState α

/-- Raise a Lua error. -/
def raise {σ α : Type} (e : LuaError) : Run σ α := fun s => Res.raise e s

/-- State reached by an outcome. -/
def Res.state {σ α : Type} : Res σ α → σ
  | Res.ok _ s => s
  | Res.raise _ s => s

/-- Pseudo-index of the registry (value given in the comment of `luaxx_to`). -/
def LUA_REGISTRYINDEX : Int := -10000

/-- Limit on chained `__index` handlers (`MAXTAGLOOP` of the Lua core). -/
def MAXTAGLOOP : Nat := 100

/-- Value at an acceptable stack index (`index2adr`): positive indices count
from the bottom, negative ones from the top; `none` is a non-valid index. -/
def index2value (L : LuaState) (idx : Int) : Option Value :=
  if 0 < idx then
    if idx.toNat ≤ L.stack.length then L.stack.get? (L.stack.length - idx.toNat) else none
  else if LUA_REGISTRYINDEX < idx ∧ idx < 0 then L.stack.get? ((-idx).toNat - 1)
  else none

/-- A table that a stack index can designate: the registry or a heap table. -/
inductive TRef where
  | registry
  | heap (id : Nat)
  deriving DecidableEq, Repr

/-- Table designated by an index, if the index designates a table. -/
def tableAt (L : LuaState) (idx : Int) : Option TRef :=
  if idx = LUA_REGISTRYINDEX then some TRef.registry
  else match index2value L idx with
    | some (Value.table id) => some (TRef.heap id)
    | _ => none

/-- Raw contents of a designated table. -/
def fieldsOf (L : LuaState) : TRef → Fields
  | TRef.registry => L.registry
  | TRef.heap id => L.heap id

/-- Raw store into a designated table. -/
def storeRaw (L : LuaState) (r : TRef) (k v : Value) : LuaState :=
  match r with
  | TRef.registry => { L with registry := setRaw L.registry k v }
  | TRef.heap id => { L with heap := fun j => if j = id then setRaw (L.heap id) k v else L.heap j }

/-- Metatable of a value: tables carry their own, strings share one, the other
basic types have none. -/
def metatableOf (L : LuaState) : Value → Option Nat
  | Value.table id => L.metatable id
  | Value.string _ => L.stringMeta
  | _ => none

/-- Indexing with metamethods (`luaV_gettable`): a raw hit wins; otherwise the
`__index` handler of the metatable is followed (a table handler is indexed in
turn; calling a function handler is outside this embedding and reported as
`LuaError.call`).  Indexing a value without handler is a type error. -/
def luaV_gettable (L : LuaState) : Nat → Value → Value → Except LuaError Value
  | 0, _, _ => Except.error LuaError.loop
  | n + 1, t, key =>
    match t with
    | Value.table id =>
      if L.heap id key ≠ Value.nil then Except.ok (L.heap id key)
      else match L.metatable id with
        | none => Except.ok Value.nil
        | some m =>
          match L.heap m (Value.string "__index") with
          | Value.nil => Except.ok Value.nil
          | Value.function _ => Except.error LuaError.call
          | tm => luaV_gettable L n tm key
    | _ =>
      match metatableOf L t with
      | none => Except.error (LuaError.index t)
      | some m =>
        match L.heap m (Value.string "__index") with
        | Value.nil => Except.error (LuaError.index t)
        | Value.function _ => Except.error LuaError.call
        | tm => luaV_gettable L n tm key

/-! ## The stack API used by the source -/

/-- Push a value. -/
def push (v : Value) : LuaM Unit := fun L => Res.ok () { L with stack := v :: L.stack }

/-- `lua_pushnil`. -/
def lua_pushnil : LuaM Unit := push Value.nil

/-- `lua_pushstring`. -/
def lua_pushstring (s : String) : LuaM Unit := push (Value.string s)

/-- `lua_pushlightuserdata`. -/
def lua_pushlightuserdata (p : Nat) : LuaM Unit := push (Value.lightuserdata p)

/-- `lua_pushinteger`. -/
def lua_pushinteger (n : Int) : LuaM Unit := push (Value.number n)

/-- `lua_pushvalue`: copy of the value at `idx` (a non-valid index reads as nil). -/
def lua_pushvalue (idx : Int) : LuaM Unit :=
  fun L => push ((index2value L idx).getD Value.nil) L

/-- `lua_pop`. -/
def lua_pop (n : Nat) : LuaM Unit := fun L => Res.ok () { L with stack := L.stack.drop n }

/-- `lua_remove` for a negative index: drop that element, shifting those above it down. -/
def lua_remove (idx : Int) : LuaM Unit :=
  fun L => Res.ok () { L with stack := L.stack.eraseIdx ((-idx).toNat - 1) }

/-- Whether a value is a table. -/
def isTable : Value → Bool
  | Value.table _ => true
  | _ => false

/-- `lua_istable`. -/
def lua_istable (idx : Int) : LuaM Bool :=
  fun L => Res.ok (match index2value L idx with | some v => isTable v | none => false) L

/-- `lua_isnil`. -/
def lua_isnil (idx : Int) : LuaM Bool :=
  fun L => Res.ok (decide (index2value L idx = some Value.nil)) L

/-- `lua_isnoneornil`. -/
def lua_isnoneornil (idx : Int) : LuaM Bool :=
  fun L => Res.ok (decide (index2value L idx = none ∨ index2value L idx = some Value.nil)) L

/-- `lua_islightuserdata`. -/
def lua_islightuserdata (idx : Int) : LuaM Bool :=
  fun L => Res.ok (match index2value L idx with | some (Value.lightuserdata _) => true | _ => false) L

/-- `lua_touserdata`: the address held by a light userdata, null otherwise. -/
def lua_touserdata (idx : Int) : LuaM Nat :=
  fun L => Res.ok (match index2value L idx with | some (Value.lightuserdata p) => p | _ => 0) L

/-- `lua_rawequal`: both indices valid and the values primitively equal. -/
def lua_rawequal (i j : Int) : LuaM Bool :=
  fun L => Res.ok (match index2value L i, index2value L j with
    | some a, some b => decide (a = b)
    | _, _ => false) L

/-- `lua_newtable`: push a newly allocated empty table without metatable. -/
def lua_newtable : LuaM Unit :=
  fun L => Res.ok () { L with
    stack := Value.table L.next :: L.stack
    heap := fun j => if j = L.next then emptyFields else L.heap j
    metatable := fun j => if j = L.next then none else L.metatable j
    next := L.next + 1 }

/-- `lua_rawget`: replace the key on top by `t[key]` (raw), `t` being the table
at `idx`.  Applied to a non-table the C API is undefined: reported as `api`. -/
def lua_rawget (idx : Int) : LuaM Unit :=
  fun L => match tableAt L idx, L.stack with
    | some r, k :: rest => Res.ok () { L with stack := fieldsOf L r k :: rest }
    | _, _ => Res.raise LuaError.api L

/-- `lua_rawset`: `t[key] = value` (raw) with the value on top and the key just
below; both are popped.  A nil key is an error, a non-table is `api`. -/
def lua_rawset (idx : Int) : LuaM Unit :=
  fun L => match tableAt L idx, L.stack with
    | some r, v :: k :: rest =>
      if k = Value.nil then Res.raise (LuaError.error "table index is nil") L
      else Res.ok () (storeRaw { L with stack := rest } r k v)
    | _, _ => Res.raise LuaError.api L

/-- `lua_gettable`: replace the key on top by `t[key]`, honouring metamethods;
`t` is the value at `idx`, a non-valid index reads as nil. -/
def lua_gettable (idx : Int) : LuaM Unit :=
  fun L => match L.stack with
    | k :: rest =>
      if idx = LUA_REGISTRYINDEX then Res.ok () { L with stack := L.registry k :: rest }
      else match luaV_gettable L MAXTAGLOOP ((index2value L idx).getD Value.nil) k with
        | Except.ok v => Res.ok () { L with stack := v :: rest }
        | Except.error e => Res.raise e L
    | [] => Res.raise LuaError.api L

/-- `lua_getfield`: push `t[k]` for the string key `k`, honouring metamethods. -/
def lua_getfield (idx : Int) (k : String) : LuaM Unit :=
  fun L =>
    if idx = LUA_REGISTRYINDEX then Res.ok () { L with stack := L.registry (Value.string k) :: L.stack }
    else match luaV_gettable L MAXTAGLOOP ((index2value L idx).getD Value.nil) (Value.string k) with
      | Except.ok v => Res.ok () { L with stack := v :: L.stack }
      | Except.error e => Res.raise e L

/-- `lua_setmetatable`: pop a table or nil and make it the metatable of the value
at `idx` (a table, or the strings as a whole).  Other uses are reported as `api`. -/
def lua_setmetatable (idx : Int) : LuaM Unit :=
  fun L => match L.stack with
    | mt :: rest =>
      match mt, index2value L idx with
      | Value.nil, some (Value.table id) =>
        Res.ok () { L with stack := rest
                           metatable := fun j => if j = id then none else L.metatable j }
      | Value.table m, some (Value.table id) =>
        Res.ok () { L with stack := rest
                           metatable := fun j => if j = id then some m else L.metatable j }
      | Value.nil, some (Value.string _) => Res.ok () { L with stack := rest, stringMeta := none }
      | Value.table m, some (Value.string _) =>
        Res.ok () { L with stack := rest, stringMeta := some m }
      | _, _ => Res.raise LuaError.api L
    | [] => Res.raise LuaError.api L

/-- `luaL_checkstring`: the string at `idx`; a number is converted to its
rendering, in place; anything else is an argument error. -/
def luaL_checkstring (idx : Int) : LuaM String :=
  fun L => match index2value L idx with
    | some (Value.string s) => Res.ok s L
    | some (Value.number n) =>
      Res.ok (toString n)
        { L with stack := L.stack.set (if 0 < idx then L.stack.length - idx.toNat
                                       else (-idx).toNat - 1) (Value.string (toString n)) }
    | _ => Res.raise (LuaError.arg idx "string expected") L

/-- `luaL_argcheck`: raise an argument error unless the condition holds. -/
def luaL_argcheck (cond : Bool) (position : Int) (msg : String) : LuaM Unit :=
  fun L => if cond then Res.ok () L else Res.raise (LuaError.arg position msg) L

/-- `luaL_error`. -/
def luaL_error {σ α : Type} (msg : String) : Run σ α := raise (LuaError.error msg)

/-- A value converted to a C `int` (`static_cast<int>`, or an argument of `%d`):
wrapped to 32 bits, two's complement. -/
def toInt32 (n : Int) : Int := (n + 2147483648) % 4294967296 - 2147483648

/-- `sprintf( buffer, "$$%d", index )`: the text written to the buffer; the index
reaches `%d` as a C `int`. -/
def anonymousId (index : Nat) : String := "$$" ++ toString (toInt32 index)

/-! ## `luaxx.cpp` -/

/-- The keyword used to store the address of objects. -/
def THIS_KEYWORD : String := "__luaxx_this"

/-- The keyword used to store the type of an object. -/
def TYPE_KEYWORD : String := "__luaxx_type"

/-- The keyword used to store the weak objects table in the registry. -/
def WEAK_OBJECTS_KEYWORD : String := "__luaxx_weak_objects"

/-- `luaxx_attach`: stamp the table on top of the stack with the address and the
type name and store it in the registry under the address. -/
def luaxx_attach (object : Nat) (tname : String) : LuaM Unit := do
  lua_pushstring THIS_KEYWORD
  lua_pushlightuserdata object
  lua_rawset (-3)
  lua_pushstring TYPE_KEYWORD
  lua_pushstring tname
  lua_rawset (-3)
  lua_pushlightuserdata object
  lua_pushvalue (-2)
  lua_rawset LUA_REGISTRYINDEX

/-- `luaxx_create`: a new table, attached to `object`, then popped. -/
def luaxx_create (object : Nat) (tname : String) : LuaM Unit := do
  lua_newtable
  luaxx_attach object tname
  lua_pop 1

/-- `luaxx_push`: push the table of `object` from the registry or, failing that,
from the weak objects table; nil for the null address or when there is none.
Returns whether a table was pushed. -/
def luaxx_push (object : Nat) : LuaM Bool := do
  if object ≠ 0 then
    lua_pushlightuserdata object
    lua_rawget LUA_REGISTRYINDEX
    if (← lua_isnil (-1)) then
      lua_pop 1
      lua_getfield LUA_REGISTRYINDEX WEAK_OBJECTS_KEYWORD
      lua_pushlightuserdata object
      lua_rawget (-2)
      lua_remove (-2)
    if !(← lua_istable (-1)) && !(← lua_isnil (-1)) then
      lua_pop 1
      lua_pushnil
  else
    lua_pushnil
  lua_istable (-1)

/-- `luaxx_remove`: erase the registry entry of `object` and, when the weak
objects table exists, its entry there.  The result is the final value of the
caller's `*weak` flag, which enters as `weak`. -/
def luaxx_remove (object : Nat) (weak : Bool) : LuaM Bool := do
  lua_pushlightuserdata object
  lua_pushnil
  lua_rawset LUA_REGISTRYINDEX
  lua_getfield LUA_REGISTRYINDEX WEAK_OBJECTS_KEYWORD
  let mut flag := weak
  if (← lua_istable (-1)) then
    lua_pushlightuserdata object
    lua_pushnil
    lua_rawset (-3)
    flag := true
  lua_pop 1
  return flag

/-- `luaxx_destroy`: clear the stamp of the table of `object`, then remove the
registry and weak entries of `object`. -/
def luaxx_destroy (object : Nat) : LuaM Unit := do
  let _ ← luaxx_push object
  if (← lua_istable (-1)) then
    lua_pushstring THIS_KEYWORD
    lua_pushnil
    lua_rawset (-3)
    lua_pushstring TYPE_KEYWORD
    lua_pushnil
    lua_rawset (-3)
  lua_pop 1
  let _ ← luaxx_remove object false

/-- `luaxx_weaken`: move the table of `object` from the registry to the weak
objects table; nothing when there is no table in the registry. -/
def luaxx_weaken (object : Nat) : LuaM Unit := do
  if object ≠ 0 then
    lua_getfield LUA_REGISTRYINDEX WEAK_OBJECTS_KEYWORD
    lua_pushlightuserdata object
    lua_rawget LUA_REGISTRYINDEX
    if (← lua_istable (-1)) then
      lua_pushlightuserdata object
      lua_pushvalue (-2)
      lua_rawset (-4)
      lua_pushlightuserdata object
      lua_pushnil
      lua_rawset LUA_REGISTRYINDEX
    lua_pop 2

/-- `luaxx_strengthen`: move the table of `object` from the weak objects table
back to the registry; nothing when there is no table in the weak table. -/
def luaxx_strengthen (object : Nat) : LuaM Unit := do
  if object ≠ 0 then
    lua_getfield LUA_REGISTRYINDEX WEAK_OBJECTS_KEYWORD
    lua_pushlightuserdata object
    lua_rawget (-2)
    if (← lua_istable (-1)) then
      lua_pushlightuserdata object
      lua_pushvalue (-2)
      lua_rawset LUA_REGISTRYINDEX
      lua_pushlightuserdata object
      lua_pushnil
      lua_rawset (-4)
    lua_pop 2

/-- `luaxx_swap`: exchange the tables of `object` and `other_object`, then
weaken each address whose `luaxx_remove` flag came back set. -/
def luaxx_swap (object other_object : Nat) : LuaM Unit := do
  lua_pushlightuserdata other_object
  let _ ← luaxx_push object
  let object_weak ← luaxx_remove object false
  lua_pushlightuserdata object
  let _ ← luaxx_push other_object
  let other_object_weak ← luaxx_remove other_object false
  lua_rawset LUA_REGISTRYINDEX
  lua_rawset LUA_REGISTRYINDEX
  if object_weak then
    luaxx_weaken object
  if other_object_weak then
    luaxx_weaken other_object

/-- `luaxx_to`: the address stamped on the value at `position` when its type
stamp equals `tname`, the null address otherwise. -/
def luaxx_to (position : Int) (tname : String) : LuaM Nat := do
  let mut object := 0
  lua_pushstring tname
  lua_pushstring TYPE_KEYWORD
  lua_gettable position
  if (← lua_rawequal (-1) (-2)) then
    lua_pushstring THIS_KEYWORD
    lua_gettable position
    if (← lua_islightuserdata (-1)) then
      object ← lua_touserdata (-1)
    lua_pop 1
  lua_pop 2
  return object

/-- `luaxx_check`: as `luaxx_to`, raising an argument error on the null address. -/
def luaxx_check (position : Int) (tname : String) : LuaM Nat := do
  let object ← luaxx_to position tname
  luaL_argcheck (decide (object ≠ 0)) position "this pointer not set or C++ object has been destroyed"
  return object

/-! ## The graph side: `Target`, `Graph` and the objects around the Lua state -/

/-- The members of `Target` (`Target.hpp` is not under src) that the script
binding reads and writes.  Addresses of other objects are `Nat`, null is `0`. -/
structure Target where
  referenced_by_script : Bool
  prototype : Nat
  working_directory : Nat
  anonymous_index : Nat
  filenames : List String := []
  dependencies : List Nat := []
  path : String := ""

/-- The members of `Graph` (`Graph.hpp`) that the script functions read. -/
structure Graph where
  traversal_in_progress : Bool
  visited_revision : Int
  successful_revision : Int

/-- A call into the graph or the scheduler, recorded in order. -/
inductive Call where
  | bind (target : Nat)
  | postorder (function : Int) (target : Nat)
  | target (id : String) (prototype working_directory : Nat)
  deriving DecidableEq, Repr

/-- Everything one `Forge` owns: the Lua state, the graph, the targets by
address, the working directory of the context, the object holding the
metatable of target tables (`LuaTarget::target_metatable_`), the record of calls
made to `Graph::target`, `Graph::bind` and `Scheduler::postorder`, and the
address of the `LuaTarget` object that the target methods carry as upvalue. -/
structure World where
  lua : LuaState
  graph : Graph
  targets : Nat → Target
  working_directory : Nat
  target_metatable : Nat
  calls : List Call
  lua_target_api : Nat := 0

/-- What the script functions use and src does not hold: the type names of
`types.hpp`, `Graph::target`, `Graph::bind`, `Scheduler::postorder`, and
`luaL_ref` / `luaL_unref` of the Lua auxiliary library. -/
structure Env where
  FORGE_TYPE : String
  TARGET_TYPE : String
  TARGET_PROTOTYPE_TYPE : String
  graph_target : String → Nat → Nat → World → Option (Nat × World)
  graph_bind : Nat → World → Int × World
  scheduler_postorder : Int → Nat → World → Int × World
  luaL_ref : Int → LuaM Int
  luaL_unref : Int → Int → LuaM Unit

/-- Run a Lua computation on the Lua state of the world. -/
def liftLua {α : Type} (m : LuaM α) : Run World α :=
  fun W => match m W.lua with
    | Res.ok a L => Res.ok a { W with lua := L }
    | Res.raise e L => Res.raise e { W with lua := L }

/-- The current world. -/
def getW : Run World World := fun W => Res.ok W W

/-- `Target::referenced_by_script` of the target at an address. -/
def World.referenced_by_script (W : World) (target : Nat) : Bool :=
  (W.targets target).referenced_by_script

/-- `Target::set_referenced_by_script`. -/
def Target.set_referenced_by_script (target : Nat) (value : Bool) : Run World Unit :=
  fun W => Res.ok () { W with
    targets := fun a =>
      if a = target then { W.targets a with referenced_by_script := value }
      else W.targets a }

/-- `Target::set_prototype`. -/
def Target.set_prototype (target prototype : Nat) : Run World Unit :=
  fun W => Res.ok () { W with
    targets := fun a =>
      if a = target then { W.targets a with prototype := prototype }
      else W.targets a }

/-- `Target::set_working_directory`. -/
def Target.set_working_directory (target working_directory : Nat) : Run World Unit :=
  fun W => Res.ok () { W with
    targets := fun a =>
      if a = target then { W.targets a with working_directory := working_directory }
      else W.targets a }

/-- Modelled from the spec: `Target::next_anonymous_index` is not under src; the
spec gives a monotonic counter per target, so the call returns the counter and
advances it. -/
def Target.next_anonymous_index (target : Nat) : Run World Nat :=
  fun W => Res.ok (W.targets target).anonymous_index { W with
    targets := fun a =>
      if a = target then
        { W.targets a with anonymous_index := (W.targets a).anonymous_index + 1 }
      else W.targets a }

/-- `Graph::target`, supplied by the environment; the call is recorded; a failure
surfaces as a script error. -/
def Graph.target (env : Env) (id : String) (prototype working_directory : Nat) : Run World Nat :=
  fun W => match env.graph_target id prototype working_directory W with
    | some (target, W1) =>
      Res.ok target { W1 with calls := W1.calls ++ [Call.target id prototype working_directory] }
    | none =>
      Res.raise (LuaError.error "Graph::target failed")
        { W with calls := W.calls ++ [Call.target id prototype working_directory] }

/-- `Graph::bind`, supplied by the environment; the call is recorded. -/
def Graph.bind (env : Env) (target : Nat) : Run World Int :=
  fun W =>
    let r := env.graph_bind target W
    Res.ok r.1 { r.2 with calls := r.2.calls ++ [Call.bind target] }

/-- `Scheduler::postorder`, supplied by the environment; the call is recorded. -/
def Scheduler.postorder (env : Env) (function : Int) (target : Nat) : Run World Int :=
  fun W =>
    let r := env.scheduler_postorder function target W
    Res.ok r.1 { r.2 with calls := r.2.calls ++ [Call.postorder function target] }

/-- Modelled from the spec: `Lua::create( object )` of sweet::lua is not under
src; it is the spec's `create(object, type_name)`, here `luaxx_create` with the
type name of targets. -/
def Lua.create (env : Env) (object : Nat) : LuaM Unit := luaxx_create object env.TARGET_TYPE

/-- Modelled from the spec: `Lua::destroy( object )` of sweet::lua is not under
src; it is the spec's `destroy(object)`, here `luaxx_destroy`. -/
def Lua.destroy (object : Nat) : LuaM Unit := luaxx_destroy object

/-- Modelled from the spec: `lua_->members( object ).type( ... )` of sweet::lua is
not under src; it writes the type stamp of the table registered for `object`. -/
def members_type (object : Nat) (tname : String) : LuaM Unit := do
  let _ ← luaxx_push object
  if (← lua_istable (-1)) then
    lua_pushstring TYPE_KEYWORD
    lua_pushstring tname
    lua_rawset (-3)
  lua_pop 1

/-- Modelled from the spec: `lua_->members( object ).this_pointer( ... )` of
sweet::lua is not under src; it writes the address stamp of the table
registered for `object`. -/
def members_this_pointer (object this_pointer : Nat) : LuaM Unit := do
  let _ ← luaxx_push object
  if (← lua_istable (-1)) then
    lua_pushstring THIS_KEYWORD
    lua_pushlightuserdata this_pointer
    lua_rawset (-3)
  lua_pop 1

/-- Modelled from the spec: `lua_->members( object ).metatable( other )` of
sweet::lua is not under src; it makes the table registered for `other` (nil when
there is none) the metatable of the table registered for `object`. -/
def members_metatable (object other : Nat) : LuaM Unit := do
  let _ ← luaxx_push object
  if (← lua_istable (-1)) then
    let _ ← luaxx_push other
    lua_setmetatable (-2)
  lua_pop 1

/-- `LuaTarget::recover_target`. -/
def LuaTarget.recover_target (env : Env) (target : Nat) : Run World Unit := do
  let W ← getW
  liftLua (members_type target env.TARGET_TYPE)
  liftLua (members_metatable target W.target_metatable)
  liftLua (members_this_pointer target target)

/-- `LuaTarget::update_target`. -/
def LuaTarget.update_target (target : Nat) : Run World Unit := do
  let W ← getW
  let target_prototype := (W.targets target).prototype
  if target_prototype ≠ 0 then
    liftLua (members_metatable target target_prototype)
  else
    liftLua (members_metatable target W.target_metatable)

/-- `LuaTarget::create_target`. -/
def LuaTarget.create_target (env : Env) (target : Nat) : Run World Unit := do
  if !((← getW).referenced_by_script target) then
    liftLua (Lua.create env target)
    Target.set_referenced_by_script target true
    LuaTarget.recover_target env target
    LuaTarget.update_target target

/-- `LuaTarget::destroy_target`. -/
def LuaTarget.destroy_target (target : Nat) : Run World Unit := do
  liftLua (Lua.destroy target)
  Target.set_referenced_by_script target false

/-- `LuaGraph::add_target`.  `Forge::create_target_lua_binding`,
`recover_target_lua_binding` and `update_target_lua_binding` (not under src)
are taken to forward to the `LuaTarget` functions of the same names; the
address returned by `luaxx_check` designates the `Forge` that owns the world. -/
def LuaGraph.add_target (env : Env) : Run World Nat := do
  let FORGE : Int := 1
  let ID : Int := 2
  let PROTOTYPE : Int := 3
  let TABLE : Int := 4
  let _ ← liftLua (luaxx_check FORGE env.FORGE_TYPE)
  let working_directory := (← getW).working_directory
  let anonymous ← liftLua (lua_isnoneornil ID)
  let id ← if !anonymous then liftLua (luaL_checkstring ID)
    else do
      let index ← Target.next_anonymous_index working_directory
      pure (anonymousId index)
  let target_prototype ← liftLua (luaxx_to PROTOTYPE env.TARGET_PROTOTYPE_TYPE)
  let target ← Graph.target env id target_prototype working_directory
  if !((← getW).referenced_by_script target) then
    if !(← liftLua (lua_isnoneornil TABLE)) then
      liftLua (luaL_argcheck (← liftLua (lua_istable TABLE)) TABLE
        "Table or nothing expected as third parameter when creating a target")
      liftLua (lua_pushvalue TABLE)
      liftLua (luaxx_attach target env.TARGET_TYPE)
      Target.set_referenced_by_script target true
      Target.set_prototype target target_prototype
      Target.set_working_directory target working_directory
      LuaTarget.recover_target env target
      LuaTarget.update_target target
    else
      LuaTarget.create_target env target
      LuaTarget.recover_target env target
      LuaTarget.update_target target
  return target

/-- `LuaGraph::postorder`.  The result is the number of values returned to the
script; the value itself is on top of the stack. -/
def LuaGraph.postorder (env : Env) : Run World Int := do
  let FORGE : Int := 1
  let FUNCTION : Int := 2
  let TARGET : Int := 3
  let _ ← liftLua (luaxx_check FORGE env.FORGE_TYPE)
  if (← getW).graph.traversal_in_progress then
    luaL_error "Postorder called from within another bind or postorder traversal"
  else
    let mut target := 0
    if !(← liftLua (lua_isnoneornil TARGET)) then
      target ← liftLua (luaxx_to TARGET env.TARGET_TYPE)
    let bind_failures ← Graph.bind env target
    if bind_failures > 0 then
      liftLua (lua_pushinteger bind_failures)
      return 1
    else
      liftLua (lua_pushvalue FUNCTION)
      let function ← liftLua (env.luaL_ref LUA_REGISTRYINDEX)
      let failures ← Scheduler.postorder env function target
      liftLua (lua_pushinteger failures)
      liftLua (env.luaL_unref LUA_REGISTRYINDEX function)
      return 1

/-- The world with the stack the caller has set up for a call. -/
def World.withStack (W : World) (stack : List Value) : World :=
  { W with lua := { W.lua with stack := stack } }

/-! ## More of the stack API, for the script methods of targets -/

/-- The numeral a string converts to, if any.  Numbers are integers in this
embedding, so the convertible strings are the decimal integer literals. -/
def stringToNumber (s : String) : Option Int := s.toInt?

/-- `lua_isnumber`: a number, or a string convertible to a number. -/
def lua_isnumber (idx : Int) : LuaM Bool :=
  fun L => Res.ok (match index2value L idx with
    | some (Value.number _) => true
    | some (Value.string s) => (stringToNumber s).isSome
    | _ => false) L

/-- `lua_tointeger`: the integer of a number or of a convertible string, 0 otherwise. -/
def lua_tointeger (idx : Int) : LuaM Int :=
  fun L => Res.ok (match index2value L idx with
    | some (Value.number n) => n
    | some (Value.string s) => (stringToNumber s).getD 0
    | _ => 0) L

/-- `lua_tostring`: the string at `idx`; a number is converted to its rendering,
in place; for anything else the result is the null pointer (`none`). -/
def lua_tostring (idx : Int) : LuaM (Option String) :=
  fun L => match index2value L idx with
    | some (Value.string s) => Res.ok (some s) L
    | some (Value.number n) =>
      Res.ok (some (toString n))
        { L with stack := L.stack.set (if 0 < idx then L.stack.length - idx.toNat
                                       else (-idx).toNat - 1) (Value.string (toString n)) }
    | _ => Res.ok none L

/-- The first `len` bytes of the C string `s`, whose buffer ends with a NUL byte. -/
def cBytes (s : String) (len : Nat) : String :=
  String.mk ((s.data ++ [Char.ofNat 0]).take len)

/-- `lua_pushlstring`: push the string made of the first `len` bytes at `s`. -/
def lua_pushlstring (s : String) (len : Nat) : LuaM Unit := push (Value.string (cBytes s len))

/-- `lua_pushcclosure`: pop `n` upvalues and push the C function `fn` closed over
them.  A closure is identified by its C function. -/
def lua_pushcclosure (fn : Nat) (n : Nat) : LuaM Unit :=
  fun L => Res.ok () { L with stack := Value.function fn :: L.stack.drop n }

/-! ## The script functions of `LuaGraph` and the script methods of `LuaTarget` -/

/-- `LuaGraph::target`: the result is on top of the stack. -/
def LuaGraph.target (env : Env) : Run World Int := do
  let target ← LuaGraph.add_target env
  let _ ← liftLua (luaxx_push target)
  return 1

/-- Modelled from the spec: `Target::path` is not under src; the path of a target
is taken as given with the target. -/
def World.path (W : World) (target : Nat) : String := (W.targets target).path

/-- The filenames with `s` stored at position `i`, the list being extended with
empty strings as far as needed. -/
def setFilenameAt (filenames : List String) (i : Nat) (s : String) : List String :=
  (filenames ++ List.replicate (i + 1 - filenames.length) "").set i s

/-- Modelled from the spec: `Target::set_filename( filename, index )` is not under
src; the spec has it extend `filenames` with empty strings so that the length
is at least `index + 1` and store the filename there.  A null target, a null
filename or a negative index is outside what the spec defines: `api`. -/
def Target.set_filename (target : Nat) (filename : Option String) (index : Int) :
    Run World Unit :=
  fun W => match filename with
    | some s =>
      if target ≠ 0 ∧ 0 ≤ index then
        Res.ok () { W with
          targets := fun a =>
            if a = target then
              { W.targets a with filenames := setFilenameAt (W.targets a).filenames index.toNat s }
            else W.targets a }
      else Res.raise LuaError.api W
    | none => Res.raise LuaError.api W

/-- Modelled from the spec: `Target::filenames` is not under src; the ordered
sequence of filenames of the target. -/
def World.filenames (W : World) (target : Nat) : List String := (W.targets target).filenames

/-- Modelled from the spec: `Target::filename( index )` is not under src; the
filename at a position of `filenames()`, counted from 0. -/
def World.filename (W : World) (target : Nat) (index : Nat) : String :=
  (W.filenames target).getD index ""

/-- Modelled from the spec: `Target::dependency( index )` is not under src; the
dependency at a position counted from 0, the null address when there is none
(both callers test the result for null). -/
def World.dependency (W : World) (target : Nat) (index : Int) : Nat :=
  if 0 ≤ index then (W.targets target).dependencies.getD index.toNat 0 else 0

/-- `LuaGraph::file`: the result is on top of the stack.  The source calls
`target->set_filename( target->path() )` with one argument; the index it leaves
out is taken to default to 0, the first filename. -/
def LuaGraph.file (env : Env) : Run World Int := do
  let target ← LuaGraph.add_target env
  Target.set_filename target (some ((← getW).path target)) 0
  let _ ← liftLua (luaxx_push target)
  return 1

/-- `LuaGraph::anonymous`: the result is on top of the stack.  The NUL the source
writes at `min( length, 255 )` lies past the `length` bytes that are pushed. -/
def LuaGraph.anonymous (env : Env) : Run World Int := do
  let FORGE : Int := 1
  let _ ← liftLua (luaxx_check FORGE env.FORGE_TYPE)
  let working_directory := (← getW).working_directory
  let index ← Target.next_anonymous_index working_directory
  let anonymous := anonymousId index
  let length := anonymous.length
  liftLua (lua_pushlstring anonymous length)
  return 1

/-- Modelled from the spec: `LuaConverter<Target*>::to` of sweet::lua is not under
src; it is the spec's `to(position, type_name)`, here `luaxx_to` with the type
name of targets. -/
def LuaConverter.to (env : Env) (position : Int) : LuaM Nat := luaxx_to position env.TARGET_TYPE

/-- Modelled from the spec: `LuaConverter<Target*>::push` of sweet::lua is not
under src; it is the spec's `push(object)`, here `luaxx_push`. -/
def LuaConverter.push (target : Nat) : LuaM Unit := do
  let _ ← luaxx_push target

/-- `LuaTarget::set_filename`. -/
def LuaTarget.set_filename (env : Env) : Run World Int := do
  let TARGET : Int := 1
  let FILENAME : Int := 2
  let INDEX : Int := 3
  let target ← liftLua (LuaConverter.to env TARGET)
  let filename ← liftLua (lua_tostring FILENAME)
  let isnumber ← liftLua (lua_isnumber INDEX)
  let integer ← liftLua (lua_tointeger INDEX)
  let index : Int := if isnumber then toInt32 integer else 0
  Target.set_filename target filename index
  return 0

/-- `LuaTarget::filename`: the result is on top of the stack. -/
def LuaTarget.filename (env : Env) : Run World Int := do
  let TARGET : Int := 1
  let INDEX : Int := 2
  let target ← liftLua (LuaConverter.to env TARGET)
  liftLua (luaL_argcheck (decide (target ≠ 0)) TARGET "expected target table")
  let isnumber ← liftLua (lua_isnumber INDEX)
  let integer ← liftLua (lua_tointeger INDEX)
  let index : Int := if isnumber then toInt32 integer else 1
  liftLua (luaL_argcheck (decide (index ≥ 1)) INDEX "expected index >= 1")
  let index := index - 1
  if index < toInt32 ((← getW).filenames target).length then
    let filename := (← getW).filename target index.toNat
    liftLua (lua_pushlstring filename filename.length)
  else
    liftLua (lua_pushlstring "" 1)
  return 1

/-- `LuaTarget::dependency`: the result is on top of the stack. -/
def LuaTarget.dependency (env : Env) : Run World Int := do
  let TARGET : Int := 1
  let INDEX : Int := 2
  let target ← liftLua (LuaConverter.to env TARGET)
  liftLua (luaL_argcheck (decide (target ≠ 0)) TARGET "expected target table")
  let isnumber ← liftLua (lua_isnumber INDEX)
  let integer ← liftLua (lua_tointeger INDEX)
  let index : Int := if isnumber then toInt32 integer else 1
  liftLua (luaL_argcheck (decide (index ≥ 1)) INDEX "expected index >= 1")
  let index := index - 1
  let dependency := (← getW).dependency target index
  if dependency ≠ 0 then
    if !((← getW).referenced_by_script dependency) then
      LuaTarget.create_target env dependency
    liftLua (LuaConverter.push dependency)
  else
    liftLua lua_pushnil
  return 1

/-- `LuaTarget::dependencies_iterator`: the result is the number of values
returned, the values are on top of the stack. -/
def LuaTarget.dependencies_iterator (env : Env) : Run World Int := do
  let TARGET : Int := 1
  let INDEX : Int := 2
  let target ← liftLua (LuaConverter.to env TARGET)
  let index := toInt32 (← liftLua (lua_tointeger INDEX))
  if target ≠ 0 then
    let dependency := (← getW).dependency target (index - 1)
    if dependency ≠ 0 then
      if !((← getW).referenced_by_script dependency) then
        LuaTarget.create_target env dependency
      liftLua (lua_pushinteger (index + 1))
      liftLua (LuaConverter.push dependency)
      return 2
  return 0

/-- The C function `LuaTarget::dependencies_iterator` as a function value. -/
def DEPENDENCIES_ITERATOR : Nat := 1

/-- `LuaTarget::dependencies`: three values are returned, on top of the stack. -/
def LuaTarget.dependencies (env : Env) : Run World Int := do
  let TARGET : Int := 1
  let target ← liftLua (LuaConverter.to env TARGET)
  liftLua (luaL_argcheck (decide (target ≠ 0)) TARGET "expected target table")
  let lua_target_api := (← getW).lua_target_api
  liftLua (lua_pushlightuserdata lua_target_api)
  liftLua (lua_pushcclosure DEPENDENCIES_ITERATOR 1)
  liftLua (LuaConverter.push target)
  liftLua (lua_pushinteger 1)
  return 3

/-- The generic `for` of Lua driving `dependencies_iterator` from a state and a
control value: the iterator is called with the state at position 1 and the
control value at position 2; no value or a nil first value ends the loop,
otherwise the first value is the next control value and the loop body runs
with the two values, in the world the iterator left; the body is empty.  The
result lists, for each run of the body, the two values and that world; it is
`none` when the fuel runs out or the iterator raises. -/
def genericFor (env : Env) :
    Nat → World → Value → Value → Option (List (Value × Value × World) × World)
  | 0, _, _, _ => none
  | fuel + 1, W, state, control =>
    match LuaTarget.dependencies_iterator env (W.withStack [control, state]) with
    | Res.ok r W1 =>
      if r = 0 then some ([], W1)
      else match W1.lua.stack with
        | v2 :: v1 :: _ =>
          if v1 = Value.nil then some ([], W1)
          else match genericFor env fuel W1 state v1 with
            | some (yielded, W2) => some ((v1, v2, W1) :: yielded, W2)
            | none => none
        | _ => none
    | Res.raise _ _ => none

/-! ## Observations on the two registries -/

/-- The weak objects table exists and is the heap table `w`. -/
def weakTable (L : LuaState) (w : Nat) : Prop :=
  L.registry (Value.string WEAK_OBJECTS_KEYWORD) = Value.table w

/-- Entry of an address in the strong registry. -/
def strongEntry (L : LuaState) (a : Nat) : Value := L.registry (Value.lightuserdata a)

/-- Entry of an address in the weak objects table `w`. -/
def weakEntry (L : LuaState) (w a : Nat) : Value := L.heap w (Value.lightuserdata a)

/-- A table stays, anything else reads as nil. -/
def tableOrNil : Value → Value
  | Value.table id => Value.table id
  | _ => Value.nil

/-- The value `luaxx_push` leaves on the stack: nil for the null address, the
strong entry when there is one, the weak entry otherwise; a non-table reads as nil. -/
def lookup (L : LuaState) (w a : Nat) : Value :=
  if a = 0 then Value.nil
  else if strongEntry L a = Value.nil then tableOrNil (weakEntry L w a)
  else tableOrNil (strongEntry L a)

/-- The address has a table in the strong registry only. -/
def StronglyBound (L : LuaState) (w a t : Nat) : Prop :=
  strongEntry L a = Value.table t ∧ weakEntry L w a = Value.nil

/-- The address has a table in the weak objects table only. -/
def WeaklyBound (L : LuaState) (w a t : Nat) : Prop :=
  strongEntry L a = Value.nil ∧ weakEntry L w a = Value.table t

/-- The address has no entry in either registry. -/
def Unbound (L : LuaState) (w a : Nat) : Prop :=
  strongEntry L a = Value.nil ∧ weakEntry L w a = Value.nil

/-- The value `luaxx_push object` leaves on top of the stack, when it returns. -/
def pushed (L : LuaState) (object : Nat) : Option Value :=
  match luaxx_push object L with
  | Res.ok _ L1 => L1.stack.head?
  | Res.raise _ _ => none

/-- The error of an outcome that raised. -/
def Res.error? {σ α : Type} : Res σ α → Option LuaError
  | Res.ok _ _ => none
  | Res.raise e _ => some e

/-- The value returned by an outcome that returned. -/
def Res.value? {σ α : Type} : Res σ α → Option α
  | Res.ok a _ => some a
  | Res.raise _ _ => none

/-! ## Concrete states used to evaluate the code -/

/-- A state whose weak objects table is heap table 1, with address 7 strongly
bound to table 2, address 8 strongly bound to table 3 and address 9 weakly
bound to table 4; the stack is empty. -/
def sampleState : LuaState :=
  { stack := []
    registry := fun k =>
      if k = Value.string WEAK_OBJECTS_KEYWORD then Value.table 1
      else if k = Value.lightuserdata 7 then Value.table 2
      else if k = Value.lightuserdata 8 then Value.table 3
      else Value.nil
    heap := fun j => if j = 1 then setRaw emptyFields (Value.lightuserdata 9) (Value.table 4)
                     else emptyFields
    metatable := fun _ => none
    stringMeta := none
    next := 5 }

/-- A state in which address 7 is strongly bound to table 2, stamped as a
"Target"; table 2 has the metatable 5 whose `__index` is table 6, and table 6
is itself stamped (type "Target", address 9), as the table of methods that
target tables inherit from is.  Table 2 is on the stack. -/
def inheritingState : LuaState :=
  { stack := [Value.table 2]
    registry := fun k =>
      if k = Value.string WEAK_OBJECTS_KEYWORD then Value.table 1
      else if k = Value.lightuserdata 7 then Value.table 2
      else if k = Value.lightuserdata 9 then Value.table 6
      else Value.nil
    heap := fun j =>
      if j = 2 then
        setRaw (setRaw emptyFields (Value.string THIS_KEYWORD) (Value.lightuserdata 7))
          (Value.string TYPE_KEYWORD) (Value.string "Target")
      else if j = 5 then setRaw emptyFields (Value.string "__index") (Value.table 6)
      else if j = 6 then
        setRaw (setRaw emptyFields (Value.string THIS_KEYWORD) (Value.lightuserdata 9))
          (Value.string TYPE_KEYWORD) (Value.string "Target")
      else emptyFields
    metatable := fun j => if j = 2 then some 5 else none
    stringMeta := none
    next := 7 }

/-- The stack of a script call `forge:target( "foo", nil, {} )`: the forge table
(table 10) at position 1, the id at 2, nil for the prototype at 3 and the
attributes table (table 11) at 4. -/
def callState : LuaState :=
  { sampleState with
    stack := [Value.table 11, Value.nil, Value.string "foo", Value.table 10]
    next := 12 }

/-- Everything of a Lua state but its stack. -/
def sameButStack (L M : LuaState) : Prop :=
  M.registry = L.registry ∧ M.heap = L.heap ∧ M.metatable = L.metatable ∧
  M.stringMeta = L.stringMeta ∧ M.next = L.next

/-- An environment for evaluation: fixed type names, a graph that resolves
every id to the working directory, a bind and a traversal without failures,
and references numbered from 1. -/
def sampleEnv : Env :=
  { FORGE_TYPE := "forge.Forge"
    TARGET_TYPE := "forge.Target"
    TARGET_PROTOTYPE_TYPE := "forge.TargetPrototype"
    graph_target := fun _ _ working_directory W => some (working_directory, W)
    graph_bind := fun _ W => (0, W)
    scheduler_postorder := fun _ _ W => (0, W)
    luaL_ref := fun _ L =>
      Res.ok 1 { L with stack := L.stack.drop 1
                        registry := setRaw L.registry (Value.number 1) (L.stack.headD Value.nil) }
    luaL_unref := fun _ n L =>
      Res.ok () { L with registry := setRaw L.registry (Value.number n) Value.nil } }

/-- A world at the call `forge:postorder( f )`: the forge table (table 10, stamped
for the Forge at address 100) at position 1 and the callback at position 2.
The targets at addresses 7, 8 and 9 are referenced by script and bound as in
`sampleState`; address 7 is the working directory.  No traversal is running. -/
def sampleWorld : World :=
  { lua :=
      { sampleState with
        stack := [Value.function 1, Value.table 10]
        heap := fun j =>
          if j = 10 then
            setRaw (setRaw emptyFields (Value.string THIS_KEYWORD) (Value.lightuserdata 100))
              (Value.string TYPE_KEYWORD) (Value.string "forge.Forge")
          else sampleState.heap j
        next := 11 }
    graph := { traversal_in_progress := false, visited_revision := 3, successful_revision := 2 }
    targets := fun a =>
      { referenced_by_script := decide (a = 7 ∨ a = 8 ∨ a = 9)
        prototype := 0
        working_directory := 7
        anonymous_index := 0 }
    working_directory := 7
    target_metatable := 20
    calls := [] }

/-- The same world in the middle of a traversal. -/
def traversingWorld : World :=
  { sampleWorld with
    graph := { traversal_in_progress := true, visited_revision := 3, successful_revision := 2 }
    calls := [Call.bind 0] }

/-! ## The binding invariant -/

/-- The binding invariant of the graph: the weak objects table exists (and is an
allocated table), and every target, at a non-null address, is flagged
`referenced_by_script` exactly when the binding layer has a table registered
for its address, i.e. when `luaxx_push` of the address pushes a table. -/
def BindingInvariant (w : Nat) (W : World) : Prop :=
  weakTable W.lua w ∧ w < W.lua.next ∧
  ∀ a, a ≠ 0 → (W.referenced_by_script a = true ↔ isTable (lookup W.lua w a) = true)

/-- The binding invariant at every address other than `t`. -/
def InvariantBut (w t : Nat) (W : World) : Prop :=
  weakTable W.lua w ∧ w < W.lua.next ∧
  ∀ a, a ≠ 0 → a ≠ t →
    (W.referenced_by_script a = true ↔ isTable (lookup W.lua w a) = true)

/-- The second Lua state keeps the weak objects table and the entries of every
address in both registries, and has allocated no fewer tables. -/
def EntriesKept (w : Nat) (L M : LuaState) : Prop :=
  M.registry (Value.string WEAK_OBJECTS_KEYWORD) = L.registry (Value.string WEAK_OBJECTS_KEYWORD) ∧
  L.next ≤ M.next ∧
  ∀ a, strongEntry M a = strongEntry L a ∧ weakEntry M w a = weakEntry L w a

/-- The second world keeps the registry entries and the `referenced_by_script`
flags of the first. -/
def BindingKept (w : Nat) (W W1 : World) : Prop :=
  EntriesKept w W.lua W1.lua ∧
  ∀ a, W1.referenced_by_script a = W.referenced_by_script a

/-- A triple: from a state satisfying `P` the computation ends in a state
satisfying `Q` when it returns and `R` when it raises. -/
def Hoare {σ α : Type} (P : σ → Prop) (m : Run σ α) (Q : α → σ → Prop) (R : σ → Prop) : Prop :=
  ∀ s, P s → match m s with
    | Res.ok a s1 => Q a s1
    | Res.raise _ s1 => R s1

/-- The Lua computation keeps the entries of both registries, returning or raising. -/
def KeepsEntries {α : Type} (w : Nat) (m : LuaM α) : Prop :=
  ∀ L, weakTable L w → EntriesKept w L (m L).state

/-- What is assumed of `Graph::target` (not under src): it leaves the Lua state
and the `referenced_by_script` flags alone. -/
def GraphTargetFrame (env : Env) : Prop :=
  ∀ (id : String) (prototype working_directory : Nat) (W W1 : World) (target : Nat),
    env.graph_target id prototype working_directory W = some (target, W1) →
    W1.lua = W.lua ∧ ∀ a, W1.referenced_by_script a = W.referenced_by_script a

/-- One call of `LuaTarget::create_target`, `LuaTarget::destroy_target` or
`LuaGraph::add_target`, on any target and any call stack, whether it returns or
raises. -/
inductive BindingStep (env : Env) : World → World → Prop where
  | create_target (W : World) (stack : List Value) (target : Nat) :
      BindingStep env W (LuaTarget.create_target env target (W.withStack stack)).state
  | destroy_target (W : World) (stack : List Value) (target : Nat) :
      BindingStep env W (LuaTarget.destroy_target target (W.withStack stack)).state
  | add_target (W : World) (stack : List Value) :
      BindingStep env W (LuaGraph.add_target env (W.withStack stack)).state

/-- No address has a table both in the strong registry and in the weak objects
table `w`. -/
def RegistriesDisjoint (L : LuaState) (w : Nat) : Prop :=
  ∀ a, ¬ (isTable (strongEntry L a) = true ∧ isTable (weakEntry L w a) = true)

/-- The environment `sampleEnv` with a bind that reports two failures. -/
def failingEnv : Env := { sampleEnv with graph_bind := fun _ W => (2, W) }

/-- A world for the script methods of targets: as `sampleWorld`, with the tables
2, 3 and 4 stamped for the targets at 7, 8 and 9; the target at 7 has the
filenames "a.o" and "b.o", the path "/work", and depends on the targets at 8
and 5, in that order; the target at 5 is not referenced by script and has no
table. -/
def targetWorld : World :=
  { sampleWorld with
    lua :=
      { sampleWorld.lua with
        stack := []
        heap := fun j =>
          if j = 2 then
            setRaw (setRaw emptyFields (Value.string THIS_KEYWORD) (Value.lightuserdata 7))
              (Value.string TYPE_KEYWORD) (Value.string "forge.Target")
          else if j = 3 then
            setRaw (setRaw emptyFields (Value.string THIS_KEYWORD) (Value.lightuserdata 8))
              (Value.string TYPE_KEYWORD) (Value.string "forge.Target")
          else if j = 4 then
            setRaw (setRaw emptyFields (Value.string THIS_KEYWORD) (Value.lightuserdata 9))
              (Value.string TYPE_KEYWORD) (Value.string "forge.Target")
          else sampleWorld.lua.heap j }
    targets := fun a =>
      if a = 7 then
        { sampleWorld.targets a with
          filenames := ["a.o", "b.o"], dependencies := [8, 5], path := "/work" }
      else sampleWorld.targets a }

/-- The values a script call left on the stack, the last one first; nothing when
the call raised. -/
def returned (r : Res World Int) : List Value :=
  match r with
  | Res.ok n W => W.lua.stack.take n.toNat
  | Res.raise _ _ => []

/-- A script call that draws an anonymous id, with the stack of the call:
`forge:anonymous()` or `forge:target( nil, prototype, attrs )`. -/
inductive IdCall where
  | anonymous (stack : List Value)
  | target (stack : List Value)

/-- The ids handed to `Graph::target` in a record of calls. -/
def idsOf (calls : List Call) : List String :=
  calls.filterMap fun c => match c with
    | Call.target id _ _ => some id
    | _ => none

/-- Run script calls one after the other, a call that raises being abandoned as
under `pcall`, and collect the ids in the order they are generated: the string
a call of `anonymous()` returns and the id a call of `target()` hands to
`Graph::target`. -/
def runIdCalls (env : Env) : List IdCall → World → List String × World
  | [], W => ([], W)
  | IdCall.anonymous stack :: cs, W =>
    match LuaGraph.anonymous env (W.withStack stack) with
    | Res.ok _ W1 =>
      let r := runIdCalls env cs W1
      ((match W1.lua.stack.head? with
        | some (Value.string s) => [s]
        | _ => []) ++ r.1, r.2)
    | Res.raise _ W1 => runIdCalls env cs W1
  | IdCall.target stack :: cs, W =>
    let W1 := (LuaGraph.target env (W.withStack stack)).state
    let r := runIdCalls env cs W1
    (idsOf (W1.calls.drop W.calls.length) ++ r.1, r.2)

/-- The call `forge:file( "foo", {} )` in `targetWorld`: the forge table (table
10) at position 1, the id at 2 and an unstamped table (table 11) for the
prototype at 3. -/
def fileWorld : World :=
  targetWorld.withStack [Value.table 11, Value.string "foo", Value.table 10]

/-- The metatable `lua_setmetatable` stores for a table or nil on top of the stack. -/
def metaOf : Value → Option Nat
  | Value.table m => some m
  | _ => none

/-- The second state has the table `T` bound to the address `t` and stamped with
`t` and the type name `u`; every other table and the binding of every other
address are those of the first state. -/
def BoundAs (w t T : Nat) (u : String) (L M : LuaState) : Prop :=
  weakTable M w ∧
  strongEntry M t = Value.table T ∧
  lookup M w t = Value.table T ∧
  M.heap T (Value.string THIS_KEYWORD) = Value.lightuserdata t ∧
  M.heap T (Value.string TYPE_KEYWORD) = Value.string u ∧
  (∀ j, j ≠ T → M.heap j = L.heap j) ∧
  (∀ a, a ≠ t → lookup M w a = lookup L w a)

/-- The second state is the first but for the stamps of the table `T`, now the
address `t` and the type name `u`, and for metatables. -/
def Restamped (t T : Nat) (u : String) (L M : LuaState) : Prop :=
  M.stack = L.stack ∧ M.registry = L.registry ∧ M.next = L.next ∧
  (∀ j, j ≠ T → M.heap j = L.heap j) ∧
  (∀ b, M.heap T (Value.lightuserdata b) = L.heap T (Value.lightuserdata b)) ∧
  M.heap T (Value.string THIS_KEYWORD) = Value.lightuserdata t ∧
  M.heap T (Value.string TYPE_KEYWORD) = Value.string u

/-- The second state is the first but for metatables. -/
def SameTables (L M : LuaState) : Prop :=
  M.stack = L.stack ∧ M.registry = L.registry ∧ M.next = L.next ∧ M.heap = L.heap

/-- The second world differs from the first in the Lua state and, for the target
at `t` only, in what binding a target sets: the `referenced_by_script` flag,
the prototype and the working directory. -/
def TargetTouched (t : Nat) (V V1 : World) : Prop :=
  V1.graph = V.graph ∧ V1.working_directory = V.working_directory ∧
  V1.target_metatable = V.target_metatable ∧ V1.calls = V.calls ∧
  V1.lua_target_api = V.lua_target_api ∧
  (∀ a, a ≠ t → V1.targets a = V.targets a) ∧
  (V1.targets t).filenames = (V.targets t).filenames ∧
  (V1.targets t).dependencies = (V.targets t).dependencies ∧
  (V1.targets t).path = (V.targets t).path ∧
  (V1.targets t).anonymous_index = (V.targets t).anonymous_index

/-- The environment `sampleEnv` with a graph that resolves every id to the target
at 5. -/
def freshEnv : Env := { sampleEnv with graph_target := fun _ _ _ W => some (5, W) }

/-- The call `forge:target( "foo", {}, {} )` in `targetWorld`: the forge table
(table 10) at position 1, the id at 2, an unstamped table (table 12) for the
prototype at 3 and the attributes table (table 11) at 4. -/
def attrsWorld : World :=
  { targetWorld with
    lua := { targetWorld.lua with
      stack := [Value.table 11, Value.table 12, Value.string "foo", Value.table 10]
      next := 13 } }

/-- What iterating over the dependencies of the target at `t` keeps: the binding
invariant, the table `T` bound to `t` and stamped for it, and the
dependencies of `t`, which are `deps`. -/
def IterInv (env : Env) (w t T : Nat) (deps : List Nat) (W : World) : Prop :=
  BindingInvariant w W ∧
  lookup W.lua w t = Value.table T ∧
  W.lua.heap T (Value.string THIS_KEYWORD) = Value.lightuserdata t ∧
  W.lua.heap T (Value.string TYPE_KEYWORD) = Value.string env.TARGET_TYPE ∧
  T < W.lua.next ∧
  (W.targets t).dependencies = deps

/-- A run of the loop body for the dependency `d`, the `n`-th of `deps` counting
from 0: the first value is the number `n + 2`, the second value is the table
bound to `d` in the world of that run, where `d` is referenced by script and
the iteration invariant holds. -/
def YieldOk (env : Env) (w t T : Nat) (deps : List Nat) (n d : Nat)
    (y : Value × Value × World) : Prop :=
  y.1 = Value.number ((n : Int) + 2) ∧
  y.2.1 = lookup y.2.2.lua w d ∧ isTable y.2.1 = true ∧
  y.2.2.referenced_by_script d = true ∧
  IterInv env w t T deps y.2.2

/-- For each run of the loop body, the two values of the run and what
`t:dependency( i )` returns there, `i` being the first value and `state` the
table of `t`. -/
def dependencyOfYielded (env : Env) (state : Value) (ys : List (Value × Value × World)) :
    List (Value × Value × List Value) :=
  ys.map fun y =>
    (y.1, y.2.1, returned (LuaTarget.dependency env (y.2.2.withStack [y.1, state])))

/-! ## Symbolic execution of the stack functions -/

@[simp]
theorem run_bind {σ α β : Type} (m : Run σ α) (f : α → Run σ β) (s : σ) :
    (m >>= f) s = match m s with
      | Res.ok a s1 => f a s1
      | Res.raise e s1 => Res.raise e s1 := rfl

@[simp]
theorem run_pure {σ α : Type} (a : α) (s : σ) :
    (pure a : Run σ α) s = Res.ok a s := rfl

theorem index2value_m1 (L : LuaState) : index2value L (-1) = L.stack.get? 0 := rfl
theorem index2value_m2 (L : LuaState) : index2value L (-2) = L.stack.get? 1 := rfl
theorem index2value_m3 (L : LuaState) : index2value L (-3) = L.stack.get? 2 := rfl
theorem index2value_m4 (L : LuaState) : index2value L (-4) = L.stack.get? 3 := rfl

set_option maxHeartbeats 1000000 in
theorem luaxx_push_eq (w : Nat) (L : LuaState) (a : Nat) (hw : weakTable L w) :
    luaxx_push a L = Res.ok (isTable (lookup L w a)) { L with stack := lookup L w a :: L.stack } := by
  unfold weakTable at hw
  by_cases ha : a = 0
  · subst ha
    simp [luaxx_push, lookup, lua_pushnil, push, lua_istable, index2value_m1, isTable]
  · cases hs : L.registry (Value.lightuserdata a) with
    | nil =>
      cases hk : L.heap w (Value.lightuserdata a) <;>
      simp [luaxx_push, lookup, strongEntry, weakEntry, tableOrNil, isTable, ha, hs, hk, hw,
        lua_pushlightuserdata, lua_pushnil, push, lua_rawget, lua_getfield, lua_remove, lua_pop,
        lua_istable, lua_isnil, tableAt, fieldsOf, LUA_REGISTRYINDEX,
        index2value_m1, index2value_m2]
    | _ =>
      simp [luaxx_push, lookup, strongEntry, weakEntry, tableOrNil, isTable, ha, hs,
        lua_pushlightuserdata, lua_pushnil, push, lua_rawget, lua_getfield, lua_remove, lua_pop,
        lua_istable, lua_isnil, tableAt, fieldsOf, LUA_REGISTRYINDEX,
        index2value_m1, index2value_m2]

theorem luaxx_weaken_null (L : LuaState) : luaxx_weaken 0 L = Res.ok () L := by
  simp [luaxx_weaken]

theorem luaxx_weaken_table (w : Nat) (L : LuaState) (a t : Nat) (ha : a ≠ 0) (hw : weakTable L w)
    (hs : strongEntry L a = Value.table t) :
    luaxx_weaken a L = Res.ok ()
      { L with
        registry := setRaw L.registry (Value.lightuserdata a) Value.nil
        heap := fun j => if j = w then setRaw (L.heap w) (Value.lightuserdata a) (Value.table t)
                         else L.heap j } := by
  unfold weakTable at hw
  unfold strongEntry at hs
  simp [luaxx_weaken, ha, hw, hs, lua_getfield, lua_pushlightuserdata, lua_pushnil, push,
    lua_rawget, lua_rawset, lua_pushvalue, lua_pop, lua_istable, tableAt, fieldsOf, storeRaw,
    LUA_REGISTRYINDEX, index2value_m1, index2value_m2, index2value_m4, isTable]

theorem luaxx_weaken_skip (L : LuaState) (a : Nat) (hs : isTable (strongEntry L a) = false) :
    luaxx_weaken a L = Res.ok () L := by
  unfold strongEntry at hs
  by_cases ha : a = 0
  · subst ha; exact luaxx_weaken_null L
  · simp [luaxx_weaken, ha, hs, lua_getfield, lua_pushlightuserdata, push,
      lua_rawget, lua_pop, lua_istable, tableAt, fieldsOf, LUA_REGISTRYINDEX, index2value_m1]

theorem luaxx_strengthen_null (L : LuaState) : luaxx_strengthen 0 L = Res.ok () L := by
  simp [luaxx_strengthen]

theorem luaxx_strengthen_table (w : Nat) (L : LuaState) (a t : Nat) (ha : a ≠ 0) (hw : weakTable L w)
    (hk : weakEntry L w a = Value.table t) :
    luaxx_strengthen a L = Res.ok ()
      { L with
        registry := setRaw L.registry (Value.lightuserdata a) (Value.table t)
        heap := fun j => if j = w then setRaw (L.heap w) (Value.lightuserdata a) Value.nil
                         else L.heap j } := by
  unfold weakTable at hw
  unfold weakEntry at hk
  simp [luaxx_strengthen, ha, hw, hk, lua_getfield, lua_pushlightuserdata, lua_pushnil, push,
    lua_rawget, lua_rawset, lua_pushvalue, lua_pop, lua_istable, tableAt, fieldsOf, storeRaw,
    LUA_REGISTRYINDEX, index2value_m1, index2value_m2, index2value_m4, isTable]

theorem luaxx_strengthen_skip (w : Nat) (L : LuaState) (a : Nat) (hw : weakTable L w)
    (hk : isTable (weakEntry L w a) = false) :
    luaxx_strengthen a L = Res.ok () L := by
  unfold weakTable at hw
  unfold weakEntry at hk
  by_cases ha : a = 0
  · subst ha; exact luaxx_strengthen_null L
  · simp [luaxx_strengthen, ha, hw, hk, lua_getfield, lua_pushlightuserdata, push,
      lua_rawget, lua_pop, lua_istable, tableAt, fieldsOf, LUA_REGISTRYINDEX, index2value_m1,
      index2value_m2]

theorem luaxx_remove_weak (w : Nat) (L : LuaState) (a : Nat) (f : Bool) (hw : weakTable L w) :
    luaxx_remove a f L = Res.ok true
      { L with
        registry := setRaw L.registry (Value.lightuserdata a) Value.nil
        heap := fun j => if j = w then setRaw (L.heap w) (Value.lightuserdata a) Value.nil
                         else L.heap j } := by
  unfold weakTable at hw
  simp [luaxx_remove, hw, lua_getfield, lua_pushlightuserdata, lua_pushnil, push,
    lua_rawset, lua_pop, lua_istable, tableAt, storeRaw, setRaw,
    LUA_REGISTRYINDEX, index2value_m1, index2value_m3, isTable]

theorem luaxx_remove_noweak (L : LuaState) (a : Nat) (f : Bool)
    (hw : isTable (L.registry (Value.string WEAK_OBJECTS_KEYWORD)) = false) :
    luaxx_remove a f L = Res.ok f
      { L with registry := setRaw L.registry (Value.lightuserdata a) Value.nil } := by
  simp [luaxx_remove, hw, lua_getfield, lua_pushlightuserdata, lua_pushnil, push,
    lua_rawset, lua_pop, lua_istable, tableAt, storeRaw, setRaw,
    LUA_REGISTRYINDEX, index2value_m1, index2value_m3]

theorem state_ext (L M : LuaState) (h1 : M.stack = L.stack) (h2 : M.registry = L.registry)
    (h3 : M.heap = L.heap) (h4 : M.metatable = L.metatable) (h5 : M.stringMeta = L.stringMeta)
    (h6 : M.next = L.next) : M = L := by
  cases L; cases M; simp_all

theorem lookup_cases (L : LuaState) (w a : Nat) :
    lookup L w a = Value.nil ∨ ∃ t, lookup L w a = Value.table t := by
  unfold lookup
  by_cases ha : a = 0
  · simp [ha]
  · by_cases hs : strongEntry L a = Value.nil
    · cases hk : weakEntry L w a <;> simp [ha, hs, hk, tableOrNil]
    · cases hk : strongEntry L a <;> simp_all [tableOrNil]

theorem luaxx_weaken_eq (w : Nat) (L : LuaState) (a : Nat) (ha : a ≠ 0) (hw : weakTable L w) :
    luaxx_weaken a L = Res.ok ()
      (if isTable (strongEntry L a) = true then
        { L with
          registry := setRaw L.registry (Value.lightuserdata a) Value.nil
          heap := fun j => if j = w then setRaw (L.heap w) (Value.lightuserdata a) (strongEntry L a)
                           else L.heap j }
      else L) := by
  cases hs : strongEntry L a with
  | table t => simp [isTable, luaxx_weaken_table w L a t ha hw hs]
  | _ => simp [isTable, luaxx_weaken_skip L a (by rw [hs]; rfl)]

theorem lookup_stack (L : LuaState) (s : List Value) (w a : Nat) :
    lookup { L with stack := s } w a = lookup L w a := rfl

theorem lookup_removed (L : LuaState) (s : List Value) (w a b : Nat) :
    lookup { L with
      stack := s
      registry := setRaw L.registry (Value.lightuserdata a) Value.nil
      heap := fun j => if j = w then setRaw (L.heap w) (Value.lightuserdata a) Value.nil
                       else L.heap j } w b
      = if a = b then Value.nil else lookup L w b := by
  by_cases hab : a = b
  · subst hab
    simp [lookup, strongEntry, weakEntry, setRaw, tableOrNil]
  · have hba : ¬ b = a := fun h => hab h.symm
    simp [lookup, strongEntry, weakEntry, setRaw, hab, hba]

set_option maxHeartbeats 1000000 in
theorem luaxx_swap_eq (w : Nat) (L : LuaState) (a b : Nat) (hw : weakTable L w)
    (ha : a ≠ 0) (hb : b ≠ 0) :
    luaxx_swap a b L = Res.ok ()
      { L with
        registry := setRaw (setRaw L.registry (Value.lightuserdata a) Value.nil)
          (Value.lightuserdata b) Value.nil
        heap := fun j => if j = w then
            setRaw (setRaw (L.heap w) (Value.lightuserdata a) (lookup L w b))
              (Value.lightuserdata b) (lookup L w a)
          else L.heap j } := by
  have hw' := hw
  unfold weakTable at hw'
  have hc : ∀ M : LuaState, M.registry (Value.string WEAK_OBJECTS_KEYWORD) = Value.table w →
      weakTable M w := fun M h => h
  unfold luaxx_swap
  simp only [run_bind, lua_pushlightuserdata, push]
  simp (disch := (apply hc; simp [setRaw, hw'])) only [luaxx_push_eq w, luaxx_remove_weak w]
  simp only [lua_rawset, tableAt, storeRaw, ↓reduceIte, lookup_stack, lookup_removed]
  by_cases hab : a = b
  · subst hab
    rcases lookup_cases L w a with la | ⟨t, la⟩
    all_goals
      simp (disch := first | exact ha | (apply hc; simp [setRaw, hw'])) [luaxx_weaken_eq w,
        la, strongEntry, setRaw, isTable]
      refine ⟨?_, ?_⟩
      · funext k
        by_cases hk : k = Value.lightuserdata a
        · subst hk; simp [setRaw]
        · simp [setRaw, hk]
      · funext j k
        by_cases hj : j = w
        · subst hj
          by_cases hk : k = Value.lightuserdata a
          · subst hk; simp [setRaw]
          · simp [setRaw, hk]
        · simp [hj]
  · have hba : ¬ b = a := fun h => hab h.symm
    rcases lookup_cases L w a with la | ⟨t, la⟩ <;> rcases lookup_cases L w b with lb | ⟨u, lb⟩
    all_goals
      simp (disch := first | exact ha | exact hb | (apply hc; simp [setRaw, hw'])) [luaxx_weaken_eq w,
        la, lb, hab, hba, strongEntry, setRaw, isTable]
      refine ⟨?_, ?_⟩
      · funext k
        by_cases hk : k = Value.lightuserdata a
        · subst hk; simp [setRaw, hab, hba]
        · by_cases hk2 : k = Value.lightuserdata b
          · subst hk2; simp [setRaw, hab, hba]
          · simp [setRaw, hk, hk2]
      · funext j k
        by_cases hj : j = w
        · subst hj
          by_cases hk : k = Value.lightuserdata a
          · subst hk; simp [setRaw, hab, hba]
          · by_cases hk2 : k = Value.lightuserdata b
            · subst hk2; simp [setRaw, hab, hba]
            · simp [setRaw, hk, hk2]
        · simp [hj]

theorem pushed_eq (w : Nat) (L : LuaState) (a : Nat) (hw : weakTable L w) :
    pushed L a = some (lookup L w a) := by
  simp [pushed, luaxx_push_eq w L a hw]

/-! ## C1: weaken followed by strengthen -/

/-- C1. In a state whose weak objects table exists, for every address `a` that
is unbound, strongly bound or weakly bound (the null address included),
`luaxx_weaken a` followed by `luaxx_strengthen a` both return, and `luaxx_push a`
yields afterwards the very value it yielded before (the same table, or nil for
nil); when `a` started strongly bound the final state is the initial state, so
the strong registry and the weak objects table are what they were. -/
theorem weaken_strengthen_identity (L : LuaState) (w a : Nat) (hw : weakTable L w)
    (hb : Unbound L w a ∨ (∃ t, StronglyBound L w a t) ∨ (∃ t, WeaklyBound L w a t)) :
    ∃ L1 L2 : LuaState,
      luaxx_weaken a L = Res.ok () L1 ∧ luaxx_strengthen a L1 = Res.ok () L2 ∧
      (∃ v, pushed L a = some v ∧ pushed L2 a = some v) ∧
      ((∃ t, StronglyBound L w a t) → L2 = L) := by
  by_cases ha : a = 0
  · subst ha
    exact ⟨L, L, luaxx_weaken_null L, luaxx_strengthen_null L,
      ⟨_, pushed_eq w L 0 hw, pushed_eq w L 0 hw⟩, fun _ => rfl⟩
  · rcases hb with ⟨hs, hk⟩ | ⟨t, hs, hk⟩ | ⟨t, hs, hk⟩
    · exact ⟨L, L, luaxx_weaken_skip L a (by rw [hs]; rfl),
        luaxx_strengthen_skip w L a hw (by rw [hk]; rfl),
        ⟨_, pushed_eq w L a hw, pushed_eq w L a hw⟩, fun _ => rfl⟩
    · have e1 := luaxx_weaken_table w L a t ha hw hs
      have hw1 : weakTable { L with
          registry := setRaw L.registry (Value.lightuserdata a) Value.nil
          heap := fun j => if j = w then setRaw (L.heap w) (Value.lightuserdata a) (Value.table t)
                           else L.heap j } w := by
        unfold weakTable at hw ⊢
        simp [setRaw, hw]
      have e2 := luaxx_strengthen_table w _ a t ha hw1 (by simp [weakEntry, setRaw])
      have hL : luaxx_strengthen a { L with
          registry := setRaw L.registry (Value.lightuserdata a) Value.nil
          heap := fun j => if j = w then setRaw (L.heap w) (Value.lightuserdata a) (Value.table t)
                           else L.heap j } = Res.ok () L := by
        rw [e2]
        congr 1
        apply state_ext
        · rfl
        · funext k
          unfold strongEntry at hs
          by_cases hk' : k = Value.lightuserdata a <;> simp [setRaw, hk', hs]
        · funext j k
          unfold weakEntry at hk
          by_cases hj : j = w
          · subst hj
            by_cases hk' : k = Value.lightuserdata a <;> simp [setRaw, hk', hk]
          · simp [hj]
        · rfl
        · rfl
        · rfl
      exact ⟨_, L, e1, hL, ⟨_, pushed_eq w L a hw, pushed_eq w L a hw⟩, fun _ => rfl⟩
    · have e2 := luaxx_strengthen_table w L a t ha hw hk
      refine ⟨L, _, luaxx_weaken_skip L a (by rw [hs]; rfl), e2, ?_, ?_⟩
      · have hw2 : weakTable { L with
          registry := setRaw L.registry (Value.lightuserdata a) (Value.table t)
          heap := fun j => if j = w then setRaw (L.heap w) (Value.lightuserdata a) Value.nil
                           else L.heap j } w := by
          unfold weakTable at hw ⊢
          simp [setRaw, hw]
        refine ⟨Value.table t, ?_, ?_⟩
        · rw [pushed_eq w L a hw]
          simp [lookup, ha, hs, hk, tableOrNil]
        · rw [pushed_eq w _ a hw2]
          simp [lookup, ha, strongEntry, setRaw, tableOrNil]
      · rintro ⟨t', hs', _⟩
        rw [hs] at hs'
        exact absurd hs' (by simp)

/-- Witness of C1 at `sampleState` for the strongly bound address 7. -/
theorem weaken_strengthen_identity_witness :
    ∃ L1 L2 : LuaState,
      luaxx_weaken 7 sampleState = Res.ok () L1 ∧ luaxx_strengthen 7 L1 = Res.ok () L2 ∧
      (∃ v, pushed sampleState 7 = some v ∧ pushed L2 7 = some v) ∧
      ((∃ t, StronglyBound sampleState 1 7 t) → L2 = sampleState) :=
  weaken_strengthen_identity sampleState 1 7 rfl (Or.inr (Or.inl ⟨2, rfl, rfl⟩))

/-! ## C2, C3: swap -/

theorem tableOrNil_lookup (L : LuaState) (w a : Nat) :
    tableOrNil (lookup L w a) = lookup L w a := by
  rcases lookup_cases L w a with h | ⟨t, h⟩ <;> rw [h] <;> rfl

theorem lookup_of_entries (M : LuaState) (w a : Nat) (v : Value) (ha : a ≠ 0)
    (hs : strongEntry M a = Value.nil) (hk : weakEntry M w a = v) :
    lookup M w a = tableOrNil v := by
  simp [lookup, ha, hs, hk]

theorem swap_once (w : Nat) (L : LuaState) (a b : Nat) (hw : weakTable L w)
    (ha : a ≠ 0) (hb : b ≠ 0) :
    ∃ L1 : LuaState, luaxx_swap a b L = Res.ok () L1 ∧ weakTable L1 w ∧
      lookup L1 w a = lookup L w b ∧ lookup L1 w b = lookup L w a ∧
      ∀ c, c ≠ a → c ≠ b →
        strongEntry L1 c = strongEntry L c ∧ weakEntry L1 w c = weakEntry L w c := by
  refine ⟨_, luaxx_swap_eq w L a b hw ha hb, ?_, ?_, ?_, ?_⟩
  · unfold weakTable at hw ⊢
    simp [setRaw, hw]
  · rw [lookup_of_entries _ w a (lookup L w b) ha, tableOrNil_lookup]
    · by_cases hab : a = b <;> simp [strongEntry, setRaw, hab]
    · by_cases hab : a = b
      · subst hab; simp [weakEntry, setRaw]
      · simp [weakEntry, setRaw, hab]
  · rw [lookup_of_entries _ w b (lookup L w a) hb, tableOrNil_lookup]
    · simp [strongEntry, setRaw]
    · simp [weakEntry, setRaw]
  · intro c hca hcb
    simp [strongEntry, weakEntry, setRaw, hca, hcb]

theorem lookup_congr (L M : LuaState) (w c : Nat)
    (h : strongEntry M c = strongEntry L c ∧ weakEntry M w c = weakEntry L w c) :
    lookup M w c = lookup L w c := by
  simp [lookup, h.1, h.2]

/-- C2 (amended). In a state whose weak objects table exists, for all non-null
addresses `a` and `b` whose tables (nil when there is none) are `Ta` and `Tb`:
`luaxx_swap a b` returns, afterwards `luaxx_push a` yields `Tb` and
`luaxx_push b` yields `Ta`, the entries and the table of every other address
are unchanged, and a second `luaxx_swap a b` restores what `luaxx_push` yields
for every address. -/
theorem swap_exchanges_tables (L : LuaState) (w a b : Nat) (hw : weakTable L w)
    (ha : a ≠ 0) (hb : b ≠ 0) :
    ∃ (L1 L2 : LuaState) (Ta Tb : Value),
      pushed L a = some Ta ∧ pushed L b = some Tb ∧
      luaxx_swap a b L = Res.ok () L1 ∧
      pushed L1 a = some Tb ∧ pushed L1 b = some Ta ∧
      (∀ c, c ≠ a → c ≠ b →
        strongEntry L1 c = strongEntry L c ∧ weakEntry L1 w c = weakEntry L w c ∧
        pushed L1 c = pushed L c) ∧
      luaxx_swap a b L1 = Res.ok () L2 ∧
      ∀ c, pushed L2 c = pushed L c := by
  obtain ⟨L1, e1, hw1, la1, lb1, ho1⟩ := swap_once w L a b hw ha hb
  obtain ⟨L2, e2, hw2, la2, lb2, ho2⟩ := swap_once w L1 a b hw1 ha hb
  refine ⟨L1, L2, lookup L w a, lookup L w b, pushed_eq w L a hw, pushed_eq w L b hw, e1,
    ?_, ?_, ?_, e2, ?_⟩
  · rw [pushed_eq w L1 a hw1, la1]
  · rw [pushed_eq w L1 b hw1, lb1]
  · intro c hca hcb
    refine ⟨(ho1 c hca hcb).1, (ho1 c hca hcb).2, ?_⟩
    rw [pushed_eq w L1 c hw1, pushed_eq w L c hw, lookup_congr L L1 w c (ho1 c hca hcb)]
  · intro c
    rw [pushed_eq w L2 c hw2, pushed_eq w L c hw]
    by_cases hca : c = a
    · subst hca; rw [la2, lb1]
    · by_cases hcb : c = b
      · subst hcb; rw [lb2, la1]
      · rw [lookup_congr L1 L2 w c (ho2 c hca hcb), lookup_congr L L1 w c (ho1 c hca hcb)]

/-- Witness of C2 (amended) at `sampleState` for the addresses 7 and 9. -/
theorem swap_exchanges_tables_witness :
    ∃ (L1 L2 : LuaState) (Ta Tb : Value),
      pushed sampleState 7 = some Ta ∧ pushed sampleState 9 = some Tb ∧
      luaxx_swap 7 9 sampleState = Res.ok () L1 ∧
      pushed L1 7 = some Tb ∧ pushed L1 9 = some Ta ∧
      (∀ c, c ≠ 7 → c ≠ 9 →
        strongEntry L1 c = strongEntry sampleState c ∧
        weakEntry L1 1 c = weakEntry sampleState 1 c ∧
        pushed L1 c = pushed sampleState c) ∧
      luaxx_swap 7 9 L1 = Res.ok () L2 ∧
      ∀ c, pushed L2 c = pushed sampleState c :=
  swap_exchanges_tables sampleState 1 7 9 rfl (by decide) (by decide)

/-- C2, counterexample. With the null address for `a` and address 8 bound to
table 3: `luaxx_swap 0 8` returns, but `luaxx_push 0` then yields nil, not
table 3, and after a second `luaxx_swap 0 8` address 8 has lost its table. -/
theorem swap_null_counterexample :
    pushed sampleState 0 = some Value.nil ∧
    pushed sampleState 8 = some (Value.table 3) ∧
    (luaxx_swap 0 8 sampleState).error? = none ∧
    pushed (luaxx_swap 0 8 sampleState).state 0 ≠ some (Value.table 3) ∧
    (luaxx_swap 0 8 (luaxx_swap 0 8 sampleState).state).error? = none ∧
    pushed (luaxx_swap 0 8 (luaxx_swap 0 8 sampleState).state).state 8 = some Value.nil := by
  decide

/-- C3, the code at a failing input. Addresses 7 and 8 both start with their
table in the strong registry and none in the weak objects table; after
`luaxx_swap 7 8` neither has a strong entry and both tables sit in the weak
objects table: `luaxx_remove` reports `weak = true` as soon as the weak objects
table exists, so the swap weakens both addresses. -/
theorem swap_strength_lost :
    strongEntry sampleState 7 = Value.table 2 ∧ weakEntry sampleState 1 7 = Value.nil ∧
    strongEntry sampleState 8 = Value.table 3 ∧ weakEntry sampleState 1 8 = Value.nil ∧
    (luaxx_remove 7 false sampleState).value? = some true ∧
    (luaxx_swap 7 8 sampleState).error? = none ∧
    strongEntry (luaxx_swap 7 8 sampleState).state 7 = Value.nil ∧
    weakEntry (luaxx_swap 7 8 sampleState).state 1 7 = Value.table 3 ∧
    strongEntry (luaxx_swap 7 8 sampleState).state 8 = Value.nil ∧
    weakEntry (luaxx_swap 7 8 sampleState).state 1 8 = Value.table 2 := by
  decide

/-! ## Reading a stamp back: `luaxx_to` and `luaxx_check` -/

theorem index2value_abs (L : LuaState) (pre rest : List Value) (v : Value)
    (h : L.stack = pre ++ v :: rest) :
    index2value L ((rest.length : Int) + 1) = some v := by
  have h1 : (0 : Int) < (rest.length : Int) + 1 := by omega
  have h2 : ((rest.length : Int) + 1).toNat = rest.length + 1 := by omega
  have h3 : rest.length + 1 ≤ L.stack.length := by rw [h]; simp
  have h4 : L.stack.length - (rest.length + 1) = pre.length := by rw [h]; simp
  unfold index2value
  rw [if_pos h1, h2, if_pos h3, h4, h]
  simp only [List.get?_eq_getElem?]
  rw [List.getElem?_append_right (le_refl _)]
  simp

theorem position_ne_registry (n : Nat) : ¬ ((n : Int) + 1 = LUA_REGISTRYINDEX) := by
  unfold LUA_REGISTRYINDEX
  omega

theorem luaV_gettable_hit (L : LuaState) (id : Nat) (key : Value)
    (h : L.heap id key ≠ Value.nil) :
    luaV_gettable L MAXTAGLOOP (Value.table id) key = Except.ok (L.heap id key) := by
  show luaV_gettable L (99 + 1) (Value.table id) key = _
  simp [luaV_gettable, h]

theorem luaV_gettable_plain (L : LuaState) (id : Nat) (key : Value)
    (h : L.heap id key = Value.nil) (hm : L.metatable id = none) :
    luaV_gettable L MAXTAGLOOP (Value.table id) key = Except.ok Value.nil := by
  show luaV_gettable L (99 + 1) (Value.table id) key = _
  simp [luaV_gettable, h, hm]

theorem luaxx_to_stamped (L : LuaState) (pre rest : List Value) (T p : Nat) (u tname : String)
    (hst : L.stack = pre ++ Value.table T :: rest)
    (htype : L.heap T (Value.string TYPE_KEYWORD) = Value.string u)
    (hthis : L.heap T (Value.string THIS_KEYWORD) = Value.lightuserdata p) :
    luaxx_to ((rest.length : Int) + 1) tname L = Res.ok (if tname = u then p else 0) L := by
  have i1 : ∀ x y : Value, index2value { L with stack := x :: y :: L.stack }
      ((rest.length : Int) + 1) = some (Value.table T) :=
    fun x y => index2value_abs _ (x :: y :: pre) rest _ (by simp [hst])
  have i2 : ∀ x y z : Value, index2value { L with stack := x :: y :: z :: L.stack }
      ((rest.length : Int) + 1) = some (Value.table T) :=
    fun x y z => index2value_abs _ (x :: y :: z :: pre) rest _ (by simp [hst])
  have g1 : ∀ s : List Value, luaV_gettable { L with stack := s } MAXTAGLOOP (Value.table T)
      (Value.string TYPE_KEYWORD) = Except.ok (Value.string u) := fun s => by
    have h := luaV_gettable_hit { L with stack := s } T (Value.string TYPE_KEYWORD)
      (by simp [htype])
    simpa [htype] using h
  have g2 : ∀ s : List Value, luaV_gettable { L with stack := s } MAXTAGLOOP (Value.table T)
      (Value.string THIS_KEYWORD) = Except.ok (Value.lightuserdata p) := fun s => by
    have h := luaV_gettable_hit { L with stack := s } T (Value.string THIS_KEYWORD)
      (by simp [hthis])
    simpa [hthis] using h
  by_cases ht : tname = u
  · subst ht
    simp [luaxx_to, lua_pushstring, push, lua_gettable, position_ne_registry, i1, i2, g1, g2,
      lua_rawequal, index2value_m1, index2value_m2, lua_islightuserdata, lua_touserdata, lua_pop]
  · have ht' : ¬ u = tname := fun h => ht h.symm
    simp [luaxx_to, lua_pushstring, push, lua_gettable, position_ne_registry, i1, i2, g1, g2,
      lua_rawequal, index2value_m1, index2value_m2, lua_islightuserdata, lua_touserdata, lua_pop,
      ht, ht']

theorem luaxx_to_unstamped (L : LuaState) (pre rest : List Value) (T : Nat) (tname : String)
    (hst : L.stack = pre ++ Value.table T :: rest)
    (htype : L.heap T (Value.string TYPE_KEYWORD) = Value.nil)
    (hm : L.metatable T = none) :
    luaxx_to ((rest.length : Int) + 1) tname L = Res.ok 0 L := by
  have i1 : ∀ x y : Value, index2value { L with stack := x :: y :: L.stack }
      ((rest.length : Int) + 1) = some (Value.table T) :=
    fun x y => index2value_abs _ (x :: y :: pre) rest _ (by simp [hst])
  have g1 : ∀ s : List Value, luaV_gettable { L with stack := s } MAXTAGLOOP (Value.table T)
      (Value.string TYPE_KEYWORD) = Except.ok Value.nil := fun s =>
    luaV_gettable_plain { L with stack := s } T (Value.string TYPE_KEYWORD) htype hm
  simp [luaxx_to, lua_pushstring, push, lua_gettable, position_ne_registry, i1, g1,
    lua_rawequal, index2value_m1, index2value_m2, lua_pop]

theorem luaxx_to_nil (L : LuaState) (pre rest : List Value) (tname : String)
    (hst : L.stack = pre ++ Value.nil :: rest) :
    luaxx_to ((rest.length : Int) + 1) tname L = Res.raise (LuaError.index Value.nil)
      { L with stack := Value.string TYPE_KEYWORD :: Value.string tname :: L.stack } := by
  have i1 : ∀ x y : Value, index2value { L with stack := x :: y :: L.stack }
      ((rest.length : Int) + 1) = some Value.nil :=
    fun x y => index2value_abs _ (x :: y :: pre) rest _ (by simp [hst])
  have g1 : ∀ M : LuaState, luaV_gettable M MAXTAGLOOP Value.nil
      (Value.string TYPE_KEYWORD) = Except.error (LuaError.index Value.nil) := fun M => by
    show luaV_gettable M (99 + 1) Value.nil _ = _
    simp [luaV_gettable, metatableOf]
  simp [luaxx_to, lua_pushstring, push, lua_gettable, position_ne_registry, i1, g1]

theorem luaxx_check_of_to (L M : LuaState) (position : Int) (tname : String) (q : Nat)
    (h : luaxx_to position tname L = Res.ok q M) :
    luaxx_check position tname L =
      if q = 0 then Res.raise (LuaError.arg position
        "this pointer not set or C++ object has been destroyed") M
      else Res.ok q M := by
  by_cases hq : q = 0 <;> simp [luaxx_check, h, luaL_argcheck, hq]

theorem luaxx_push_strong (L : LuaState) (a t : Nat) (ha : a ≠ 0)
    (hs : strongEntry L a = Value.table t) :
    luaxx_push a L = Res.ok true { L with stack := Value.table t :: L.stack } := by
  unfold strongEntry at hs
  simp [luaxx_push, ha, hs, lua_pushlightuserdata, push, lua_rawget, lua_istable, lua_isnil,
    tableAt, fieldsOf, LUA_REGISTRYINDEX, index2value_m1, isTable]

theorem luaxx_attach_eq (L : LuaState) (rest : List Value) (T p : Nat) (u : String)
    (hst : L.stack = Value.table T :: rest) :
    luaxx_attach p u L = Res.ok ()
      { L with
        registry := setRaw L.registry (Value.lightuserdata p) (Value.table T)
        heap := fun j => if j = T then
            setRaw (setRaw (L.heap T) (Value.string THIS_KEYWORD) (Value.lightuserdata p))
              (Value.string TYPE_KEYWORD) (Value.string u)
          else L.heap j } := by
  simp [luaxx_attach, lua_pushstring, lua_pushlightuserdata, push, lua_rawset, lua_pushvalue,
    tableAt, storeRaw, LUA_REGISTRYINDEX, index2value_m2, index2value_m3, hst]
  funext j
  by_cases hj : j = T <;> simp [hj]

theorem luaxx_create_eq (L : LuaState) (p : Nat) (u : String) :
    luaxx_create p u L = Res.ok ()
      { L with
        registry := setRaw L.registry (Value.lightuserdata p) (Value.table L.next)
        heap := fun j => if j = L.next then
            setRaw (setRaw emptyFields (Value.string THIS_KEYWORD) (Value.lightuserdata p))
              (Value.string TYPE_KEYWORD) (Value.string u)
          else L.heap j
        metatable := fun j => if j = L.next then none else L.metatable j
        next := L.next + 1 } := by
  simp [luaxx_create, lua_newtable, luaxx_attach, lua_pushstring, lua_pushlightuserdata, push,
    lua_rawset, lua_pushvalue, lua_pop,
    tableAt, storeRaw, LUA_REGISTRYINDEX, index2value_m2, index2value_m3]
  funext j
  by_cases hj : j = L.next <;> simp [hj]

/-! ## C4: create, push, to -/

/-- C4. For every non-null address `p` and type name `t`, in every state:
`luaxx_create p t` returns with the stack as it was and a table `T` for `p` in
the strong registry; `luaxx_push p` then pushes `T` and returns true; and
`luaxx_to` on that table (at its stack position) with type name `t` returns
exactly `p`. -/
theorem create_push_to_roundtrip (L : LuaState) (p : Nat) (t : String) (hp : p ≠ 0) :
    ∃ (L1 : LuaState) (T : Nat),
      luaxx_create p t L = Res.ok () L1 ∧ L1.stack = L.stack ∧
      strongEntry L1 p = Value.table T ∧
      luaxx_push p L1 = Res.ok true { L1 with stack := Value.table T :: L1.stack } ∧
      luaxx_to ((L1.stack.length : Int) + 1) t { L1 with stack := Value.table T :: L1.stack }
        = Res.ok p { L1 with stack := Value.table T :: L1.stack } := by
  refine ⟨_, L.next, luaxx_create_eq L p t, rfl, ?_, ?_, ?_⟩
  · simp [strongEntry, setRaw]
  · exact luaxx_push_strong _ p L.next hp (by simp [strongEntry, setRaw])
  · have h := luaxx_to_stamped
      { L with
        stack := Value.table L.next :: L.stack
        registry := setRaw L.registry (Value.lightuserdata p) (Value.table L.next)
        heap := fun j => if j = L.next then
            setRaw (setRaw emptyFields (Value.string THIS_KEYWORD) (Value.lightuserdata p))
              (Value.string TYPE_KEYWORD) (Value.string t)
          else L.heap j
        metatable := fun j => if j = L.next then none else L.metatable j
        next := L.next + 1 } [] L.stack L.next p t t rfl
      (by simp [setRaw]) (by simp [setRaw, THIS_KEYWORD, TYPE_KEYWORD])
    simpa using h

/-- Witness of C4 at `sampleState` for address 12 and type name "Target". -/
theorem create_push_to_roundtrip_witness :
    ∃ (L1 : LuaState) (T : Nat),
      luaxx_create 12 "Target" sampleState = Res.ok () L1 ∧ L1.stack = sampleState.stack ∧
      strongEntry L1 12 = Value.table T ∧
      luaxx_push 12 L1 = Res.ok true { L1 with stack := Value.table T :: L1.stack } ∧
      luaxx_to ((L1.stack.length : Int) + 1) "Target"
          { L1 with stack := Value.table T :: L1.stack }
        = Res.ok 12 { L1 with stack := Value.table T :: L1.stack } :=
  create_push_to_roundtrip sampleState 12 "Target" (by decide)

/-! ## C5: destroy -/

theorem luaxx_destroy_eq (w : Nat) (L : LuaState) (p T : Nat) (hw : weakTable L w)
    (hT : lookup L w p = Value.table T) :
    luaxx_destroy p L = Res.ok ()
      { L with
        registry := setRaw L.registry (Value.lightuserdata p) Value.nil
        heap := fun j => if j = w then
            setRaw (if w = T then
                setRaw (setRaw (L.heap T) (Value.string THIS_KEYWORD) Value.nil)
                  (Value.string TYPE_KEYWORD) Value.nil
              else L.heap w) (Value.lightuserdata p) Value.nil
          else if j = T then
            setRaw (setRaw (L.heap T) (Value.string THIS_KEYWORD) Value.nil)
              (Value.string TYPE_KEYWORD) Value.nil
          else L.heap j } := by
  have hw' := hw
  unfold weakTable at hw'
  have hc : ∀ M : LuaState, M.registry (Value.string WEAK_OBJECTS_KEYWORD) = Value.table w →
      weakTable M w := fun M h => h
  unfold luaxx_destroy
  simp only [run_bind, luaxx_push_eq w L p hw, hT]
  simp [lua_istable, index2value_m1, index2value_m3, isTable, lua_pushstring, lua_pushnil,
    push, lua_rawset, tableAt, storeRaw, lua_pop, LUA_REGISTRYINDEX]
  simp (disch := (apply hc; simp [setRaw, hw'])) only [luaxx_remove_weak w]
  simp
  funext j
  by_cases hj : j = w
  · subst hj
    by_cases hjT : j = T <;> simp [hjT]
  · by_cases hjT : j = T
    · subst hjT; simp [hj]
    · simp [hj, hjT]

theorem luaV_gettable_noindex (L : LuaState) (id : Nat) (key : Value)
    (h : L.heap id key = Value.nil)
    (hm : ∀ m, L.metatable id = some m → L.heap m (Value.string "__index") = Value.nil) :
    luaV_gettable L MAXTAGLOOP (Value.table id) key = Except.ok Value.nil := by
  show luaV_gettable L (99 + 1) (Value.table id) key = _
  cases hmt : L.metatable id with
  | none => simp [luaV_gettable, h, hmt]
  | some m => simp [luaV_gettable, h, hmt, hm m hmt]

theorem luaxx_to_noindex (L : LuaState) (pre rest : List Value) (T : Nat) (tname : String)
    (hst : L.stack = pre ++ Value.table T :: rest)
    (htype : L.heap T (Value.string TYPE_KEYWORD) = Value.nil)
    (hm : ∀ m, L.metatable T = some m → L.heap m (Value.string "__index") = Value.nil) :
    luaxx_to ((rest.length : Int) + 1) tname L = Res.ok 0 L := by
  have i1 : ∀ x y : Value, index2value { L with stack := x :: y :: L.stack }
      ((rest.length : Int) + 1) = some (Value.table T) :=
    fun x y => index2value_abs _ (x :: y :: pre) rest _ (by simp [hst])
  have g1 : ∀ s : List Value, luaV_gettable { L with stack := s } MAXTAGLOOP (Value.table T)
      (Value.string TYPE_KEYWORD) = Except.ok Value.nil := fun s =>
    luaV_gettable_noindex { L with stack := s } T (Value.string TYPE_KEYWORD) htype hm
  simp [luaxx_to, lua_pushstring, push, lua_gettable, position_ne_registry, i1, g1,
    lua_rawequal, index2value_m1, index2value_m2, lua_pop]

/-- C5 (amended). In a state whose weak objects table exists, for every non-null
address `p` bound strongly or weakly to a table `T`: `luaxx_destroy p`
returns; afterwards `p` has no entry in the strong registry and none in the
weak objects table, `luaxx_push p` pushes nil and returns false, the two stamp
fields of `T` itself are nil, and the entries of every other address are
unchanged; and when `T` has no metatable, or a metatable without `__index`,
`luaxx_to` on `T` returns the null address for every type name. -/
theorem destroy_unbinds (L : LuaState) (w p T : Nat) (hw : weakTable L w) (hp : p ≠ 0)
    (hb : StronglyBound L w p T ∨ WeaklyBound L w p T) :
    ∃ L1 : LuaState,
      luaxx_destroy p L = Res.ok () L1 ∧
      strongEntry L1 p = Value.nil ∧ weakEntry L1 w p = Value.nil ∧
      luaxx_push p L1 = Res.ok false { L1 with stack := Value.nil :: L1.stack } ∧
      L1.heap T (Value.string THIS_KEYWORD) = Value.nil ∧
      L1.heap T (Value.string TYPE_KEYWORD) = Value.nil ∧
      ((∀ m, L.metatable T = some m → L.heap m (Value.string "__index") = Value.nil) →
        ∀ tname : String,
          luaxx_to ((L1.stack.length : Int) + 1) tname
              { L1 with stack := Value.table T :: L1.stack }
            = Res.ok 0 { L1 with stack := Value.table T :: L1.stack }) ∧
      (∀ q, q ≠ p →
        strongEntry L1 q = strongEntry L q ∧ weakEntry L1 w q = weakEntry L w q) := by
  have hT : lookup L w p = Value.table T := by
    rcases hb with ⟨hs, hk⟩ | ⟨hs, hk⟩ <;> simp [lookup, hp, hs, hk, tableOrNil]
  have hstr : ∀ (s : String) (b : Nat), ¬ Value.string s = Value.lightuserdata b := by
    intro s b h; cases h
  have hw1 : weakTable { L with
        registry := setRaw L.registry (Value.lightuserdata p) Value.nil
        heap := fun j => if j = w then
            setRaw (if w = T then
                setRaw (setRaw (L.heap T) (Value.string THIS_KEYWORD) Value.nil)
                  (Value.string TYPE_KEYWORD) Value.nil
              else L.heap w) (Value.lightuserdata p) Value.nil
          else if j = T then
            setRaw (setRaw (L.heap T) (Value.string THIS_KEYWORD) Value.nil)
              (Value.string TYPE_KEYWORD) Value.nil
          else L.heap j } w := by
    unfold weakTable at hw ⊢
    simp [setRaw, hw]
  refine ⟨_, luaxx_destroy_eq w L p T hw hT, ?_, ?_, ?_, ?_, ?_, ?_, ?_⟩
  · simp [strongEntry, setRaw]
  · simp [weakEntry, setRaw]
  · have h := luaxx_push_eq w _ p hw1
    simpa [lookup, hp, strongEntry, weakEntry, setRaw, tableOrNil, isTable] using h
  · by_cases hTw : T = w
    · subst hTw; simp [setRaw, hstr, THIS_KEYWORD, TYPE_KEYWORD]
    · simp [setRaw, hTw, THIS_KEYWORD, TYPE_KEYWORD]
  · by_cases hTw : T = w
    · subst hTw; simp [setRaw, hstr]
    · simp [setRaw, hTw]
  · intro hm tname
    have h := luaxx_to_noindex
      { L with
        stack := Value.table T :: L.stack
        registry := setRaw L.registry (Value.lightuserdata p) Value.nil
        heap := fun j => if j = w then
            setRaw (if w = T then
                setRaw (setRaw (L.heap T) (Value.string THIS_KEYWORD) Value.nil)
                  (Value.string TYPE_KEYWORD) Value.nil
              else L.heap w) (Value.lightuserdata p) Value.nil
          else if j = T then
            setRaw (setRaw (L.heap T) (Value.string THIS_KEYWORD) Value.nil)
              (Value.string TYPE_KEYWORD) Value.nil
          else L.heap j } [] L.stack T tname rfl
      (by by_cases hTw : T = w
          · subst hTw; simp [setRaw]
          · simp [setRaw, hTw])
      (by intro m hmt
          have hi := hm m hmt
          by_cases hmw : m = w
          · subst hmw
            by_cases hTw : m = T
            · subst hTw; simp [setRaw, hstr, hi, THIS_KEYWORD, TYPE_KEYWORD]
            · simp [setRaw, hstr, hi, hTw]
          · by_cases hmT : m = T
            · subst hmT; simp [setRaw, hmw, hi, THIS_KEYWORD, TYPE_KEYWORD]
            · simp [hmw, hmT, hi])
    simpa using h
  · intro q hq
    refine ⟨by simp [strongEntry, setRaw, hq], ?_⟩
    by_cases hTw : w = T
    · subst hTw; simp [weakEntry, setRaw, hq]
    · simp [weakEntry, setRaw, hq, hTw]

/-- Witness of C5 (amended): address 7, bound to table 2, in `sampleState`, where
table 2 has no metatable, and in `inheritingState`, where its metatable has an
`__index`. -/
theorem destroy_unbinds_witness :
    (∃ L1 : LuaState,
      luaxx_destroy 7 sampleState = Res.ok () L1 ∧
      strongEntry L1 7 = Value.nil ∧ weakEntry L1 1 7 = Value.nil ∧
      luaxx_push 7 L1 = Res.ok false { L1 with stack := Value.nil :: L1.stack } ∧
      L1.heap 2 (Value.string THIS_KEYWORD) = Value.nil ∧
      L1.heap 2 (Value.string TYPE_KEYWORD) = Value.nil ∧
      (∀ tname : String,
        luaxx_to ((L1.stack.length : Int) + 1) tname
            { L1 with stack := Value.table 2 :: L1.stack }
          = Res.ok 0 { L1 with stack := Value.table 2 :: L1.stack }) ∧
      (∀ q, q ≠ 7 →
        strongEntry L1 q = strongEntry sampleState q ∧
        weakEntry L1 1 q = weakEntry sampleState 1 q)) ∧
    (∃ L1 : LuaState,
      luaxx_destroy 7 inheritingState = Res.ok () L1 ∧
      strongEntry L1 7 = Value.nil ∧ weakEntry L1 1 7 = Value.nil ∧
      luaxx_push 7 L1 = Res.ok false { L1 with stack := Value.nil :: L1.stack } ∧
      L1.heap 2 (Value.string THIS_KEYWORD) = Value.nil ∧
      L1.heap 2 (Value.string TYPE_KEYWORD) = Value.nil ∧
      (∀ q, q ≠ 7 →
        strongEntry L1 q = strongEntry inheritingState q ∧
        weakEntry L1 1 q = weakEntry inheritingState 1 q)) :=
  ⟨match destroy_unbinds sampleState 1 7 2 rfl (by decide) (Or.inl ⟨rfl, rfl⟩) with
    | ⟨L1, h1, h2, h3, h4, h5, h6, h7, h8⟩ =>
      ⟨L1, h1, h2, h3, h4, h5, h6, h7 (fun m hm => by cases hm), h8⟩,
   match destroy_unbinds inheritingState 1 7 2 rfl (by decide) (Or.inl ⟨rfl, rfl⟩) with
    | ⟨L1, h1, h2, h3, h4, h5, h6, _, h8⟩ => ⟨L1, h1, h2, h3, h4, h5, h6, h8⟩⟩

/-- C5, counterexample. Address 7 is bound to table 2, whose metatable sends
missing keys to table 6, stamped with type "Target" and address 9.  After
`luaxx_destroy 7` the stamp of table 2 is erased and 7 is unbound, yet
`luaxx_to` on table 2 with type name "Target" returns address 9, not null. -/
theorem destroy_inherited_stamp_counterexample :
    pushed { inheritingState with stack := [] } 7 = some (Value.table 2) ∧
    (luaxx_to 1 "Target" inheritingState).value? = some 7 ∧
    (luaxx_destroy 7 inheritingState).error? = none ∧
    (luaxx_destroy 7 inheritingState).state.stack = [Value.table 2] ∧
    (luaxx_destroy 7 inheritingState).state.heap 2 (Value.string THIS_KEYWORD) = Value.nil ∧
    (luaxx_destroy 7 inheritingState).state.heap 2 (Value.string TYPE_KEYWORD) = Value.nil ∧
    (luaxx_to 1 "Target" (luaxx_destroy 7 inheritingState).state).value? = some 9 := by
  decide

/-! ## C6: `luaxx_to` and `luaxx_check` on a stamped table -/

/-- C6. Let `luaxx_attach p u` stamp the table `T` on top of the stack.  It
returns, and in every state `M` where `T` still has the contents the stamping
left and sits at some stack position, for every type name `t`: `luaxx_to`
returns `p` when `t = u` and the null address when `t ≠ u`, never raising and
leaving the state as it was; `luaxx_check` raises an argument error for that
position exactly when `luaxx_to` returns null and returns the address of
`luaxx_to` otherwise. -/
theorem to_check_on_stamped (L : LuaState) (rest : List Value) (T p : Nat) (u : String)
    (hst : L.stack = Value.table T :: rest) :
    ∃ L1 : LuaState,
      luaxx_attach p u L = Res.ok () L1 ∧ L1.stack = L.stack ∧
      ∀ (M : LuaState) (above below : List Value) (t : String),
        M.heap T = L1.heap T → M.stack = above ++ Value.table T :: below →
        luaxx_to ((below.length : Int) + 1) t M = Res.ok (if t = u then p else 0) M ∧
        luaxx_check ((below.length : Int) + 1) t M =
          (if (if t = u then p else 0) = 0 then
            Res.raise (LuaError.arg ((below.length : Int) + 1)
              "this pointer not set or C++ object has been destroyed") M
          else Res.ok (if t = u then p else 0) M) := by
  refine ⟨_, luaxx_attach_eq L rest T p u hst, rfl, ?_⟩
  intro M above below t hM hMs
  have hto := luaxx_to_stamped M above below T p u t hMs
    (by rw [hM]; simp [setRaw]) (by rw [hM]; simp [setRaw, THIS_KEYWORD, TYPE_KEYWORD])
  exact ⟨hto, luaxx_check_of_to M M _ t _ hto⟩

/-- Witness of C6: table 2 on the stack of `inheritingState`, stamped for
address 7 with the type name "Target". -/
theorem to_check_on_stamped_witness :
    ∃ L1 : LuaState,
      luaxx_attach 7 "Target" inheritingState = Res.ok () L1 ∧
      L1.stack = inheritingState.stack ∧
      ∀ (M : LuaState) (above below : List Value) (t : String),
        M.heap 2 = L1.heap 2 → M.stack = above ++ Value.table 2 :: below →
        luaxx_to ((below.length : Int) + 1) t M = Res.ok (if t = "Target" then 7 else 0) M ∧
        luaxx_check ((below.length : Int) + 1) t M =
          (if (if t = "Target" then 7 else 0) = 0 then
            Res.raise (LuaError.arg ((below.length : Int) + 1)
              "this pointer not set or C++ object has been destroyed") M
          else Res.ok (if t = "Target" then 7 else 0) M) :=
  to_check_on_stamped inheritingState [] 2 7 "Target" rfl

/-! ## C7: `luaxx_to` on nil -/

/-- C7, the code at a failing input. The call `forge:target( "foo", nil, {} )`
leaves nil at stack position 3; `luaxx_to` at position 3 raises "attempt to
index a nil value" for every type name instead of returning the null address. -/
theorem to_raises_on_nil (tname : String) :
    index2value callState 3 = some Value.nil ∧
    (luaxx_to 3 tname callState).error? = some (LuaError.index Value.nil) ∧
    (luaxx_to 3 tname callState).value? = none := by
  have h := luaxx_to_nil callState [Value.table 11] [Value.string "foo", Value.table 10] tname rfl
  have h3 : (([Value.string "foo", Value.table 10] : List Value).length : Int) + 1 = 3 := by
    decide
  rw [h3] at h
  rw [h]
  exact ⟨by decide, rfl, rfl⟩

/-! ## C8: create on an address that is already bound -/

/-- C8 (amended). `luaxx_create p t` on an address that already has a table `T0`
in the strong registry does not fail: it returns, having allocated a new
table, stamped it with `p` and `t`, and replaced the strong entry of `p` by the
new table, which differs from the earlier entry; the weak entry of `p` and the
contents of the earlier table are left as they were (the earlier table being
an allocated one, not the one just allocated). -/
theorem create_on_bound_overwrites (L : LuaState) (w p T0 : Nat) (t : String)
    (hs : strongEntry L p = Value.table T0) :
    ∃ L1 : LuaState,
      luaxx_create p t L = Res.ok () L1 ∧
      strongEntry L1 p = Value.table L.next ∧
      L1.heap L.next (Value.string THIS_KEYWORD) = Value.lightuserdata p ∧
      L1.heap L.next (Value.string TYPE_KEYWORD) = Value.string t ∧
      (w ≠ L.next → weakEntry L1 w p = weakEntry L w p) ∧
      (T0 ≠ L.next → L1.heap T0 = L.heap T0 ∧ strongEntry L1 p ≠ strongEntry L p) := by
  refine ⟨_, luaxx_create_eq L p t, ?_, ?_, ?_, ?_, ?_⟩
  · simp [strongEntry, setRaw]
  · simp [setRaw, THIS_KEYWORD, TYPE_KEYWORD]
  · simp [setRaw]
  · intro h; simp [weakEntry, h]
  · intro h
    refine ⟨by simp [h], ?_⟩
    rw [hs]
    simp [strongEntry, setRaw]
    exact fun h' => h h'.symm

/-- Witness of C8 (amended) at `sampleState`, where address 7 is bound to table 2. -/
theorem create_on_bound_overwrites_witness :
    ∃ L1 : LuaState,
      luaxx_create 7 "Target" sampleState = Res.ok () L1 ∧
      strongEntry L1 7 = Value.table sampleState.next ∧
      L1.heap sampleState.next (Value.string THIS_KEYWORD) = Value.lightuserdata 7 ∧
      L1.heap sampleState.next (Value.string TYPE_KEYWORD) = Value.string "Target" ∧
      (1 ≠ sampleState.next → weakEntry L1 1 7 = weakEntry sampleState 1 7) ∧
      (2 ≠ sampleState.next →
        L1.heap 2 = sampleState.heap 2 ∧ strongEntry L1 7 ≠ strongEntry sampleState 7) :=
  create_on_bound_overwrites sampleState 1 7 2 "Target" rfl

/-- C8, counterexample. Address 7 already has table 2 in the strong registry;
`luaxx_create 7 "Target"` raises nothing and registers a second table, table 5,
for the address. -/
theorem create_on_bound_counterexample :
    strongEntry sampleState 7 = Value.table 2 ∧
    (luaxx_create 7 "Target" sampleState).error? = none ∧
    strongEntry (luaxx_create 7 "Target" sampleState).state 7 = Value.table 5 := by
  decide

/-! ## What `luaxx_to` and `luaxx_check` leave untouched -/

theorem lua_gettable_frame (L : LuaState) (idx : Int) :
    (∃ v rest, L.stack = v :: rest ∧
      ((∃ r, lua_gettable idx L = Res.ok () { L with stack := r :: rest }) ∨
       (∃ e, lua_gettable idx L = Res.raise e L))) ∨
    (L.stack = [] ∧ lua_gettable idx L = Res.raise LuaError.api L) := by
  cases hs : L.stack with
  | nil => right; simp [lua_gettable, hs]
  | cons v rest =>
    left
    refine ⟨v, rest, rfl, ?_⟩
    by_cases hr : idx = LUA_REGISTRYINDEX
    · left; exact ⟨L.registry v, by simp [lua_gettable, hs, hr]⟩
    · cases hg : luaV_gettable L MAXTAGLOOP ((index2value L idx).getD Value.nil) v with
      | ok r => left; exact ⟨r, by simp [lua_gettable, hs, hr, hg]⟩
      | error e => right; exact ⟨e, by simp [lua_gettable, hs, hr, hg]⟩

theorem luaxx_to_frame (L : LuaState) (position : Int) (tname : String) :
    (∃ q, luaxx_to position tname L = Res.ok q L) ∨
    (∃ e L1, luaxx_to position tname L = Res.raise e L1 ∧ sameButStack L L1) := by
  unfold luaxx_to
  simp only [run_bind, lua_pushstring, push]
  rcases lua_gettable_frame
    { L with stack := Value.string TYPE_KEYWORD :: Value.string tname :: L.stack } position
    with ⟨v, rest, hst, ⟨r, hg⟩ | ⟨e, hg⟩⟩ | ⟨hst, _⟩
  · simp only [List.cons.injEq] at hst
    obtain ⟨rfl, rfl⟩ := hst
    simp only [] at hg
    rw [hg]
    simp only [lua_rawequal, index2value_m1, index2value_m2]
    by_cases hreq : r = Value.string tname
    · subst hreq
      simp only [List.get?_eq_getElem?, List.getElem?_cons_zero, List.getElem?_cons_succ,
        decide_True, ↓reduceIte, run_bind, push]
      rcases lua_gettable_frame
        { L with stack := Value.string THIS_KEYWORD :: Value.string tname ::
            Value.string tname :: L.stack } position
        with ⟨v, rest, hst, ⟨r, hg⟩ | ⟨e, hg⟩⟩ | ⟨hst, _⟩
      · simp only [List.cons.injEq] at hst
        obtain ⟨rfl, rfl⟩ := hst
        left
        simp only [] at hg
        rw [hg]
        cases r <;> simp [lua_islightuserdata, lua_touserdata, lua_pop, index2value_m1]
      · right
        rw [hg]
        exact ⟨e, _, rfl, rfl, rfl, rfl, rfl, rfl⟩
      · simp at hst
    · left
      simp [hreq, lua_pop]
  · right
    rw [hg]
    exact ⟨e, _, rfl, rfl, rfl, rfl, rfl, rfl⟩
  · simp at hst

theorem luaxx_check_frame (L : LuaState) (position : Int) (tname : String) :
    (∃ q, q ≠ 0 ∧ luaxx_check position tname L = Res.ok q L) ∨
    (∃ e L1, luaxx_check position tname L = Res.raise e L1 ∧ sameButStack L L1) := by
  rcases luaxx_to_frame L position tname with ⟨q, hq⟩ | ⟨e, L1, he, hs⟩
  · rw [luaxx_check_of_to L L position tname q hq]
    by_cases h0 : q = 0
    · right
      exact ⟨LuaError.arg position "this pointer not set or C++ object has been destroyed", L,
        by simp [h0], rfl, rfl, rfl, rfl, rfl⟩
    · left
      exact ⟨q, h0, by simp [h0]⟩
  · right
    exact ⟨e, L1, by simp [luaxx_check, he], hs⟩

/-! ## C9: the binding invariant -/

theorem hoare_bind {σ α β : Type} {P : σ → Prop} {m : Run σ α} {Q : α → σ → Prop}
    {f : α → Run σ β} {Q' : β → σ → Prop} {R : σ → Prop}
    (h1 : Hoare P m Q R) (h2 : ∀ a, Hoare (Q a) (f a) Q' R) :
    Hoare P (m >>= f) Q' R := by
  intro s hs
  have h := h1 s hs
  rw [run_bind]
  cases hm : m s with
  | ok a s1 =>
    rw [hm] at h
    exact h2 a s1 h
  | raise e s1 =>
    rw [hm] at h
    exact h

theorem hoare_pure {σ α : Type} {P : σ → Prop} {R : σ → Prop} (a : α) :
    Hoare P (pure a : Run σ α) (fun _ s => P s) R := by
  intro s hs
  exact hs

theorem hoare_ite {σ α : Type} {P : σ → Prop} {Q : α → σ → Prop} {R : σ → Prop}
    (c : Prop) [Decidable c] {m1 m2 : Run σ α}
    (h1 : Hoare P m1 Q R) (h2 : Hoare P m2 Q R) :
    Hoare P (if c then m1 else m2) Q R := by
  by_cases hc : c
  · rw [if_pos hc]; exact h1
  · rw [if_neg hc]; exact h2

theorem entriesKept_refl (w : Nat) (L : LuaState) : EntriesKept w L L :=
  ⟨rfl, le_refl _, fun _ => ⟨rfl, rfl⟩⟩

theorem entriesKept_of_sameButStack (w : Nat) (L M : LuaState) (h : sameButStack L M) :
    EntriesKept w L M := by
  obtain ⟨h1, h2, _, _, h5⟩ := h
  refine ⟨by rw [h1], by rw [h5], fun a => ?_⟩
  simp [strongEntry, weakEntry, h1, h2]

theorem lookup_of_entriesKept (w : Nat) (L M : LuaState) (h : EntriesKept w L M) (a : Nat) :
    lookup M w a = lookup L w a :=
  lookup_congr L M w a (h.2.2 a)

theorem invariant_of_kept (w : Nat) (W W1 : World) (hI : BindingInvariant w W)
    (hk : BindingKept w W W1) : BindingInvariant w W1 := by
  obtain ⟨hw, hn, hf⟩ := hI
  obtain ⟨he, hfl⟩ := hk
  refine ⟨?_, lt_of_lt_of_le hn he.2.1, fun a ha => ?_⟩
  · unfold weakTable at hw ⊢
    rw [he.1, hw]
  · rw [hfl a, lookup_of_entriesKept w _ _ he a]
    exact hf a ha

theorem keeps_of_stackOnly {α : Type} (w : Nat) (m : LuaM α)
    (h : ∀ L, sameButStack L (m L).state) : KeepsEntries w m :=
  fun L _ => entriesKept_of_sameButStack w L _ (h L)

theorem sameButStack_refl (L : LuaState) : sameButStack L L := ⟨rfl, rfl, rfl, rfl, rfl⟩

theorem luaxx_to_stackOnly (position : Int) (tname : String) (L : LuaState) :
    sameButStack L (luaxx_to position tname L).state := by
  rcases luaxx_to_frame L position tname with ⟨q, hq⟩ | ⟨e, L1, he, hs⟩
  · rw [hq]; exact sameButStack_refl L
  · rw [he]; exact hs

theorem luaxx_check_stackOnly (position : Int) (tname : String) (L : LuaState) :
    sameButStack L (luaxx_check position tname L).state := by
  rcases luaxx_check_frame L position tname with ⟨q, _, hq⟩ | ⟨e, L1, he, hs⟩
  · rw [hq]; exact sameButStack_refl L
  · rw [he]; exact hs

theorem lua_isnoneornil_stackOnly (idx : Int) (L : LuaState) :
    sameButStack L (lua_isnoneornil idx L).state := sameButStack_refl L

theorem lua_istable_stackOnly (idx : Int) (L : LuaState) :
    sameButStack L (lua_istable idx L).state := sameButStack_refl L

theorem lua_pushvalue_stackOnly (idx : Int) (L : LuaState) :
    sameButStack L (lua_pushvalue idx L).state := ⟨rfl, rfl, rfl, rfl, rfl⟩

theorem luaL_argcheck_stackOnly (c : Bool) (idx : Int) (msg : String) (L : LuaState) :
    sameButStack L (luaL_argcheck c idx msg L).state := by
  cases c <;> exact sameButStack_refl L

theorem luaL_checkstring_stackOnly (idx : Int) (L : LuaState) :
    sameButStack L (luaL_checkstring idx L).state := by
  unfold luaL_checkstring
  split
  · exact sameButStack_refl L
  · exact ⟨rfl, rfl, rfl, rfl, rfl⟩
  · exact sameButStack_refl L

theorem members_type_keeps (w object : Nat) (tname : String) :
    KeepsEntries w (members_type object tname) := by
  intro L hw
  unfold members_type
  simp only [run_bind, luaxx_push_eq w L object hw]
  rcases lookup_cases L w object with h | ⟨T, h⟩
  · simp [h, lua_istable, index2value_m1, isTable, lua_pop, Res.state]
    exact entriesKept_refl w L
  · simp [h, lua_istable, index2value_m1, index2value_m3, isTable, lua_pop, Res.state,
      lua_pushstring, push, lua_rawset, tableAt, storeRaw, LUA_REGISTRYINDEX]
    refine ⟨rfl, le_refl _, fun a => ⟨rfl, ?_⟩⟩
    by_cases hT : w = T <;> simp [weakEntry, setRaw, hT]

theorem members_this_pointer_keeps (w object this_pointer : Nat) :
    KeepsEntries w (members_this_pointer object this_pointer) := by
  intro L hw
  unfold members_this_pointer
  simp only [run_bind, luaxx_push_eq w L object hw]
  rcases lookup_cases L w object with h | ⟨T, h⟩
  · simp [h, lua_istable, index2value_m1, isTable, lua_pop, Res.state]
    exact entriesKept_refl w L
  · simp [h, lua_istable, index2value_m1, index2value_m3, isTable, lua_pop, Res.state,
      lua_pushstring, lua_pushlightuserdata, push, lua_rawset, tableAt, storeRaw,
      LUA_REGISTRYINDEX]
    refine ⟨rfl, le_refl _, fun a => ⟨rfl, ?_⟩⟩
    by_cases hT : w = T <;> simp [weakEntry, setRaw, hT]

theorem members_metatable_keeps (w object other : Nat) :
    KeepsEntries w (members_metatable object other) := by
  intro L hw
  unfold members_metatable
  simp only [run_bind, luaxx_push_eq w L object hw]
  rcases lookup_cases L w object with h | ⟨T, h⟩
  · simp [h, lua_istable, index2value_m1, isTable, lua_pop, Res.state]
    exact entriesKept_refl w L
  · have hw2 : weakTable { L with stack := Value.table T :: L.stack } w := hw
    simp only [h, lua_istable, index2value_m1, isTable, List.get?_eq_getElem?,
      List.getElem?_cons_zero, ↓reduceIte, run_bind, luaxx_push_eq w _ other hw2, lookup_stack]
    rcases lookup_cases L w other with h2 | ⟨T2, h2⟩
    · simp [h2, lua_setmetatable, index2value_m2, lua_pop, Res.state]
      exact ⟨rfl, le_refl _, fun a => ⟨rfl, rfl⟩⟩
    · simp [h2, lua_setmetatable, index2value_m2, lua_pop, Res.state]
      exact ⟨rfl, le_refl _, fun a => ⟨rfl, rfl⟩⟩

theorem luaxx_attach_cases (L : LuaState) (p : Nat) (u : String) :
    (∃ T rest, L.stack = Value.table T :: rest ∧
      luaxx_attach p u L = Res.ok ()
        { L with
          registry := setRaw L.registry (Value.lightuserdata p) (Value.table T)
          heap := fun j => if j = T then
              setRaw (setRaw (L.heap T) (Value.string THIS_KEYWORD) (Value.lightuserdata p))
                (Value.string TYPE_KEYWORD) (Value.string u)
            else L.heap j }) ∨
    (∃ e L1, luaxx_attach p u L = Res.raise e L1 ∧ sameButStack L L1) := by
  have hraise : ∀ v : Option Value, L.stack[0]? = v →
      (∀ T, v ≠ some (Value.table T)) →
      luaxx_attach p u L = Res.raise LuaError.api
        { L with stack := Value.lightuserdata p :: Value.string THIS_KEYWORD :: L.stack } := by
    intro v hv hT
    cases v with
    | none =>
      simp [luaxx_attach, lua_pushstring, lua_pushlightuserdata, push, lua_rawset, tableAt,
        index2value_m3, hv, LUA_REGISTRYINDEX]
    | some x =>
      cases x with
      | table T => exact absurd rfl (hT T)
      | _ =>
        simp [luaxx_attach, lua_pushstring, lua_pushlightuserdata, push, lua_rawset, tableAt,
          index2value_m3, hv, LUA_REGISTRYINDEX]
  cases hs : L.stack with
  | nil =>
    right
    exact ⟨_, _, hraise none (by simp [hs]) (by simp), ⟨rfl, rfl, rfl, rfl, rfl⟩⟩
  | cons v rest =>
    by_cases hv : ∃ T, v = Value.table T
    · obtain ⟨T, rfl⟩ := hv
      left
      have h := luaxx_attach_eq L rest T p u hs
      rw [hs] at h
      exact ⟨T, rest, rfl, h⟩
    · right
      refine ⟨_, _, hraise (some v) (by simp [hs]) ?_, ⟨rfl, rfl, rfl, rfl, rfl⟩⟩
      intro T hT
      exact hv ⟨T, by simpa using hT⟩

theorem luaxx_create_entries (w : Nat) (L : LuaState) (p : Nat) (u : String)
    (hw : weakTable L w) (hn : w < L.next) :
    ∃ M, luaxx_create p u L = Res.ok () M ∧ weakTable M w ∧ w < M.next ∧
      (p ≠ 0 → isTable (lookup M w p) = true) ∧
      ∀ q, q ≠ p → lookup M w q = lookup L w q := by
  have hne : ¬ w = L.next := Nat.ne_of_lt hn
  refine ⟨_, luaxx_create_eq L p u, ?_, ?_, ?_, ?_⟩
  · unfold weakTable at hw ⊢
    simp [setRaw, hw]
  · exact Nat.lt_succ_of_lt hn
  · intro hp
    simp [lookup, hp, strongEntry, setRaw, tableOrNil, isTable]
  · intro q hq
    apply lookup_congr
    simp [strongEntry, weakEntry, setRaw, hq, hne]

theorem luaxx_attach_entries (w : Nat) (L : LuaState) (p : Nat) (u : String)
    (hw : weakTable L w) (hn : w < L.next) :
    (∃ M, luaxx_attach p u L = Res.ok () M ∧ weakTable M w ∧ w < M.next ∧
      (p ≠ 0 → isTable (lookup M w p) = true) ∧
      ∀ q, q ≠ p → lookup M w q = lookup L w q) ∨
    (∃ e L1, luaxx_attach p u L = Res.raise e L1 ∧ sameButStack L L1) := by
  rcases luaxx_attach_cases L p u with ⟨T, rest, _, h⟩ | h
  · left
    refine ⟨_, h, ?_, hn, ?_, ?_⟩
    · unfold weakTable at hw ⊢
      simp [setRaw, hw]
    · intro hp
      simp [lookup, hp, strongEntry, setRaw, tableOrNil, isTable]
    · intro q hq
      apply lookup_congr
      by_cases hT : w = T
      · subst hT; simp [strongEntry, weakEntry, setRaw, hq]
      · simp [strongEntry, weakEntry, setRaw, hq, hT]
  · right; exact h

theorem luaxx_destroy_unbound_eq (w : Nat) (L : LuaState) (p : Nat) (hw : weakTable L w)
    (hT : lookup L w p = Value.nil) :
    luaxx_destroy p L = Res.ok ()
      { L with
        registry := setRaw L.registry (Value.lightuserdata p) Value.nil
        heap := fun j => if j = w then setRaw (L.heap w) (Value.lightuserdata p) Value.nil
                         else L.heap j } := by
  have hw' := hw
  unfold weakTable at hw'
  have hc : ∀ M : LuaState, M.registry (Value.string WEAK_OBJECTS_KEYWORD) = Value.table w →
      weakTable M w := fun M h => h
  unfold luaxx_destroy
  simp only [run_bind, luaxx_push_eq w L p hw, hT]
  simp [lua_istable, index2value_m1, isTable, lua_pop]
  simp (disch := (apply hc; simp [setRaw, hw'])) only [luaxx_remove_weak w]

theorem luaxx_destroy_entries (w : Nat) (L : LuaState) (p : Nat)
    (hw : weakTable L w) (hn : w < L.next) :
    ∃ M, luaxx_destroy p L = Res.ok () M ∧ weakTable M w ∧ w < M.next ∧
      isTable (lookup M w p) = false ∧
      ∀ q, q ≠ p → lookup M w q = lookup L w q := by
  rcases lookup_cases L w p with h | ⟨T, h⟩
  · refine ⟨_, luaxx_destroy_unbound_eq w L p hw h, ?_, hn, ?_, ?_⟩
    · unfold weakTable at hw ⊢
      simp [setRaw, hw]
    · by_cases hp : p = 0 <;> simp [lookup, hp, strongEntry, weakEntry, setRaw, tableOrNil, isTable]
    · intro q hq
      apply lookup_congr
      simp [strongEntry, weakEntry, setRaw, hq]
  · refine ⟨_, luaxx_destroy_eq w L p T hw h, ?_, hn, ?_, ?_⟩
    · unfold weakTable at hw ⊢
      simp [setRaw, hw]
    · by_cases hp : p = 0 <;> simp [lookup, hp, strongEntry, weakEntry, setRaw, tableOrNil, isTable]
    · intro q hq
      apply lookup_congr
      by_cases hT : w = T
      · subst hT; simp [strongEntry, weakEntry, setRaw, hq]
      · simp [strongEntry, weakEntry, setRaw, hq, hT]

theorem hoare_liftLua_keeps {α : Type} (w : Nat) (m : LuaM α) (h : KeepsEntries w m) :
    Hoare (BindingInvariant w) (liftLua m) (fun _ => BindingInvariant w)
      (BindingInvariant w) := by
  intro W hI
  have hk := h W.lua hI.1
  unfold liftLua
  cases hm : m W.lua with
  | ok a L1 =>
    rw [hm] at hk
    exact invariant_of_kept w W _ hI ⟨hk, fun _ => rfl⟩
  | raise e L1 =>
    rw [hm] at hk
    exact invariant_of_kept w W _ hI ⟨hk, fun _ => rfl⟩

theorem hoare_getW {P : World → Prop} {R : World → Prop} :
    Hoare P getW (fun _ s => P s) R := by
  intro s hs
  exact hs

theorem hoare_set_prototype (w target prototype : Nat) :
    Hoare (BindingInvariant w) (Target.set_prototype target prototype)
      (fun _ => BindingInvariant w) (BindingInvariant w) := by
  intro W hI
  refine invariant_of_kept w W _ hI ⟨entriesKept_refl w _, fun a => ?_⟩
  by_cases ha : a = target <;> simp [World.referenced_by_script, ha]

theorem hoare_set_working_directory (w target wd : Nat) :
    Hoare (BindingInvariant w) (Target.set_working_directory target wd)
      (fun _ => BindingInvariant w) (BindingInvariant w) := by
  intro W hI
  refine invariant_of_kept w W _ hI ⟨entriesKept_refl w _, fun a => ?_⟩
  by_cases ha : a = target <;> simp [World.referenced_by_script, ha]

theorem hoare_next_anonymous_index (w target : Nat) :
    Hoare (BindingInvariant w) (Target.next_anonymous_index target)
      (fun _ => BindingInvariant w) (BindingInvariant w) := by
  intro W hI
  refine invariant_of_kept w W _ hI ⟨entriesKept_refl w _, fun a => ?_⟩
  by_cases ha : a = target <;> simp [World.referenced_by_script, ha]

theorem hoare_graph_target (env : Env) (hf : GraphTargetFrame env) (w : Nat) (id : String)
    (prototype wd : Nat) :
    Hoare (BindingInvariant w) (Graph.target env id prototype wd)
      (fun _ => BindingInvariant w) (BindingInvariant w) := by
  intro W hI
  unfold Graph.target
  cases hg : env.graph_target id prototype wd W with
  | none => exact invariant_of_kept w W _ hI ⟨entriesKept_refl w _, fun _ => rfl⟩
  | some r =>
    obtain ⟨target, W1⟩ := r
    obtain ⟨hl, hfl⟩ := hf id prototype wd W W1 target hg
    refine invariant_of_kept w W _ hI ⟨?_, hfl⟩
    show EntriesKept w W.lua W1.lua
    rw [hl]
    exact entriesKept_refl w _

theorem hoare_set_referenced (w target : Nat) (value : Bool) :
    Hoare (fun W => InvariantBut w target W ∧
        (target ≠ 0 → isTable (lookup W.lua w target) = value))
      (Target.set_referenced_by_script target value)
      (fun _ => BindingInvariant w) (BindingInvariant w) := by
  intro W hP
  obtain ⟨⟨hw, hn, hf⟩, ht⟩ := hP
  refine ⟨hw, hn, fun a ha => ?_⟩
  by_cases hat : a = target
  · subst hat
    have := ht ha
    simp [World.referenced_by_script, Target.set_referenced_by_script] at this ⊢
    rw [this]
  · have := hf a ha hat
    simpa [World.referenced_by_script, Target.set_referenced_by_script, hat] using this

theorem invariantBut_of_lookups (w target : Nat) (W : World) (M : LuaState)
    (hI : BindingInvariant w W) (hw : weakTable M w) (hn : w < M.next)
    (hl : ∀ q, q ≠ target → lookup M w q = lookup W.lua w q) :
    InvariantBut w target { W with lua := M } := by
  refine ⟨hw, hn, fun a ha hat => ?_⟩
  show W.referenced_by_script a = true ↔ isTable (lookup M w a) = true
  rw [hl a hat]
  exact hI.2.2 a ha

theorem hoare_lua_create (env : Env) (w target : Nat) :
    Hoare (BindingInvariant w) (liftLua (Lua.create env target))
      (fun _ W => InvariantBut w target W ∧
        (target ≠ 0 → isTable (lookup W.lua w target) = true))
      (BindingInvariant w) := by
  intro W hI
  obtain ⟨M, hM, hw, hn, hb, hl⟩ := luaxx_create_entries w W.lua target env.TARGET_TYPE hI.1 hI.2.1
  simp only [liftLua, Lua.create, hM]
  exact ⟨invariantBut_of_lookups w target W M hI hw hn hl, hb⟩

theorem hoare_lua_destroy (w target : Nat) :
    Hoare (BindingInvariant w) (liftLua (Lua.destroy target))
      (fun _ W => InvariantBut w target W ∧
        (target ≠ 0 → isTable (lookup W.lua w target) = false))
      (BindingInvariant w) := by
  intro W hI
  obtain ⟨M, hM, hw, hn, hb, hl⟩ := luaxx_destroy_entries w W.lua target hI.1 hI.2.1
  simp only [liftLua, Lua.destroy, hM]
  exact ⟨invariantBut_of_lookups w target W M hI hw hn hl, fun _ => hb⟩

theorem hoare_attach (w target : Nat) (u : String) :
    Hoare (BindingInvariant w) (liftLua (luaxx_attach target u))
      (fun _ W => InvariantBut w target W ∧
        (target ≠ 0 → isTable (lookup W.lua w target) = true))
      (BindingInvariant w) := by
  intro W hI
  rcases luaxx_attach_entries w W.lua target u hI.1 hI.2.1 with
    ⟨M, hM, hw, hn, hb, hl⟩ | ⟨e, L1, he, hs⟩
  · simp only [liftLua, hM]
    exact ⟨invariantBut_of_lookups w target W M hI hw hn hl, hb⟩
  · simp only [liftLua, he]
    exact invariant_of_kept w W _ hI ⟨entriesKept_of_sameButStack w _ _ hs, fun _ => rfl⟩

theorem hoare_recover_target (env : Env) (w target : Nat) :
    Hoare (BindingInvariant w) (LuaTarget.recover_target env target)
      (fun _ => BindingInvariant w) (BindingInvariant w) := by
  unfold LuaTarget.recover_target
  refine hoare_bind hoare_getW (fun W0 => ?_)
  refine hoare_bind (hoare_liftLua_keeps w _ (members_type_keeps w _ _)) (fun _ => ?_)
  refine hoare_bind (hoare_liftLua_keeps w _ (members_metatable_keeps w _ _)) (fun _ => ?_)
  exact hoare_liftLua_keeps w _ (members_this_pointer_keeps w _ _)

theorem hoare_update_target (w target : Nat) :
    Hoare (BindingInvariant w) (LuaTarget.update_target target)
      (fun _ => BindingInvariant w) (BindingInvariant w) := by
  unfold LuaTarget.update_target
  refine hoare_bind hoare_getW (fun W0 => ?_)
  exact hoare_ite _ (hoare_liftLua_keeps w _ (members_metatable_keeps w _ _))
    (hoare_liftLua_keeps w _ (members_metatable_keeps w _ _))

theorem hoare_create_target (env : Env) (w target : Nat) :
    Hoare (BindingInvariant w) (LuaTarget.create_target env target)
      (fun _ => BindingInvariant w) (BindingInvariant w) := by
  unfold LuaTarget.create_target
  refine hoare_bind hoare_getW (fun W0 => ?_)
  refine hoare_ite _ ?_ (hoare_pure _)
  refine hoare_bind (hoare_lua_create env w target) (fun _ => ?_)
  refine hoare_bind (hoare_set_referenced w target true) (fun _ => ?_)
  refine hoare_bind (hoare_recover_target env w target) (fun _ => ?_)
  exact hoare_update_target w target

theorem hoare_destroy_target (w target : Nat) :
    Hoare (BindingInvariant w) (LuaTarget.destroy_target target)
      (fun _ => BindingInvariant w) (BindingInvariant w) := by
  unfold LuaTarget.destroy_target
  refine hoare_bind (hoare_lua_destroy w target) (fun _ => ?_)
  exact hoare_set_referenced w target false

theorem hoare_add_target (env : Env) (hf : GraphTargetFrame env) (w : Nat) :
    Hoare (BindingInvariant w) (LuaGraph.add_target env)
      (fun _ => BindingInvariant w) (BindingInvariant w) := by
  unfold LuaGraph.add_target
  refine hoare_bind (hoare_liftLua_keeps w _
    (keeps_of_stackOnly w _ (luaxx_check_stackOnly _ _))) (fun _ => ?_)
  refine hoare_bind hoare_getW (fun W0 => ?_)
  refine hoare_bind (hoare_liftLua_keeps w _
    (keeps_of_stackOnly w _ (lua_isnoneornil_stackOnly _))) (fun anonymous => ?_)
  have key : ∀ K : String → Run World Nat,
      (∀ id, Hoare (BindingInvariant w) (K id) (fun _ => BindingInvariant w)
        (BindingInvariant w)) →
      Hoare (BindingInvariant w)
        (if (!anonymous) = true then liftLua (luaL_checkstring 2) >>= K
         else Target.next_anonymous_index W0.working_directory >>= fun index =>
           (pure (anonymousId index) : Run World String) >>= K)
        (fun _ => BindingInvariant w) (BindingInvariant w) := by
    intro K hK
    refine hoare_ite _ ?_ ?_
    · exact hoare_bind (hoare_liftLua_keeps w _
        (keeps_of_stackOnly w _ (luaL_checkstring_stackOnly _))) hK
    · refine hoare_bind (hoare_next_anonymous_index w _) (fun index => ?_)
      exact hoare_bind (hoare_pure _) hK
  refine key _ (fun id => ?_)
  refine hoare_bind (hoare_liftLua_keeps w _
    (keeps_of_stackOnly w _ (luaxx_to_stackOnly _ _))) (fun target_prototype => ?_)
  refine hoare_bind (hoare_graph_target env hf w _ _ _) (fun target => ?_)
  refine hoare_bind hoare_getW (fun W1 => ?_)
  refine hoare_ite _ ?_ ?_
  · refine hoare_bind (hoare_liftLua_keeps w _
      (keeps_of_stackOnly w _ (lua_isnoneornil_stackOnly _))) (fun b => ?_)
    refine hoare_ite _ ?_ ?_
    · refine hoare_bind (hoare_liftLua_keeps w _
        (keeps_of_stackOnly w _ (lua_istable_stackOnly _))) (fun b2 => ?_)
      refine hoare_bind (hoare_liftLua_keeps w _
        (keeps_of_stackOnly w _ (luaL_argcheck_stackOnly _ _ _))) (fun _ => ?_)
      refine hoare_bind (hoare_liftLua_keeps w _
        (keeps_of_stackOnly w _ (lua_pushvalue_stackOnly _))) (fun _ => ?_)
      refine hoare_bind (hoare_attach w target env.TARGET_TYPE) (fun _ => ?_)
      refine hoare_bind (hoare_set_referenced w target true) (fun _ => ?_)
      refine hoare_bind (hoare_set_prototype w target _) (fun _ => ?_)
      refine hoare_bind (hoare_set_working_directory w target _) (fun _ => ?_)
      refine hoare_bind (hoare_recover_target env w target) (fun _ => ?_)
      refine hoare_bind (hoare_update_target w target) (fun _ => ?_)
      exact hoare_pure _
    · refine hoare_bind (hoare_create_target env w target) (fun _ => ?_)
      refine hoare_bind (hoare_recover_target env w target) (fun _ => ?_)
      refine hoare_bind (hoare_update_target w target) (fun _ => ?_)
      exact hoare_pure _
  · exact hoare_bind (hoare_pure _) (fun _ => hoare_pure _)

theorem hoare_state {σ α : Type} {P Q : σ → Prop} {m : Run σ α}
    (h : Hoare P m (fun _ => Q) Q) (s : σ) (hs : P s) : Q (m s).state := by
  have h' := h s hs
  cases hm : m s with
  | ok a s1 => rw [hm] at h'; exact h'
  | raise e s1 => rw [hm] at h'; exact h'

theorem invariant_withStack (w : Nat) (W : World) (stack : List Value)
    (hI : BindingInvariant w W) : BindingInvariant w (W.withStack stack) :=
  invariant_of_kept w W _ hI
    ⟨entriesKept_of_sameButStack w _ _ ⟨rfl, rfl, rfl, rfl, rfl⟩, fun _ => rfl⟩

theorem invariant_step (env : Env) (hf : GraphTargetFrame env) (w : Nat) (W W1 : World)
    (hI : BindingInvariant w W) (hs : BindingStep env W W1) : BindingInvariant w W1 := by
  cases hs with
  | create_target stack target =>
    exact hoare_state (hoare_create_target env w target) _ (invariant_withStack w W stack hI)
  | destroy_target stack target =>
    exact hoare_state (hoare_destroy_target w target) _ (invariant_withStack w W stack hI)
  | add_target stack =>
    exact hoare_state (hoare_add_target env hf w) _ (invariant_withStack w W stack hI)

/-- C9. Let `Graph::target` leave the Lua state and the `referenced_by_script`
flags alone.  From a world where the binding invariant holds, every world
reached through calls of `LuaTarget::create_target`, `LuaTarget::destroy_target`
and `LuaGraph::add_target` (any targets, any call stacks, returning or raising)
satisfies it again: each target is flagged `referenced_by_script` exactly when
`luaxx_push` of its address pushes a table.  And `create_target` on a target
that is already referenced returns with the world unchanged. -/
theorem binding_invariant_reachable (env : Env) (hf : GraphTargetFrame env) (w : Nat)
    (W W1 : World) (hI : BindingInvariant w W)
    (hr : Relation.ReflTransGen (BindingStep env) W W1) :
    BindingInvariant w W1 ∧
    ∀ target, W1.referenced_by_script target = true →
      LuaTarget.create_target env target W1 = Res.ok () W1 := by
  constructor
  · induction hr with
    | refl => exact hI
    | tail _ hs ih => exact invariant_step env hf w _ _ ih hs
  · intro target ht
    simp [LuaTarget.create_target, getW, ht]

theorem sampleEnv_frame : GraphTargetFrame sampleEnv := by
  intro id prototype wd W W1 target h
  simp [sampleEnv] at h
  rw [← h.2]
  exact ⟨rfl, fun _ => rfl⟩

theorem sampleWorld_invariant : BindingInvariant 1 sampleWorld := by
  refine ⟨rfl, by decide, fun a ha => ?_⟩
  by_cases h7 : a = 7
  · subst h7; decide
  · by_cases h8 : a = 8
    · subst h8; decide
    · by_cases h9 : a = 9
      · subst h9; decide
      · simp [World.referenced_by_script, sampleWorld, sampleState, lookup, strongEntry,
          weakEntry, setRaw, emptyFields, tableOrNil, isTable, ha, h7, h8, h9,
          WEAK_OBJECTS_KEYWORD]

/-- Witness of C9: from `sampleWorld`, the world after destroying the
binding of the target at address 7. -/
theorem binding_invariant_reachable_witness :
    BindingInvariant 1 (LuaTarget.destroy_target 7 (sampleWorld.withStack [])).state ∧
    ∀ target,
      (LuaTarget.destroy_target 7 (sampleWorld.withStack [])).state.referenced_by_script
          target = true →
      LuaTarget.create_target sampleEnv target
          (LuaTarget.destroy_target 7 (sampleWorld.withStack [])).state
        = Res.ok () (LuaTarget.destroy_target 7 (sampleWorld.withStack [])).state :=
  binding_invariant_reachable sampleEnv sampleEnv_frame 1 sampleWorld _
    sampleWorld_invariant
    (Relation.ReflTransGen.single (BindingStep.destroy_target sampleWorld [] 7))

/-! ## C10: postorder during a traversal -/

/-- C10. Whenever the graph's `traversal_in_progress` flag is true,
`LuaGraph::postorder` raises a script error; the world it leaves has the same
graph, the same targets, the same record of calls to `Graph::bind` and
`Scheduler::postorder` and the same registry and tables (so no reference to the
callback was created); when the forge argument passes `luaxx_check`, the error
is the "Postorder called from within another bind or postorder traversal" one
and the world is exactly the one before the call. -/
theorem postorder_nested_raises (env : Env) (W : World)
    (h : W.graph.traversal_in_progress = true) :
    ∃ (e : LuaError) (W1 : World),
      LuaGraph.postorder env W = Res.raise e W1 ∧
      W1.graph = W.graph ∧ W1.targets = W.targets ∧ W1.calls = W.calls ∧
      W1.lua.registry = W.lua.registry ∧ W1.lua.heap = W.lua.heap ∧
      ((luaxx_check 1 env.FORGE_TYPE W.lua).error? = none →
        e = LuaError.error "Postorder called from within another bind or postorder traversal"
        ∧ W1 = W) := by
  rcases luaxx_check_frame W.lua 1 env.FORGE_TYPE with ⟨q, _, hq⟩ | ⟨e, L1, he, hs⟩
  · refine ⟨_, W, ?_, rfl, rfl, rfl, rfl, rfl, fun _ => ⟨rfl, rfl⟩⟩
    simp [LuaGraph.postorder, liftLua, hq, getW, h, luaL_error, raise]
  · refine ⟨e, { W with lua := L1 }, ?_, rfl, rfl, rfl, hs.1, hs.2.1, ?_⟩
    · simp [LuaGraph.postorder, liftLua, he]
    · intro hn
      rw [he] at hn
      simp [Res.error?] at hn

/-- Witness of C10 at `traversingWorld`. -/
theorem postorder_nested_raises_witness :
    ∃ (e : LuaError) (W1 : World),
      LuaGraph.postorder sampleEnv traversingWorld = Res.raise e W1 ∧
      W1.graph = traversingWorld.graph ∧ W1.targets = traversingWorld.targets ∧
      W1.calls = traversingWorld.calls ∧
      W1.lua.registry = traversingWorld.lua.registry ∧ W1.lua.heap = traversingWorld.lua.heap ∧
      ((luaxx_check 1 sampleEnv.FORGE_TYPE traversingWorld.lua).error? = none →
        e = LuaError.error "Postorder called from within another bind or postorder traversal"
        ∧ W1 = traversingWorld) :=
  postorder_nested_raises sampleEnv traversingWorld rfl

/-! ## C20: the two registries stay disjoint -/

theorem luaxx_swap_split (w : Nat) (L : LuaState) (a b : Nat) (hw : weakTable L w) :
    luaxx_swap a b L = (luaxx_weaken a >>= fun _ => luaxx_weaken b)
      { L with
        registry := setRaw (setRaw (setRaw (setRaw L.registry (Value.lightuserdata a) Value.nil)
            (Value.lightuserdata b) Value.nil)
            (Value.lightuserdata a) (if a = b then Value.nil else lookup L w b))
          (Value.lightuserdata b) (lookup L w a)
        heap := fun j => if j = w then
            setRaw (setRaw (L.heap w) (Value.lightuserdata a) Value.nil)
              (Value.lightuserdata b) Value.nil
          else L.heap j } := by
  have hw' := hw
  unfold weakTable at hw'
  have hc : ∀ M : LuaState, M.registry (Value.string WEAK_OBJECTS_KEYWORD) = Value.table w →
      weakTable M w := fun M h => h
  unfold luaxx_swap
  simp only [run_bind, lua_pushlightuserdata, push]
  simp (disch := (apply hc; simp [setRaw, hw'])) only [luaxx_push_eq w, luaxx_remove_weak w]
  simp only [lua_rawset, tableAt, storeRaw, ↓reduceIte, lookup_stack, lookup_removed]
  have hh : (fun j => if j = w then
        setRaw (setRaw (L.heap w) (Value.lightuserdata a) Value.nil) (Value.lightuserdata b) Value.nil
      else if j = w then setRaw (L.heap w) (Value.lightuserdata a) Value.nil else L.heap j)
      = (fun j => if j = w then
        setRaw (setRaw (L.heap w) (Value.lightuserdata a) Value.nil) (Value.lightuserdata b) Value.nil
      else L.heap j) := by
    funext j
    by_cases hj : j = w <;> simp [hj]
  simp [hh]

theorem weaken_disjoint (w : Nat) (L : LuaState) (a : Nat) (hw : weakTable L w)
    (hd : RegistriesDisjoint L w) :
    ∃ M, luaxx_weaken a L = Res.ok () M ∧ weakTable M w ∧ RegistriesDisjoint M w := by
  by_cases ha : a = 0
  · subst ha
    exact ⟨L, luaxx_weaken_null L, hw, hd⟩
  · refine ⟨_, luaxx_weaken_eq w L a ha hw, ?_, ?_⟩
    · unfold weakTable at hw ⊢
      split <;> simp [setRaw, hw]
    · split
      · intro c
        by_cases hc : c = a
        · subst hc; simp [strongEntry, setRaw, isTable]
        · have := hd c
          simpa [strongEntry, weakEntry, setRaw, hc] using this
      · exact hd

theorem strengthen_disjoint (w : Nat) (L : LuaState) (a : Nat) (hw : weakTable L w)
    (hd : RegistriesDisjoint L w) :
    ∃ M, luaxx_strengthen a L = Res.ok () M ∧ weakTable M w ∧ RegistriesDisjoint M w := by
  by_cases ha : a = 0
  · subst ha
    exact ⟨L, luaxx_strengthen_null L, hw, hd⟩
  · cases hk : weakEntry L w a with
    | table t =>
      refine ⟨_, luaxx_strengthen_table w L a t ha hw hk, ?_, ?_⟩
      · unfold weakTable at hw ⊢
        simp [setRaw, hw]
      · intro c
        by_cases hc : c = a
        · subst hc; simp [weakEntry, setRaw, isTable]
        · have := hd c
          simpa [strongEntry, weakEntry, setRaw, hc] using this
    | _ => exact ⟨L, luaxx_strengthen_skip w L a hw (by rw [hk]; rfl), hw, hd⟩

theorem removed_disjoint (w : Nat) (L : LuaState) (a : Nat) (hw : weakTable L w)
    (hd : RegistriesDisjoint L w) (h : Fields)
    (hh : ∀ c, h (Value.lightuserdata c) = L.heap w (Value.lightuserdata c)) :
    weakTable { L with
        registry := setRaw L.registry (Value.lightuserdata a) Value.nil
        heap := fun j => if j = w then setRaw h (Value.lightuserdata a) Value.nil
                         else L.heap j } w ∧
    RegistriesDisjoint { L with
        registry := setRaw L.registry (Value.lightuserdata a) Value.nil
        heap := fun j => if j = w then setRaw h (Value.lightuserdata a) Value.nil
                         else L.heap j } w := by
  refine ⟨?_, ?_⟩
  · unfold weakTable at hw ⊢
    simp [setRaw, hw]
  · intro c
    by_cases hc : c = a
    · subst hc; simp [strongEntry, setRaw, isTable]
    · have := hd c
      simpa [strongEntry, weakEntry, setRaw, hc, hh] using this

theorem swap_disjoint (w : Nat) (L : LuaState) (a b : Nat) (hw : weakTable L w)
    (hd : RegistriesDisjoint L w) :
    ∃ M, luaxx_swap a b L = Res.ok () M ∧ weakTable M w ∧ RegistriesDisjoint M w := by
  rw [luaxx_swap_split w L a b hw]
  have hw1 : weakTable { L with
        registry := setRaw (setRaw (setRaw (setRaw L.registry (Value.lightuserdata a) Value.nil)
            (Value.lightuserdata b) Value.nil)
            (Value.lightuserdata a) (if a = b then Value.nil else lookup L w b))
          (Value.lightuserdata b) (lookup L w a)
        heap := fun j => if j = w then
            setRaw (setRaw (L.heap w) (Value.lightuserdata a) Value.nil)
              (Value.lightuserdata b) Value.nil
          else L.heap j } w := by
    unfold weakTable at hw ⊢
    simp [setRaw, hw]
  have hd1 : RegistriesDisjoint { L with
        registry := setRaw (setRaw (setRaw (setRaw L.registry (Value.lightuserdata a) Value.nil)
            (Value.lightuserdata b) Value.nil)
            (Value.lightuserdata a) (if a = b then Value.nil else lookup L w b))
          (Value.lightuserdata b) (lookup L w a)
        heap := fun j => if j = w then
            setRaw (setRaw (L.heap w) (Value.lightuserdata a) Value.nil)
              (Value.lightuserdata b) Value.nil
          else L.heap j } w := by
    intro c
    by_cases hcb : c = b
    · subst hcb; simp [weakEntry, setRaw, isTable]
    · by_cases hca : c = a
      · subst hca; simp [weakEntry, setRaw, isTable, hcb]
      · have := hd c
        simpa [strongEntry, weakEntry, setRaw, hca, hcb] using this
  obtain ⟨M1, e1, hw2, hd2⟩ := weaken_disjoint w _ a hw1 hd1
  obtain ⟨M2, e2, hw3, hd3⟩ := weaken_disjoint w M1 b hw2 hd2
  exact ⟨M2, by simp [run_bind, e1, e2], hw3, hd3⟩

theorem remove_disjoint (w : Nat) (L : LuaState) (a : Nat) (f : Bool) (hw : weakTable L w)
    (hd : RegistriesDisjoint L w) :
    ∃ M, luaxx_remove a f L = Res.ok true M ∧ weakTable M w ∧ RegistriesDisjoint M w :=
  ⟨_, luaxx_remove_weak w L a f hw, removed_disjoint w L a hw hd (L.heap w) (fun _ => rfl)⟩

theorem destroy_disjoint (w : Nat) (L : LuaState) (a : Nat) (hw : weakTable L w)
    (hd : RegistriesDisjoint L w) :
    ∃ M, luaxx_destroy a L = Res.ok () M ∧ weakTable M w ∧ RegistriesDisjoint M w := by
  rcases lookup_cases L w a with h | ⟨T, h⟩
  · exact ⟨_, luaxx_destroy_unbound_eq w L a hw h,
      removed_disjoint w L a hw hd (L.heap w) (fun _ => rfl)⟩
  · refine ⟨_, luaxx_destroy_eq w L a T hw h, ?_, ?_⟩
    · unfold weakTable at hw ⊢
      simp [setRaw, hw]
    · intro c
      by_cases hc : c = a
      · subst hc; simp [strongEntry, setRaw, isTable]
      · have := hd c
        by_cases hT : w = T
        · subst hT
          simpa [strongEntry, weakEntry, setRaw, hc] using this
        · simpa [strongEntry, weakEntry, setRaw, hc, hT] using this

/-- C20. In a state whose weak objects table exists and in which no address has
a table both in the strong registry and in the weak objects table, each of
`luaxx_weaken`, `luaxx_strengthen`, `luaxx_swap`, `luaxx_remove` and
`luaxx_destroy` returns, for all addresses (null, unbound and equal ones
included), in a state whose weak objects table is the same table and in which
again no address has a table in both. -/
theorem registries_stay_disjoint (L : LuaState) (w : Nat) (hw : weakTable L w)
    (hd : RegistriesDisjoint L w) (a b : Nat) (f : Bool) :
    (∃ M, luaxx_weaken a L = Res.ok () M ∧ weakTable M w ∧ RegistriesDisjoint M w) ∧
    (∃ M, luaxx_strengthen a L = Res.ok () M ∧ weakTable M w ∧ RegistriesDisjoint M w) ∧
    (∃ M, luaxx_swap a b L = Res.ok () M ∧ weakTable M w ∧ RegistriesDisjoint M w) ∧
    (∃ M, luaxx_remove a f L = Res.ok true M ∧ weakTable M w ∧ RegistriesDisjoint M w) ∧
    (∃ M, luaxx_destroy a L = Res.ok () M ∧ weakTable M w ∧ RegistriesDisjoint M w) :=
  ⟨weaken_disjoint w L a hw hd, strengthen_disjoint w L a hw hd, swap_disjoint w L a b hw hd,
    remove_disjoint w L a f hw hd, destroy_disjoint w L a hw hd⟩

theorem sampleState_disjoint : RegistriesDisjoint sampleState 1 := by
  intro a
  by_cases h7 : a = 7
  · subst h7; decide
  · by_cases h8 : a = 8
    · subst h8; decide
    · by_cases h9 : a = 9
      · subst h9; decide
      · simp [strongEntry, weakEntry, sampleState, setRaw, emptyFields, isTable, h7, h8, h9]

/-- Witness of C20 at `sampleState` for the addresses 7 and 0. -/
theorem registries_stay_disjoint_witness :
    weakTable sampleState 1 ∧ RegistriesDisjoint sampleState 1 ∧
    (∃ M, luaxx_weaken 7 sampleState = Res.ok () M ∧ weakTable M 1 ∧ RegistriesDisjoint M 1) ∧
    (∃ M, luaxx_strengthen 7 sampleState = Res.ok () M ∧ weakTable M 1 ∧
      RegistriesDisjoint M 1) ∧
    (∃ M, luaxx_swap 7 0 sampleState = Res.ok () M ∧ weakTable M 1 ∧ RegistriesDisjoint M 1) ∧
    (∃ M, luaxx_remove 7 false sampleState = Res.ok true M ∧ weakTable M 1 ∧
      RegistriesDisjoint M 1) ∧
    (∃ M, luaxx_destroy 7 sampleState = Res.ok () M ∧ weakTable M 1 ∧ RegistriesDisjoint M 1) :=
  ⟨rfl, sampleState_disjoint,
    registries_stay_disjoint sampleState 1 rfl sampleState_disjoint 7 0 false⟩

/-! ## C15: what `postorder` returns -/

theorem liftLua_run {α : Type} (m : LuaM α) (W : World) :
    liftLua m W = match m W.lua with
      | Res.ok a L => Res.ok a { W with lua := L }
      | Res.raise e L => Res.raise e { W with lua := L } := rfl

/-- C15. In a world where no traversal is in progress, for a call whose first
argument passes the forge check and whose root resolves to `target` (the null
address when the third argument is absent or nil, what `luaxx_to` returns
otherwise), and with `luaL_ref` and `luaL_unref` that return, the latter
leaving the stack as it is: `Graph::bind` is called on `target`; when it
reports `n > 0` failures `postorder` returns one value, `n`, in the world that
`Graph::bind` left, so that the scheduler is not called; when it reports no
failure `postorder` references the function at position 2, calls
`Scheduler::postorder` once with that reference and `target`, and returns one
value, the count that call returned. -/
theorem postorder_returns_failures (env : Env) (W : World) (forge target : Nat)
    (hforge : luaxx_check 1 env.FORGE_TYPE W.lua = Res.ok forge W.lua)
    (hprog : W.graph.traversal_in_progress = false)
    (hroot : ((index2value W.lua 3 = none ∨ index2value W.lua 3 = some Value.nil) ∧ target = 0) ∨
      (¬ (index2value W.lua 3 = none ∨ index2value W.lua 3 = some Value.nil) ∧
        luaxx_to 3 env.TARGET_TYPE W.lua = Res.ok target W.lua))
    (href : ∀ L, ∃ n L1, env.luaL_ref LUA_REGISTRYINDEX L = Res.ok n L1)
    (hunref : ∀ n L, ∃ L1, env.luaL_unref LUA_REGISTRYINDEX n L = Res.ok () L1 ∧
      L1.stack = L.stack) :
    ∃ (n : Int) (Wb : World), Graph.bind env target W = Res.ok n Wb ∧
      (0 < n → LuaGraph.postorder env W
        = Res.ok 1 (Wb.withStack (Value.number n :: Wb.lua.stack))) ∧
      (n ≤ 0 → ∃ (function failures : Int) (Wr Ws Wf : World),
        liftLua (lua_pushvalue 2 >>= fun _ => env.luaL_ref LUA_REGISTRYINDEX) Wb
          = Res.ok function Wr ∧
        Scheduler.postorder env function target Wr = Res.ok failures Ws ∧
        LuaGraph.postorder env W = Res.ok 1 Wf ∧
        Wf.lua.stack = Value.number failures :: Ws.lua.stack ∧
        Wf.calls = Ws.calls ∧ Wf.graph = Ws.graph ∧ Wf.targets = Ws.targets) := by
  have hW : ({ W with lua := W.lua } : World) = W := rfl
  have hpre : LuaGraph.postorder env W = (do
      let bind_failures ← Graph.bind env target
      if bind_failures > 0 then
        liftLua (lua_pushinteger bind_failures)
        return 1
      else
        liftLua (lua_pushvalue 2)
        let function ← liftLua (env.luaL_ref LUA_REGISTRYINDEX)
        let failures ← Scheduler.postorder env function target
        liftLua (lua_pushinteger failures)
        liftLua (env.luaL_unref LUA_REGISTRYINDEX function)
        return 1 : Run World Int) W := by
    unfold LuaGraph.postorder
    rcases hroot with ⟨hn, ht⟩ | ⟨hn, ht⟩
    · subst ht
      simp [run_bind, liftLua_run, hforge, getW, hprog, lua_isnoneornil, hn]
    · simp [run_bind, liftLua_run, hforge, getW, hprog, lua_isnoneornil, hn, ht]
  refine ⟨(env.graph_bind target W).1,
    { (env.graph_bind target W).2 with
      calls := (env.graph_bind target W).2.calls ++ [Call.bind target] }, rfl, ?_, ?_⟩
  · intro hpos
    rw [hpre]
    simp [run_bind, Graph.bind, hpos, liftLua_run, lua_pushinteger, push, World.withStack]
  · intro hle
    have hnot : ¬ (env.graph_bind target W).1 > 0 := not_lt.mpr hle
    obtain ⟨function, L1, e1⟩ := href
      { (env.graph_bind target W).2.lua with
        stack := (index2value (env.graph_bind target W).2.lua 2).getD Value.nil ::
          (env.graph_bind target W).2.lua.stack }
    obtain ⟨L2, e2, hs2⟩ := hunref function
      { (env.scheduler_postorder function target
          { (env.graph_bind target W).2 with
            calls := (env.graph_bind target W).2.calls ++ [Call.bind target]
            lua := L1 }).2.lua with
        stack := Value.number (env.scheduler_postorder function target
          { (env.graph_bind target W).2 with
            calls := (env.graph_bind target W).2.calls ++ [Call.bind target]
            lua := L1 }).1 ::
          (env.scheduler_postorder function target
          { (env.graph_bind target W).2 with
            calls := (env.graph_bind target W).2.calls ++ [Call.bind target]
            lua := L1 }).2.lua.stack }
    refine ⟨function, (env.scheduler_postorder function target
          { (env.graph_bind target W).2 with
            calls := (env.graph_bind target W).2.calls ++ [Call.bind target]
            lua := L1 }).1,
      { (env.graph_bind target W).2 with
            calls := (env.graph_bind target W).2.calls ++ [Call.bind target]
            lua := L1 },
      { (env.scheduler_postorder function target
          { (env.graph_bind target W).2 with
            calls := (env.graph_bind target W).2.calls ++ [Call.bind target]
            lua := L1 }).2 with
        calls := (env.scheduler_postorder function target
          { (env.graph_bind target W).2 with
            calls := (env.graph_bind target W).2.calls ++ [Call.bind target]
            lua := L1 }).2.calls ++ [Call.postorder function target] },
      { (env.scheduler_postorder function target
          { (env.graph_bind target W).2 with
            calls := (env.graph_bind target W).2.calls ++ [Call.bind target]
            lua := L1 }).2 with
        calls := (env.scheduler_postorder function target
          { (env.graph_bind target W).2 with
            calls := (env.graph_bind target W).2.calls ++ [Call.bind target]
            lua := L1 }).2.calls ++ [Call.postorder function target]
        lua := L2 }, ?_, rfl, ?_, ?_⟩
    · simp [run_bind, liftLua_run, lua_pushvalue, push, e1]
    · rw [hpre]
      simp [run_bind, Graph.bind, hnot, liftLua_run, lua_pushvalue, lua_pushinteger, push, e1,
        Scheduler.postorder, e2]
    · simp [hs2]

/-- Witness of C15: `forge:postorder( f )` in `sampleWorld`, with a bind that
reports two failures and with one that reports none. -/
theorem postorder_returns_failures_witness :
    (∃ (n : Int) (Wb : World), Graph.bind failingEnv 0 sampleWorld = Res.ok n Wb ∧
      (0 < n → LuaGraph.postorder failingEnv sampleWorld
        = Res.ok 1 (Wb.withStack (Value.number n :: Wb.lua.stack))) ∧
      (n ≤ 0 → ∃ (function failures : Int) (Wr Ws Wf : World),
        liftLua (lua_pushvalue 2 >>= fun _ => failingEnv.luaL_ref LUA_REGISTRYINDEX) Wb
          = Res.ok function Wr ∧
        Scheduler.postorder failingEnv function 0 Wr = Res.ok failures Ws ∧
        LuaGraph.postorder failingEnv sampleWorld = Res.ok 1 Wf ∧
        Wf.lua.stack = Value.number failures :: Ws.lua.stack ∧
        Wf.calls = Ws.calls ∧ Wf.graph = Ws.graph ∧ Wf.targets = Ws.targets)) ∧
    (∃ (n : Int) (Wb : World), Graph.bind sampleEnv 0 sampleWorld = Res.ok n Wb ∧
      (0 < n → LuaGraph.postorder sampleEnv sampleWorld
        = Res.ok 1 (Wb.withStack (Value.number n :: Wb.lua.stack))) ∧
      (n ≤ 0 → ∃ (function failures : Int) (Wr Ws Wf : World),
        liftLua (lua_pushvalue 2 >>= fun _ => sampleEnv.luaL_ref LUA_REGISTRYINDEX) Wb
          = Res.ok function Wr ∧
        Scheduler.postorder sampleEnv function 0 Wr = Res.ok failures Ws ∧
        LuaGraph.postorder sampleEnv sampleWorld = Res.ok 1 Wf ∧
        Wf.lua.stack = Value.number failures :: Ws.lua.stack ∧
        Wf.calls = Ws.calls ∧ Wf.graph = Ws.graph ∧ Wf.targets = Ws.targets)) :=
  ⟨postorder_returns_failures failingEnv sampleWorld 100 0 rfl rfl (Or.inl ⟨by decide, rfl⟩)
      (fun _ => ⟨1, _, rfl⟩) (fun _ _ => ⟨_, rfl, rfl⟩),
    postorder_returns_failures sampleEnv sampleWorld 100 0 rfl rfl (Or.inl ⟨by decide, rfl⟩)
      (fun _ => ⟨1, _, rfl⟩) (fun _ _ => ⟨_, rfl, rfl⟩)⟩

/-! ## C18: `filename` past the end -/

/-- C18, the code at a failing input. The target at 7, whose table is table 2,
has two filenames.  `t:filename( 1 )` and `t:filename( 2 )` return them and
`t:filename( 0 )` raises an argument error on the index, but `t:filename( 3 )`
returns a string of length 1, made of the NUL byte that ends the C string "":
`lua_pushlstring` is called with the length 1. -/
theorem filename_past_end_not_empty :
    targetWorld.filenames 7 = ["a.o", "b.o"] ∧
    returned (LuaTarget.filename sampleEnv (targetWorld.withStack [Value.number 1, Value.table 2]))
      = [Value.string "a.o"] ∧
    returned (LuaTarget.filename sampleEnv (targetWorld.withStack [Value.number 2, Value.table 2]))
      = [Value.string "b.o"] ∧
    (LuaTarget.filename sampleEnv (targetWorld.withStack [Value.number 0, Value.table 2])).error?
      = some (LuaError.arg 2 "expected index >= 1") ∧
    returned (LuaTarget.filename sampleEnv (targetWorld.withStack [Value.number 3, Value.table 2]))
      = [Value.string (String.mk [Char.ofNat 0])] ∧
    (String.mk [Char.ofNat 0]).length = 1 ∧
    returned (LuaTarget.filename sampleEnv (targetWorld.withStack [Value.number 3, Value.table 2]))
      ≠ [Value.string ""] := by
  decide

/-! ## C16: `set_filename` and `filename` -/

/-- C16, the code at a failing input. On the target at 7 (table 2, filenames
"a.o" and "b.o"): `t:set_filename( "x", 1 )` returns and stores "x" at the
second place, counting from 0, so that `t:filename( 1 )`, which counts from 1,
still returns "a.o" and it is `t:filename( 2 )` that returns "x"; after
`t:set_filename( "x", 0 )` the call `t:filename( 0 )` raises an argument error.
With the index omitted in both calls the defaults, 0 and 1, meet:
`t:set_filename( "y" )` then `t:filename()` returns "y". -/
theorem set_filename_index_base_differs :
    (LuaTarget.set_filename sampleEnv
      (targetWorld.withStack [Value.number 1, Value.string "x", Value.table 2])).value? = some 0 ∧
    (LuaTarget.set_filename sampleEnv
      (targetWorld.withStack [Value.number 1, Value.string "x", Value.table 2])).state.filenames 7
      = ["a.o", "x"] ∧
    returned (LuaTarget.filename sampleEnv
      ((LuaTarget.set_filename sampleEnv
        (targetWorld.withStack [Value.number 1, Value.string "x", Value.table 2])).state.withStack
        [Value.number 1, Value.table 2])) = [Value.string "a.o"] ∧
    returned (LuaTarget.filename sampleEnv
      ((LuaTarget.set_filename sampleEnv
        (targetWorld.withStack [Value.number 1, Value.string "x", Value.table 2])).state.withStack
        [Value.number 2, Value.table 2])) = [Value.string "x"] ∧
    (LuaTarget.set_filename sampleEnv
      (targetWorld.withStack [Value.number 0, Value.string "x", Value.table 2])).state.filenames 7
      = ["x", "b.o"] ∧
    (LuaTarget.filename sampleEnv
      ((LuaTarget.set_filename sampleEnv
        (targetWorld.withStack [Value.number 0, Value.string "x", Value.table 2])).state.withStack
        [Value.number 0, Value.table 2])).error? = some (LuaError.arg 2 "expected index >= 1") ∧
    (LuaTarget.set_filename sampleEnv
      (targetWorld.withStack [Value.string "y", Value.table 2])).state.filenames 7
      = ["y", "b.o"] ∧
    returned (LuaTarget.filename sampleEnv
      ((LuaTarget.set_filename sampleEnv
        (targetWorld.withStack [Value.string "y", Value.table 2])).state.withStack
        [Value.table 2])) = [Value.string "y"] := by
  decide

/-! ## C11: anonymous ids -/

theorem toInt32_small (k : Int) (h0 : 0 ≤ k) (h1 : k < 2147483648) : toInt32 k = k := by
  unfold toInt32
  omega

theorem digitChar_value (k : Nat) (hk : k < 10) : (Nat.digitChar k).toNat - 48 = k := by
  interval_cases k <;> rfl

theorem decode_toDigitsCore (fuel : Nat) :
    ∀ (n : Nat) (ds : List Char), n < fuel →
      (Nat.toDigitsCore 10 fuel n ds).foldl (fun acc c => acc * 10 + (c.toNat - 48)) 0
        = ds.foldl (fun acc c => acc * 10 + (c.toNat - 48)) n := by
  induction fuel with
  | zero => intro n ds h; omega
  | succ fuel ih =>
    intro n ds h
    have hd := digitChar_value (n % 10) (Nat.mod_lt _ (by decide))
    unfold Nat.toDigitsCore
    by_cases h0 : n / 10 = 0
    · have hn : n % 10 = n := Nat.mod_eq_of_lt (by omega)
      rw [hn] at hd
      simp only [h0, ↓reduceIte, List.foldl_cons, Nat.zero_mul, Nat.zero_add, hn, hd]
    · simp only [h0, ↓reduceIte]
      rw [ih (n / 10) _ (by omega)]
      simp only [List.foldl_cons, hd]
      congr 1
      omega

theorem toString_nat_injective (a b : Nat) (h : toString a = toString b) : a = b := by
  have h1 : (Nat.toDigits 10 a) = (Nat.toDigits 10 b) := by
    have := congrArg String.data h
    simpa [toString, Nat.repr, List.asString] using this
  have ha := decode_toDigitsCore (a + 1) a [] (Nat.lt_succ_self a)
  have hb := decode_toDigitsCore (b + 1) b [] (Nat.lt_succ_self b)
  simp only [List.foldl_nil] at ha hb
  unfold Nat.toDigits at h1
  rw [← ha, ← hb, h1]

theorem anonymous_id_injective (a b : Nat)
    (h : "$$" ++ toString a = "$$" ++ toString b) : a = b := by
  apply toString_nat_injective
  have := congrArg String.data h
  simp only [String.data_append, List.append_cancel_left_eq] at this
  exact String.ext this

theorem toString_int_ofNat (n : Nat) : toString ((n : Nat) : Int) = toString n := rfl

theorem anonymousId_small (n : Nat) (h : n < 2147483648) :
    anonymousId n = "$$" ++ toString n := by
  unfold anonymousId
  rw [toInt32_small (n : Int) (by omega) (by omega), toString_int_ofNat]

theorem anonymousId_injOn (a b : Nat) (ha : a < 2147483648) (hb : b < 2147483648)
    (h : anonymousId a = anonymousId b) : a = b := by
  rw [anonymousId_small a ha, anonymousId_small b hb] at h
  exact anonymous_id_injective a b h

/-- The ids drawn in `sampleWorld` by `forge:anonymous()`, then
`forge:target( nil, {} )`, then `forge:anonymous()` again. -/
theorem anonymous_ids_sample :
    (runIdCalls sampleEnv
      [IdCall.anonymous [Value.table 10],
       IdCall.target [Value.table 11, Value.nil, Value.table 10],
       IdCall.anonymous [Value.table 10]] sampleWorld).1 = ["$$0", "$$1", "$$2"] := by
  decide

/-! ## C12: the first filename of a `file` target -/

/-- C12. With a `Graph::target` that leaves the Lua state and the
`referenced_by_script` flags alone, in a world satisfying the binding
invariant: whenever `add_target` returns a non-null target for the arguments
of the call (id given or omitted, target new or already there, whatever its
filenames), `file` returns one value, the table of the target, and in the
world it leaves the first filename of the target is its `path()`; the path and
the other filenames are as `add_target` left them. -/
theorem file_first_filename_is_path (env : Env) (hf : GraphTargetFrame env) (w : Nat) (W : World)
    (hI : BindingInvariant w W) (target : Nat)
    (hadd : (LuaGraph.add_target env W).value? = some target) (hnn : target ≠ 0) :
    ∃ W1 : World, LuaGraph.file env W = Res.ok 1 W1 ∧
      (W1.filenames target).head? = some (W1.path target) ∧
      W1.path target = (LuaGraph.add_target env W).state.path target ∧
      (W1.filenames target).tail = ((LuaGraph.add_target env W).state.filenames target).tail ∧
      W1.lua.stack = lookup (LuaGraph.add_target env W).state.lua w target ::
        (LuaGraph.add_target env W).state.lua.stack := by
  have hI0 := hoare_state (hoare_add_target env hf w) W hI
  cases hadd' : LuaGraph.add_target env W with
  | raise e W0 => simp [hadd', Res.value?] at hadd
  | ok t W0 =>
    rw [hadd'] at hI0 hadd
    simp only [Res.value?, Option.some.injEq] at hadd
    subst hadd
    simp only [Res.state] at hI0 ⊢
    have hfile : LuaGraph.file env W = Res.ok 1
        { W0 with
          lua := { W0.lua with stack := lookup W0.lua w t :: W0.lua.stack }
          targets := fun a =>
            if a = t then
              { W0.targets a with
                filenames := setFilenameAt (W0.targets a).filenames 0 (W0.path t) }
            else W0.targets a } := by
      unfold LuaGraph.file
      simp only [run_bind, run_pure, hadd', getW, Target.set_filename, liftLua_run]
      rw [if_pos ⟨hnn, le_refl _⟩]
      simp only [luaxx_push_eq w _ _ hI0.1]
      rfl
    refine ⟨_, hfile, ?_, ?_, ?_, ?_⟩
    · cases hfn : (W0.targets t).filenames <;>
        simp [World.filenames, World.path, setFilenameAt, hfn]
    · simp [World.path]
    · cases hfn : (W0.targets t).filenames <;>
        simp [World.filenames, setFilenameAt, hfn]
    · rfl

theorem targetWorld_invariant : BindingInvariant 1 targetWorld := by
  refine ⟨rfl, by decide, fun a ha => ?_⟩
  by_cases h7 : a = 7
  · subst h7; decide
  · by_cases h8 : a = 8
    · subst h8; decide
    · by_cases h9 : a = 9
      · subst h9; decide
      · simp [World.referenced_by_script, targetWorld, sampleWorld, sampleState,
          lookup, strongEntry, weakEntry, setRaw, emptyFields, tableOrNil, isTable, ha, h7, h8,
          h9, WEAK_OBJECTS_KEYWORD]

/-- Witness of C12: `forge:file( "foo", {} )` in `targetWorld`, where the graph
resolves the id to the target at 7, which is there already with the first
filename "a.o". -/
theorem file_first_filename_is_path_witness :
    ∃ W1 : World, LuaGraph.file sampleEnv fileWorld = Res.ok 1 W1 ∧
      (W1.filenames 7).head? = some (W1.path 7) ∧
      W1.path 7 = (LuaGraph.add_target sampleEnv fileWorld).state.path 7 ∧
      (W1.filenames 7).tail
        = ((LuaGraph.add_target sampleEnv fileWorld).state.filenames 7).tail ∧
      W1.lua.stack = lookup (LuaGraph.add_target sampleEnv fileWorld).state.lua 1 7 ::
        (LuaGraph.add_target sampleEnv fileWorld).state.lua.stack :=
  file_first_filename_is_path sampleEnv sampleEnv_frame 1 fileWorld
    (invariant_withStack 1 targetWorld _ targetWorld_invariant) 7
    (by decide) (by decide)

/-- The filenames of the target at 7 before and after `forge:file( "foo", {} )`. -/
theorem file_sample :
    fileWorld.filenames 7 = ["a.o", "b.o"] ∧
    (LuaGraph.file sampleEnv fileWorld).state.filenames 7 = ["/work", "b.o"] ∧
    returned (LuaGraph.file sampleEnv fileWorld) = [Value.table 2] := by
  decide

/-! ## Closed forms of the binding of one target -/

theorem members_type_eq (w : Nat) (L : LuaState) (object T : Nat) (tname : String)
    (hw : weakTable L w) (hT : lookup L w object = Value.table T) :
    members_type object tname L = Res.ok ()
      { L with heap := fun j =>
          if j = T then setRaw (L.heap T) (Value.string TYPE_KEYWORD) (Value.string tname)
          else L.heap j } := by
  unfold members_type
  simp only [run_bind, luaxx_push_eq w L object hw, hT]
  simp [lua_istable, index2value_m1, index2value_m3, isTable, lua_pop,
    lua_pushstring, push, lua_rawset, tableAt, storeRaw, LUA_REGISTRYINDEX]

theorem members_this_pointer_eq (w : Nat) (L : LuaState) (object T p : Nat)
    (hw : weakTable L w) (hT : lookup L w object = Value.table T) :
    members_this_pointer object p L = Res.ok ()
      { L with heap := fun j =>
          if j = T then setRaw (L.heap T) (Value.string THIS_KEYWORD) (Value.lightuserdata p)
          else L.heap j } := by
  unfold members_this_pointer
  simp only [run_bind, luaxx_push_eq w L object hw, hT]
  simp [lua_istable, index2value_m1, index2value_m3, isTable, lua_pop,
    lua_pushstring, lua_pushlightuserdata, push, lua_rawset, tableAt, storeRaw, LUA_REGISTRYINDEX]

theorem members_metatable_eq (w : Nat) (L : LuaState) (object T other : Nat)
    (hw : weakTable L w) (hT : lookup L w object = Value.table T) :
    members_metatable object other L = Res.ok ()
      { L with metatable := fun j =>
          if j = T then metaOf (lookup L w other) else L.metatable j } := by
  have hw' := hw
  unfold weakTable at hw'
  have hc : ∀ M : LuaState, M.registry (Value.string WEAK_OBJECTS_KEYWORD) = Value.table w →
      weakTable M w := fun M h => h
  unfold members_metatable
  simp only [run_bind, luaxx_push_eq w L object hw, hT]
  simp only [lua_istable, index2value_m1, isTable, List.get?_eq_getElem?, List.getElem?_cons_zero,
    ↓reduceIte, run_bind]
  simp (disch := (apply hc; simp [hw'])) only [luaxx_push_eq w]
  rcases lookup_cases L w other with h | ⟨m, h⟩
  · simp [lookup_stack, h, lua_setmetatable, index2value_m2, lua_pop, metaOf]
  · simp [lookup_stack, h, lua_setmetatable, index2value_m2, lua_pop, metaOf]
theorem lookup_of_same (L M : LuaState) (w a : Nat) (hr : M.registry = L.registry)
    (hh : ∀ b, M.heap w (Value.lightuserdata b) = L.heap w (Value.lightuserdata b)) :
    lookup M w a = lookup L w a := by
  simp [lookup, strongEntry, weakEntry, hr, hh]

theorem recover_target_eq (env : Env) (w : Nat) (W : World) (t T : Nat)
    (hw : weakTable W.lua w) (hT : lookup W.lua w t = Value.table T) :
    LuaTarget.recover_target env t W = Res.ok ()
      { W with lua := { W.lua with
          heap := fun j =>
            if j = T then
              setRaw (setRaw (W.lua.heap T) (Value.string TYPE_KEYWORD)
                (Value.string env.TARGET_TYPE)) (Value.string THIS_KEYWORD) (Value.lightuserdata t)
            else W.lua.heap j
          metatable := fun j =>
            if j = T then metaOf (lookup W.lua w W.target_metatable) else W.lua.metatable j } } := by
  have hstr : ∀ (s : String) (b : Nat), ¬ Value.lightuserdata b = Value.string s := by
    intro s b h; cases h
  have key : ∀ (h : Nat → Fields) (m : Nat → Option Nat),
      (∀ b, h w (Value.lightuserdata b) = W.lua.heap w (Value.lightuserdata b)) →
      weakTable { W.lua with heap := h, metatable := m } w ∧
      (∀ a, lookup { W.lua with heap := h, metatable := m } w a = lookup W.lua w a) :=
    fun h m hh => ⟨hw, fun a => lookup_of_same _ _ w a rfl hh⟩
  unfold LuaTarget.recover_target
  simp only [run_bind, getW, liftLua_run]
  rw [members_type_eq w W.lua t T _ hw hT]
  simp only []
  have k1 := key (fun j => if j = T then
      setRaw (W.lua.heap T) (Value.string TYPE_KEYWORD) (Value.string env.TARGET_TYPE)
      else W.lua.heap j) W.lua.metatable
    (fun b => by by_cases h : w = T <;> simp [h, setRaw, hstr])
  rw [members_metatable_eq w _ t T _ k1.1 ((k1.2 t).trans hT)]
  simp only [k1.2]
  have k2 := key (fun j => if j = T then
      setRaw (W.lua.heap T) (Value.string TYPE_KEYWORD) (Value.string env.TARGET_TYPE)
      else W.lua.heap j)
    (fun j => if j = T then metaOf (lookup W.lua w W.target_metatable) else W.lua.metatable j)
    (fun b => by by_cases h : w = T <;> simp [h, setRaw, hstr])
  rw [members_this_pointer_eq w _ t T _ k2.1 ((k2.2 t).trans hT)]
  simp
  funext j
  by_cases h : j = T <;> simp [h]
theorem update_target_eq (w : Nat) (W : World) (t T : Nat)
    (hw : weakTable W.lua w) (hT : lookup W.lua w t = Value.table T) :
    LuaTarget.update_target t W = Res.ok ()
      { W with lua := { W.lua with
          metatable := fun j =>
            if j = T then
              metaOf (lookup W.lua w
                (if (W.targets t).prototype ≠ 0 then (W.targets t).prototype
                 else W.target_metatable))
            else W.lua.metatable j } } := by
  unfold LuaTarget.update_target
  simp only [run_bind, getW, liftLua_run]
  by_cases hp : (W.targets t).prototype ≠ 0
  · rw [if_pos hp, if_pos hp]
    simp only [liftLua_run, members_metatable_eq w W.lua t T _ hw hT]
  · rw [if_neg hp, if_neg hp]
    simp only [liftLua_run, members_metatable_eq w W.lua t T _ hw hT]

theorem recover_target_spec (env : Env) (w : Nat) (W : World) (t T : Nat)
    (hw : weakTable W.lua w) (hT : lookup W.lua w t = Value.table T) :
    ∃ M : LuaState, LuaTarget.recover_target env t W = Res.ok () { W with lua := M } ∧
      Restamped t T env.TARGET_TYPE W.lua M := by
  have hstr : ∀ (s : String) (b : Nat), ¬ Value.lightuserdata b = Value.string s := by
    intro s b h; cases h
  refine ⟨_, recover_target_eq env w W t T hw hT, rfl, rfl, rfl, ?_, ?_, ?_, ?_⟩
  · intro j hj
    simp [hj]
  · intro b
    simp [setRaw, hstr]
  · simp [setRaw]
  · simp [setRaw, (by decide : ¬ TYPE_KEYWORD = THIS_KEYWORD)]

theorem update_target_spec (w : Nat) (W : World) (t T : Nat)
    (hw : weakTable W.lua w) (hT : lookup W.lua w t = Value.table T) :
    ∃ M : LuaState, LuaTarget.update_target t W = Res.ok () { W with lua := M } ∧
      SameTables W.lua M :=
  ⟨_, update_target_eq w W t T hw hT, rfl, rfl, rfl, rfl⟩

theorem lookup_restamped (w t T : Nat) (u : String) (L M : LuaState)
    (h : Restamped t T u L M) (a : Nat) : lookup M w a = lookup L w a := by
  obtain ⟨_, h2, _, h4, h5, _, _⟩ := h
  refine lookup_of_same L M w a h2 (fun b => ?_)
  by_cases hwT : w = T
  · subst hwT; exact h5 b
  · rw [h4 w hwT]

theorem boundAs_restamped (w t T : Nat) (u : String) (L L1 M : LuaState)
    (hb : BoundAs w t T u L L1) (h : Restamped t T u L1 M) : BoundAs w t T u L M := by
  have hl := lookup_restamped w t T u L1 M h
  obtain ⟨b1, b2, b3, _, _, b6, b7⟩ := hb
  obtain ⟨_, h2, _, h4, _, h6, h7⟩ := h
  refine ⟨?_, ?_, (hl t).trans b3, h6, h7, fun j hj => (h4 j hj).trans (b6 j hj),
    fun a ha => (hl a).trans (b7 a ha)⟩
  · unfold weakTable at b1 ⊢
    rw [h2]; exact b1
  · unfold strongEntry at b2 ⊢
    rw [h2]; exact b2

theorem boundAs_sameTables (w t T : Nat) (u : String) (L L1 M : LuaState)
    (hb : BoundAs w t T u L L1) (h : SameTables L1 M) : BoundAs w t T u L M := by
  obtain ⟨b1, b2, b3, b4, b5, b6, b7⟩ := hb
  obtain ⟨_, h2, _, h4⟩ := h
  have hl : ∀ a, lookup M w a = lookup L1 w a :=
    fun a => lookup_of_same L1 M w a h2 (fun b => by rw [h4])
  refine ⟨?_, ?_, (hl t).trans b3, by rw [h4]; exact b4, by rw [h4]; exact b5,
    fun j hj => by rw [h4]; exact b6 j hj, fun a ha => (hl a).trans (b7 a ha)⟩
  · unfold weakTable at b1 ⊢
    rw [h2]; exact b1
  · unfold strongEntry at b2 ⊢
    rw [h2]; exact b2

theorem luaxx_create_spec (w : Nat) (L : LuaState) (t : Nat) (u : String)
    (hw : weakTable L w) (hn : w < L.next) (ht : t ≠ 0) :
    ∃ L1 : LuaState, luaxx_create t u L = Res.ok () L1 ∧ BoundAs w t L.next u L L1 ∧
      L1.stack = L.stack ∧ L1.next = L.next + 1 := by
  have hne : ¬ w = L.next := Nat.ne_of_lt hn
  refine ⟨_, luaxx_create_eq L t u, ⟨?_, ?_, ?_, ?_, ?_, ?_, ?_⟩, rfl, rfl⟩
  · unfold weakTable at hw ⊢
    simp [setRaw, hw]
  · simp [strongEntry, setRaw]
  · simp [lookup, strongEntry, setRaw, ht, tableOrNil]
  · simp [setRaw, (by decide : ¬ THIS_KEYWORD = TYPE_KEYWORD)]
  · simp [setRaw]
  · intro j hj
    simp [hj]
  · intro a ha
    apply lookup_congr
    simp [strongEntry, weakEntry, setRaw, ha, hne]

theorem luaxx_attach_spec (w : Nat) (L : LuaState) (rest : List Value) (T t : Nat) (u : String)
    (hw : weakTable L w) (ht : t ≠ 0) (hst : L.stack = Value.table T :: rest) :
    ∃ L1 : LuaState, luaxx_attach t u L = Res.ok () L1 ∧ BoundAs w t T u L L1 ∧
      L1.stack = L.stack ∧ L1.next = L.next := by
  have hstr : ∀ (s : String) (b : Nat), ¬ Value.lightuserdata b = Value.string s := by
    intro s b h; cases h
  refine ⟨_, luaxx_attach_eq L rest T t u hst, ⟨?_, ?_, ?_, ?_, ?_, ?_, ?_⟩, rfl, rfl⟩
  · unfold weakTable at hw ⊢
    simp [setRaw, hw]
  · simp [strongEntry, setRaw]
  · simp [lookup, strongEntry, setRaw, ht, tableOrNil]
  · simp [setRaw, (by decide : ¬ THIS_KEYWORD = TYPE_KEYWORD)]
  · simp [setRaw]
  · intro j hj
    simp [hj]
  · intro a ha
    apply lookup_congr
    by_cases hwT : w = T
    · subst hwT; simp [strongEntry, weakEntry, setRaw, ha, hstr]
    · simp [strongEntry, weakEntry, setRaw, ha, hwT]
theorem create_target_spec (env : Env) (w : Nat) (W : World) (t : Nat)
    (hw : weakTable W.lua w) (hn : w < W.lua.next) (ht : t ≠ 0)
    (hr : W.referenced_by_script t = false) :
    ∃ M : LuaState,
      LuaTarget.create_target env t W = Res.ok ()
        { W with
          lua := M
          targets := fun a =>
            if a = t then { W.targets a with referenced_by_script := true } else W.targets a } ∧
      BoundAs w t W.lua.next env.TARGET_TYPE W.lua M ∧
      M.stack = W.lua.stack ∧ M.next = W.lua.next + 1 := by
  obtain ⟨L1, e1, b1, s1, n1⟩ := luaxx_create_spec w W.lua t env.TARGET_TYPE hw hn ht
  obtain ⟨L2, e2, r2⟩ := recover_target_spec env w
    { W with
      lua := L1
      targets := fun a =>
        if a = t then { W.targets a with referenced_by_script := true } else W.targets a }
    t W.lua.next b1.1 b1.2.2.1
  have b2 := boundAs_restamped w t _ _ _ _ _ b1 r2
  obtain ⟨L3, e3, r3⟩ := update_target_spec w
    { W with
      lua := L2
      targets := fun a =>
        if a = t then { W.targets a with referenced_by_script := true } else W.targets a }
    t W.lua.next b2.1 b2.2.2.1
  have b3 := boundAs_sameTables w t _ _ _ _ _ b2 r3
  refine ⟨L3, ?_, b3, r3.1.trans (r2.1.trans s1), r3.2.2.1.trans (r2.2.2.1.trans n1)⟩
  unfold LuaTarget.create_target
  simp only [run_bind, getW, hr, Bool.not_false, ↓reduceIte, liftLua_run, Lua.create,
    e1, Target.set_referenced_by_script]
  rw [e2]
  simp only []
  rw [e3]

/-! ## C13: the attributes table of `target` and `file` -/

theorem bind_ok {σ α β : Type} {m : Run σ α} {f : α → Run σ β} {s s1 : σ} {a : α}
    (h : m s = Res.ok a s1) : (m >>= f) s = f a s1 := by
  rw [run_bind, h]

theorem attach_tail (env : Env) (w t A p wd : Nat) (V : World) (L0 : LuaState)
    (hb : BoundAs w t A env.TARGET_TYPE L0 V.lua) :
    ∃ W1 : World,
      (Target.set_referenced_by_script t true >>= fun _ =>
        Target.set_prototype t p >>= fun _ =>
        Target.set_working_directory t wd >>= fun _ =>
        LuaTarget.recover_target env t >>= fun _ =>
        LuaTarget.update_target t >>= fun _ => (pure t : Run World Nat)) V = Res.ok t W1 ∧
      BoundAs w t A env.TARGET_TYPE L0 W1.lua ∧
      W1.lua.stack = V.lua.stack ∧ W1.lua.next = V.lua.next ∧
      W1.referenced_by_script t = true ∧
      TargetTouched t V W1 := by
  have e1 : Target.set_referenced_by_script t true V
      = Res.ok () (Target.set_referenced_by_script t true V).state := rfl
  have e2 : Target.set_prototype t p (Target.set_referenced_by_script t true V).state
      = Res.ok () (Target.set_prototype t p (Target.set_referenced_by_script t true V).state).state :=
    rfl
  have e3 : Target.set_working_directory t wd
        (Target.set_prototype t p (Target.set_referenced_by_script t true V).state).state
      = Res.ok () (Target.set_working_directory t wd
          (Target.set_prototype t p (Target.set_referenced_by_script t true V).state).state).state :=
    rfl
  obtain ⟨M4, e4, r4⟩ := recover_target_spec env w
    (Target.set_working_directory t wd
      (Target.set_prototype t p (Target.set_referenced_by_script t true V).state).state).state
    t A hb.1 hb.2.2.1
  have b4 := boundAs_restamped w t _ _ _ _ _ hb r4
  obtain ⟨M5, e5, r5⟩ := update_target_spec w
    { (Target.set_working_directory t wd
      (Target.set_prototype t p (Target.set_referenced_by_script t true V).state).state).state
      with lua := M4 } t A b4.1 b4.2.2.1
  have b5 := boundAs_sameTables w t _ _ _ _ _ b4 r5
  refine ⟨{ (Target.set_working_directory t wd
      (Target.set_prototype t p (Target.set_referenced_by_script t true V).state).state).state
      with lua := M5 }, ?_, b5, r5.1.trans r4.1, r5.2.2.1.trans r4.2.2.1, ?_, ?_⟩
  · rw [bind_ok e1, bind_ok e2, bind_ok e3, bind_ok e4, bind_ok e5]
    rfl
  · simp [World.referenced_by_script, Target.set_working_directory, Target.set_prototype,
      Target.set_referenced_by_script, Res.state]
  · refine ⟨rfl, rfl, rfl, rfl, rfl, fun a ha => ?_, ?_, ?_, ?_, ?_⟩ <;>
      simp [Target.set_working_directory, Target.set_prototype,
        Target.set_referenced_by_script, Res.state, *]
theorem add_target_attach (env : Env) (hf : GraphTargetFrame env) (w : Nat) (W Wg : World)
    (A forge p t : Nat) (P F : Value) (id : String)
    (hw : weakTable W.lua w)
    (hst : W.lua.stack = [Value.table A, P, Value.string id, F])
    (hforge : luaxx_check 1 env.FORGE_TYPE W.lua = Res.ok forge W.lua)
    (hproto : luaxx_to 3 env.TARGET_PROTOTYPE_TYPE W.lua = Res.ok p W.lua)
    (hg : env.graph_target id p W.working_directory W = some (t, Wg))
    (ht : t ≠ 0) (hr : W.referenced_by_script t = false) :
    ∃ W1 : World, LuaGraph.add_target env W = Res.ok t W1 ∧
      BoundAs w t A env.TARGET_TYPE W.lua W1.lua ∧
      W1.lua.stack = Value.table A :: W.lua.stack ∧ W1.lua.next = W.lua.next ∧
      W1.referenced_by_script t = true ∧
      TargetTouched t
        { Wg with calls := Wg.calls ++ [Call.target id p W.working_directory] } W1 := by
  obtain ⟨hl, hfl⟩ := hf _ _ _ _ _ _ hg
  have i2 : index2value W.lua 2 = some (Value.string id) := by
    simp [index2value, hst, LUA_REGISTRYINDEX]
  have i4 : index2value W.lua 4 = some (Value.table A) := by
    simp [index2value, hst, LUA_REGISTRYINDEX]
  have hrg : Wg.referenced_by_script t = false := by rw [hfl]; exact hr
  obtain ⟨L1, e1, b1, s1, n1⟩ := luaxx_attach_spec w
    { W.lua with stack := Value.table A :: W.lua.stack } W.lua.stack A t env.TARGET_TYPE
    hw ht rfl
  have b1' : BoundAs w t A env.TARGET_TYPE W.lua L1 := b1
  have htail := attach_tail env w t A p W.working_directory
    { Wg with calls := Wg.calls ++ [Call.target id p W.working_directory], lua := L1 } W.lua b1'
  simp only [run_bind, run_pure] at htail
  obtain ⟨W1, e, hb, hs, hn, href, hto⟩ := htail
  have hrg2 : (Wg.targets t).referenced_by_script = false := hrg
  refine ⟨W1, ?_, hb, hs.trans s1, hn.trans n1, href, ?_⟩
  · unfold LuaGraph.add_target
    simp only [run_bind, run_pure, liftLua_run, hforge, getW, lua_isnoneornil, i2]
    rw [if_pos (by simp)]
    simp only [run_bind, run_pure, liftLua_run, getW, lua_isnoneornil, i2, i4, luaL_checkstring,
      hproto, Graph.target, hg, lua_istable, isTable, luaL_argcheck, lua_pushvalue, push,
      Option.getD, hl, Bool.not_false, ↓reduceIte, World.referenced_by_script, hrg2]
    rw [if_pos (by simp)]
    simp only [run_bind, run_pure, liftLua_run, getW, lua_isnoneornil, i2, i4, luaL_checkstring,
      hproto, Graph.target, hg, lua_istable, isTable, luaL_argcheck, lua_pushvalue, push,
      Option.getD, hl, Bool.not_false, ↓reduceIte, e1]
    exact e
  · exact hto

theorem add_target_referenced (env : Env) (hf : GraphTargetFrame env) (W Wg : World)
    (forge p t : Nat) (id : String)
    (hid : index2value W.lua 2 = some (Value.string id))
    (hforge : luaxx_check 1 env.FORGE_TYPE W.lua = Res.ok forge W.lua)
    (hproto : luaxx_to 3 env.TARGET_PROTOTYPE_TYPE W.lua = Res.ok p W.lua)
    (hg : env.graph_target id p W.working_directory W = some (t, Wg))
    (hr : W.referenced_by_script t = true) :
    LuaGraph.add_target env W = Res.ok t
      { Wg with calls := Wg.calls ++ [Call.target id p W.working_directory] } := by
  obtain ⟨hl, hfl⟩ := hf _ _ _ _ _ _ hg
  have hrg2 : (Wg.targets t).referenced_by_script = true := by
    have := hfl t
    rw [hr] at this
    exact this
  unfold LuaGraph.add_target
  simp only [run_bind, run_pure, liftLua_run, hforge, getW, lua_isnoneornil, hid]
  rw [if_pos (by simp)]
  simp only [run_bind, run_pure, liftLua_run, getW, luaL_checkstring, hid,
    hproto, Graph.target, hg, World.referenced_by_script, hrg2]
  rw [if_neg (by simp)]
  rfl
theorem target_of_add (env : Env) (w : Nat) (W W0 : World) (t : Nat)
    (hadd : LuaGraph.add_target env W = Res.ok t W0) (hw : weakTable W0.lua w) :
    LuaGraph.target env W = Res.ok 1
      { W0 with lua := { W0.lua with stack := lookup W0.lua w t :: W0.lua.stack } } := by
  unfold LuaGraph.target
  simp only [run_bind, run_pure, hadd, liftLua_run, luaxx_push_eq w _ _ hw]

theorem file_of_add (env : Env) (w : Nat) (W W0 : World) (t : Nat)
    (hadd : LuaGraph.add_target env W = Res.ok t W0) (hw : weakTable W0.lua w) (ht : t ≠ 0) :
    LuaGraph.file env W = Res.ok 1
      { W0 with
        lua := { W0.lua with stack := lookup W0.lua w t :: W0.lua.stack }
        targets := fun a =>
          if a = t then
            { W0.targets a with
              filenames := setFilenameAt (W0.targets a).filenames 0 (W0.path t) }
          else W0.targets a } := by
  unfold LuaGraph.file
  simp only [run_bind, run_pure, hadd, getW, Target.set_filename, liftLua_run]
  rw [if_pos ⟨ht, le_refl _⟩]
  simp only [luaxx_push_eq w _ _ hw]
  rfl

/-- What `target` and `file` do with the attributes table when `luaxx_to` returns
on the prototype argument.  In a world satisfying the binding invariant, for a
call with the forge at position 1, a string id at 2, a prototype argument on
which `luaxx_to` returns at 3 and a table `A` at 4, the graph resolving the id
to a non-null target `t` (`Graph::target` leaving the Lua state and the flags
alone).  If `t` was not referenced by script, the call returns the table `A`
itself; `A` is then the strong registry entry of `t`, `luaxx_to` on the value
returned yields `t` for the target type, and `t` is referenced by script.  If
`t` was referenced by script, the call returns the table bound to `t` before
the call, and the registry, every table and every metatable are as they were:
the table `A` has been neither stamped nor registered. -/
theorem attrs_table_attached (env : Env) (hf : GraphTargetFrame env) (w : Nat) (W Wg : World)
    (A forge p t : Nat) (P F : Value) (id : String)
    (hI : BindingInvariant w W)
    (hst : W.lua.stack = [Value.table A, P, Value.string id, F])
    (hforge : luaxx_check 1 env.FORGE_TYPE W.lua = Res.ok forge W.lua)
    (hproto : luaxx_to 3 env.TARGET_PROTOTYPE_TYPE W.lua = Res.ok p W.lua)
    (hg : env.graph_target id p W.working_directory W = some (t, Wg))
    (ht : t ≠ 0) :
    (W.referenced_by_script t = false →
      ∀ call, (call = LuaGraph.target env ∨ call = LuaGraph.file env) →
        ∃ W1 : World, call W = Res.ok 1 W1 ∧
          returned (call W) = [Value.table A] ∧
          strongEntry W1.lua t = Value.table A ∧
          luaxx_to 6 env.TARGET_TYPE W1.lua = Res.ok t W1.lua ∧
          W1.referenced_by_script t = true) ∧
    (W.referenced_by_script t = true →
      ∀ call, (call = LuaGraph.target env ∨ call = LuaGraph.file env) →
        ∃ W1 : World, call W = Res.ok 1 W1 ∧
          returned (call W) = [lookup W.lua w t] ∧ isTable (lookup W.lua w t) = true ∧
          sameButStack W.lua W1.lua) := by
  obtain ⟨hw, hn, hbind⟩ := hI
  refine ⟨fun hr => ?_, fun hr => ?_⟩
  · obtain ⟨W0, hadd, hb, hs, _, href, _⟩ :=
      add_target_attach env hf w W Wg A forge p t P F id hw hst hforge hproto hg ht hr
    have hto : ∀ L : LuaState, L.stack = lookup W0.lua w t :: W0.lua.stack →
        L.heap = W0.lua.heap → luaxx_to 6 env.TARGET_TYPE L = Res.ok t L := by
      intro L hL hh
      have := luaxx_to_stamped L [] (Value.table A :: W.lua.stack) A t env.TARGET_TYPE
        env.TARGET_TYPE (by rw [hL, hb.2.2.1, hs]; rfl) (by rw [hh]; exact hb.2.2.2.2.1)
        (by rw [hh]; exact hb.2.2.2.1)
      simpa [hst] using this
    intro call hc
    rcases hc with rfl | rfl
    · have e := target_of_add env w W W0 t hadd hb.1
      refine ⟨_, e, ?_, hb.2.1, hto _ rfl rfl, href⟩
      rw [e]
      simp [returned, hb.2.2.1]
    · have e := file_of_add env w W W0 t hadd hb.1 ht
      refine ⟨_, e, ?_, hb.2.1, hto _ rfl rfl, ?_⟩
      · rw [e]
        simp [returned, hb.2.2.1]
      · have : (W0.targets t).referenced_by_script = true := href
        simp [World.referenced_by_script, this]
  · obtain ⟨hl, _⟩ := hf _ _ _ _ _ _ hg
    have hid : index2value W.lua 2 = some (Value.string id) := by
      simp [index2value, hst, LUA_REGISTRYINDEX]
    have hadd := add_target_referenced env hf W Wg forge p t id hid hforge hproto hg hr
    have hw0 : weakTable
        ({ Wg with calls := Wg.calls ++ [Call.target id p W.working_directory] } : World).lua w := by
      show weakTable Wg.lua w
      rw [hl]; exact hw
    have hlk : lookup Wg.lua w t = lookup W.lua w t := by rw [hl]
    have hsb : sameButStack W.lua Wg.lua := by
      rw [hl]; exact sameButStack_refl _
    intro call hc
    rcases hc with rfl | rfl
    · have e := target_of_add env w W _ t hadd hw0
      refine ⟨_, e, ?_, (hbind t ht).mp hr, hsb⟩
      rw [e]
      simp [returned, hlk]
    · have e := file_of_add env w W _ t hadd hw0 ht
      refine ⟨_, e, ?_, (hbind t ht).mp hr, hsb⟩
      rw [e]
      simp [returned, hlk]
theorem freshEnv_frame : GraphTargetFrame freshEnv := by
  intro id prototype wd W W1 target h
  simp [freshEnv] at h
  rw [← h.2]
  exact ⟨rfl, fun _ => rfl⟩

theorem attrsWorld_invariant : BindingInvariant 1 attrsWorld :=
  invariant_of_kept 1 targetWorld attrsWorld targetWorld_invariant
    ⟨⟨rfl, by decide, fun _ => ⟨rfl, rfl⟩⟩, fun _ => rfl⟩

/-- The calls `forge:target( "foo", {}, {} )` and `forge:file( "foo", {}, {} )` in
`targetWorld`, the id resolving to the target at 5, which is not referenced
by script, and to the target at 7, which is. -/
theorem attrs_table_attached_witness :
    ((attrsWorld.referenced_by_script 5 = false →
      ∀ call, (call = LuaGraph.target freshEnv ∨ call = LuaGraph.file freshEnv) →
        ∃ W1 : World, call attrsWorld = Res.ok 1 W1 ∧
          returned (call attrsWorld) = [Value.table 11] ∧
          strongEntry W1.lua 5 = Value.table 11 ∧
          luaxx_to 6 freshEnv.TARGET_TYPE W1.lua = Res.ok 5 W1.lua ∧
          W1.referenced_by_script 5 = true) ∧
    (attrsWorld.referenced_by_script 5 = true →
      ∀ call, (call = LuaGraph.target freshEnv ∨ call = LuaGraph.file freshEnv) →
        ∃ W1 : World, call attrsWorld = Res.ok 1 W1 ∧
          returned (call attrsWorld) = [lookup attrsWorld.lua 1 5] ∧
          isTable (lookup attrsWorld.lua 1 5) = true ∧
          sameButStack attrsWorld.lua W1.lua)) ∧
    ((attrsWorld.referenced_by_script 7 = false →
      ∀ call, (call = LuaGraph.target sampleEnv ∨ call = LuaGraph.file sampleEnv) →
        ∃ W1 : World, call attrsWorld = Res.ok 1 W1 ∧
          returned (call attrsWorld) = [Value.table 11] ∧
          strongEntry W1.lua 7 = Value.table 11 ∧
          luaxx_to 6 sampleEnv.TARGET_TYPE W1.lua = Res.ok 7 W1.lua ∧
          W1.referenced_by_script 7 = true) ∧
    (attrsWorld.referenced_by_script 7 = true →
      ∀ call, (call = LuaGraph.target sampleEnv ∨ call = LuaGraph.file sampleEnv) →
        ∃ W1 : World, call attrsWorld = Res.ok 1 W1 ∧
          returned (call attrsWorld) = [lookup attrsWorld.lua 1 7] ∧
          isTable (lookup attrsWorld.lua 1 7) = true ∧
          sameButStack attrsWorld.lua W1.lua)) :=
  ⟨attrs_table_attached freshEnv freshEnv_frame 1 attrsWorld attrsWorld 11 100 0 5
      (Value.table 12) (Value.table 10) "foo" attrsWorld_invariant rfl rfl rfl rfl (by decide),
    attrs_table_attached sampleEnv sampleEnv_frame 1 attrsWorld attrsWorld 11 100 0 7
      (Value.table 12) (Value.table 10) "foo" attrsWorld_invariant rfl rfl rfl rfl (by decide)⟩

/-- The values returned in `attrsWorld` when the id resolves to the target at 5,
not referenced by script, and to the target at 7, bound to table 2. -/
theorem attrs_sample :
    attrsWorld.referenced_by_script 5 = false ∧
    returned (LuaGraph.target freshEnv attrsWorld) = [Value.table 11] ∧
    pushed (LuaGraph.target freshEnv attrsWorld).state.lua 5 = some (Value.table 11) ∧
    attrsWorld.referenced_by_script 7 = true ∧
    returned (LuaGraph.target sampleEnv attrsWorld) = [Value.table 2] ∧
    pushed (LuaGraph.target sampleEnv attrsWorld).state.lua 5 = some Value.nil := by
  decide

/-- C13, the code at a failing input. The call `forge:target( "foo", nil, {} )`
(and likewise `forge:file`) in `attrsWorld`, the attributes table being table
11 and the id resolving to the target at 5, not referenced by script:
`add_target` calls `luaxx_to` on the nil prototype, which raises "attempt to
index a nil value"; nothing is returned, `Graph::target` is not reached, the
target stays unreferenced and unbound and table 11 unstamped.  With a table in
place of nil the same call returns table 11, bound to the target. -/
theorem attrs_table_lost_on_nil_prototype :
    attrsWorld.referenced_by_script 5 = false ∧
    (LuaGraph.target freshEnv (attrsWorld.withStack
      [Value.table 11, Value.nil, Value.string "foo", Value.table 10])).error?
      = some (LuaError.index Value.nil) ∧
    returned (LuaGraph.target freshEnv (attrsWorld.withStack
      [Value.table 11, Value.nil, Value.string "foo", Value.table 10])) = [] ∧
    (LuaGraph.file freshEnv (attrsWorld.withStack
      [Value.table 11, Value.nil, Value.string "foo", Value.table 10])).error?
      = some (LuaError.index Value.nil) ∧
    (LuaGraph.target freshEnv (attrsWorld.withStack
      [Value.table 11, Value.nil, Value.string "foo", Value.table 10])).state.calls = [] ∧
    (LuaGraph.target freshEnv (attrsWorld.withStack
      [Value.table 11, Value.nil, Value.string "foo", Value.table 10])).state.referenced_by_script 5
      = false ∧
    pushed (LuaGraph.target freshEnv (attrsWorld.withStack
      [Value.table 11, Value.nil, Value.string "foo", Value.table 10])).state.lua 5
      = some Value.nil ∧
    (LuaGraph.target freshEnv (attrsWorld.withStack
      [Value.table 11, Value.nil, Value.string "foo", Value.table 10])).state.lua.heap 11
      (Value.string THIS_KEYWORD) = Value.nil ∧
    returned (LuaGraph.target freshEnv attrsWorld) = [Value.table 11] ∧
    pushed (LuaGraph.target freshEnv attrsWorld).state.lua 5 = some (Value.table 11) := by
  decide

/-! ## C17, C19: iterating over the dependencies of a target -/

theorem iterator_end (env : Env) (w t T : Nat) (deps : List Nat) (W : World) (k : Int)
    (hI : IterInv env w t T deps W)
    (hst : W.lua.stack = [Value.number k, Value.table T])
    (hk : 1 ≤ k) (hk2 : k < 2147483647) (hend : deps.length ≤ (k - 1).toNat) :
    LuaTarget.dependencies_iterator env W = Res.ok 0 W := by
  obtain ⟨hB, hT, hthis, htype, hTn, hdeps⟩ := hI
  have hto := luaxx_to_stamped W.lua [Value.number k] [] T t env.TARGET_TYPE env.TARGET_TYPE
    (by rw [hst]; rfl) htype hthis
  simp only [List.length_nil, Nat.cast_zero, zero_add, ↓reduceIte] at hto
  have i2 : index2value W.lua 2 = some (Value.number k) := by
    simp [index2value, hst, LUA_REGISTRYINDEX]
  have ht : t ≠ 0 := by
    intro h; subst h; simp [lookup] at hT
  have hd : W.dependency t (k - 1) = 0 := by
    unfold World.dependency
    rw [if_pos (by omega), hdeps]
    exact List.getD_eq_default _ _ hend
  have hW : ({ W with lua := W.lua } : World) = W := rfl
  unfold LuaTarget.dependencies_iterator
  simp only [run_bind, run_pure, liftLua_run, LuaConverter.to, hto, lua_tointeger, i2, getW,
    toInt32_small k (by omega) (by omega)]
  rw [if_pos ht]
  simp only [run_bind, run_pure, getW, hW, hd]
  rfl
theorem iterInv_withStack (env : Env) (w t T : Nat) (deps : List Nat) (W : World)
    (stack : List Value) (hI : IterInv env w t T deps W) :
    IterInv env w t T deps (W.withStack stack) :=
  ⟨invariant_withStack w W stack hI.1, hI.2.1, hI.2.2.1, hI.2.2.2.1, hI.2.2.2.2.1, hI.2.2.2.2.2⟩

theorem run_map {σ α β : Type} (f : α → β) (m : Run σ α) (s : σ) :
    (f <$> m) s = match m s with
      | Res.ok a s1 => Res.ok (f a) s1
      | Res.raise e s1 => Res.raise e s1 := by
  show (m >>= fun a => pure (f a)) s = _
  rw [run_bind]
  cases m s <;> rfl

theorem iterator_step (env : Env) (w t T : Nat) (deps : List Nat) (W : World) (k : Int)
    (d : Nat) (hI : IterInv env w t T deps W)
    (hst : W.lua.stack = [Value.number k, Value.table T])
    (hk : 1 ≤ k) (hk2 : k < 2147483647)
    (hd : deps[(k - 1).toNat]? = some d) (hd0 : d ≠ 0) :
    ∃ W1 : World, LuaTarget.dependencies_iterator env W = Res.ok 2 W1 ∧
      W1.lua.stack = lookup W1.lua w d :: Value.number (k + 1) :: W.lua.stack ∧
      isTable (lookup W1.lua w d) = true ∧ W1.referenced_by_script d = true ∧
      IterInv env w t T deps W1 ∧
      (∀ a, isTable (lookup W.lua w a) = true → lookup W1.lua w a = lookup W.lua w a) := by
  obtain ⟨hB, hT, hthis, htype, hTn, hdeps⟩ := hI
  have hto := luaxx_to_stamped W.lua [Value.number k] [] T t env.TARGET_TYPE env.TARGET_TYPE
    (by rw [hst]; rfl) htype hthis
  simp only [List.length_nil, Nat.cast_zero, zero_add, ↓reduceIte] at hto
  have i2 : index2value W.lua 2 = some (Value.number k) := by
    simp [index2value, hst, LUA_REGISTRYINDEX]
  have ht : t ≠ 0 := by
    intro h; subst h; simp [lookup] at hT
  have hdep : W.dependency t (k - 1) = d := by
    unfold World.dependency
    rw [if_pos (by omega), hdeps, List.getD_eq_getElem?_getD, hd]
    rfl
  have hW : ({ W with lua := W.lua } : World) = W := rfl
  have hpre : LuaTarget.dependencies_iterator env W = (do
      if !((← getW).referenced_by_script d) then
        LuaTarget.create_target env d
      liftLua (lua_pushinteger (k + 1))
      liftLua (LuaConverter.push d)
      return 2 : Run World Int) W := by
    unfold LuaTarget.dependencies_iterator
    simp only [run_bind, run_pure, liftLua_run, LuaConverter.to, hto, lua_tointeger, i2, getW,
      toInt32_small k (by omega) (by omega)]
    rw [if_pos ht]
    simp only [run_bind, run_pure, getW, hW, hdep]
    rw [if_pos hd0]
    simp only [run_bind, getW, hW]
  rw [hpre]
  cases hr : W.referenced_by_script d with
  | true =>
    refine ⟨{ W with lua := { W.lua with
      stack := lookup W.lua w d :: Value.number (k + 1) :: W.lua.stack } }, ?_, rfl,
      (hB.2.2 d hd0).mp hr, hr, ?_, fun _ _ => rfl⟩
    · have hw := hB.1
      simp only [run_bind, getW, hr]
      rw [if_neg (by simp)]
      simp only [run_bind, run_pure, run_map, liftLua_run, lua_pushinteger, push,
        LuaConverter.push]
      have hp := luaxx_push_eq w
        { W.lua with stack := Value.number (k + 1) :: W.lua.stack } d hw
      simp only [hp]
      rfl
    · exact ⟨invariant_withStack w W _ hB, hT, hthis, htype, hTn, hdeps⟩
  | false =>
    obtain ⟨M, e, hb, hs, hn⟩ := create_target_spec env w W d hB.1 hB.2.1 hd0 hr
    have htd : t ≠ d := by
      intro h
      subst h
      have := (hB.2.2 t ht).mpr (by rw [hT]; rfl)
      rw [hr] at this
      cases this
    have hTne : T ≠ W.lua.next := Nat.ne_of_lt hTn
    refine ⟨{ W with
        lua := { M with stack := lookup M w d :: Value.number (k + 1) :: M.stack }
        targets := fun a =>
          if a = d then { W.targets a with referenced_by_script := true } else W.targets a },
      ?_, ?_, ?_, ?_, ?_, ?_⟩
    · have hw := hb.1
      simp only [run_bind, getW, hr]
      rw [if_pos (by simp)]
      simp only [run_bind, run_pure, run_map, e, liftLua_run, lua_pushinteger, push,
        LuaConverter.push]
      have hp := luaxx_push_eq w
        { M with stack := Value.number (k + 1) :: M.stack } d hw
      simp only [hp]
      rfl
    · rw [hs]; rfl
    · show isTable (lookup M w d) = true
      rw [hb.2.2.1]; rfl
    · simp [World.referenced_by_script]
    · refine ⟨⟨hb.1, ?_, ?_⟩, ?_, ?_, ?_, ?_, ?_⟩
      · show w < M.next
        rw [hn]; exact Nat.lt_succ_of_lt hB.2.1
      · intro a ha
        show _ ↔ isTable (lookup M w a) = true
        by_cases had : a = d
        · subst had
          simp [World.referenced_by_script, hb.2.2.1, isTable]
        · rw [hb.2.2.2.2.2.2 a had, ← hB.2.2 a ha]
          simp [World.referenced_by_script, had]
      · show lookup M w t = Value.table T
        rw [hb.2.2.2.2.2.2 t htd]; exact hT
      · show M.heap T _ = _
        rw [hb.2.2.2.2.2.1 T hTne]; exact hthis
      · show M.heap T _ = _
        rw [hb.2.2.2.2.2.1 T hTne]; exact htype
      · show T < M.next
        rw [hn]; exact Nat.lt_succ_of_lt hTn
      · simp [htd, hdeps]
    · intro a ha
      show lookup M w a = lookup W.lua w a
      by_cases had : a = d
      · subst had
        have := (hB.2.2 a hd0).mpr ha
        rw [hr] at this
        cases this
      · exact hb.2.2.2.2.2.2 a had
theorem genericFor_succ (env : Env) (fuel : Nat) (W : World) (state control : Value) :
    genericFor env (fuel + 1) W state control =
      match LuaTarget.dependencies_iterator env (W.withStack [control, state]) with
      | Res.ok r W1 =>
        if r = 0 then some ([], W1)
        else match W1.lua.stack with
          | v2 :: v1 :: _ =>
            if v1 = Value.nil then some ([], W1)
            else match genericFor env fuel W1 state v1 with
              | some (yielded, W2) => some ((v1, v2, W1) :: yielded, W2)
              | none => none
          | _ => none
      | Res.raise _ _ => none := rfl

theorem genericFor_loop (env : Env) (w t T : Nat) (deps : List Nat)
    (hnn : ∀ d ∈ deps, d ≠ 0) (hlen : deps.length < 2147483646) :
    ∀ (rest pre : List Nat) (W : World), deps = pre ++ rest → IterInv env w t T deps W →
        ∃ (ys : List (Value × Value × World)) (Wf : World),
          (∀ fuel, rest.length < fuel →
            genericFor env fuel W (Value.table T) (Value.number ((pre.length : Int) + 1))
              = some (ys, Wf)) ∧
          IterInv env w t T deps Wf ∧
          ys.length = rest.length ∧
          ∀ (j d : Nat), rest[j]? = some d →
            ∃ y, ys[j]? = some y ∧ YieldOk env w t T deps (pre.length + j) d y := by
  intro rest
  induction rest with
  | nil =>
    intro pre W hdeps hI
    have hI' := iterInv_withStack env w t T deps W
      [Value.number ((pre.length : Int) + 1), Value.table T] hI
    have hlen' : deps.length = pre.length := by rw [hdeps]; simp
    have he := iterator_end env w t T deps _ ((pre.length : Int) + 1) hI' rfl (by omega)
      (by omega) (by rw [hlen']; simp)
    refine ⟨[], _, fun fuel hfuel => ?_, hI', rfl, ?_⟩
    · obtain ⟨fuel, rfl⟩ : ∃ f, fuel = f + 1 := ⟨fuel - 1, by simp at hfuel; omega⟩
      rw [genericFor_succ, he]
      rfl
    · intro j d hj
      simp at hj
  | cons d rest ih =>
    intro pre W hdeps hI
    have hI' := iterInv_withStack env w t T deps W
      [Value.number ((pre.length : Int) + 1), Value.table T] hI
    have hlen' : deps.length = pre.length + (rest.length + 1) := by rw [hdeps]; simp
    have hd : deps[((pre.length : Int) + 1 - 1).toNat]? = some d := by
      have : ((pre.length : Int) + 1 - 1).toNat = pre.length := by omega
      rw [this, hdeps, List.getElem?_append_right (le_refl _)]
      simp
    have hd0 : d ≠ 0 := hnn d (by rw [hdeps]; simp)
    obtain ⟨W1, e1, hs1, ht1, hr1, hI1, _⟩ := iterator_step env w t T deps _
      ((pre.length : Int) + 1) d hI' rfl (by omega) (by omega) hd hd0
    obtain ⟨ys, Wf, e2, hIf, hl2, hy2⟩ := ih (pre ++ [d]) W1 (by rw [hdeps]; simp) hI1
    have hc : ((pre.length : Int) + 1 + 1) = (((pre ++ [d]).length : Nat) : Int) + 1 := by
      simp
    refine ⟨(Value.number ((pre.length : Int) + 1 + 1), lookup W1.lua w d, W1) :: ys, Wf,
      fun fuel hfuel => ?_, hIf, by simp [hl2], ?_⟩
    · obtain ⟨fuel, rfl⟩ : ∃ f, fuel = f + 1 := ⟨fuel - 1, by simp at hfuel; omega⟩
      rw [genericFor_succ, e1]
      simp only [hs1, hc, e2 fuel (by simp at hfuel; omega)]
      simp
    · intro j d' hj
      cases j with
      | zero =>
        simp only [List.getElem?_cons_zero, Option.some.injEq] at hj
        subst hj
        refine ⟨(Value.number ((pre.length : Int) + 1 + 1), lookup W1.lua w d, W1),
          List.getElem?_cons_zero, ?_, rfl, ht1, hr1, hI1⟩
        show Value.number ((pre.length : Int) + 1 + 1) = Value.number (((pre.length + 0 : Nat) : Int) + 2)
        congr 1
      | succ j =>
        simp only [List.getElem?_cons_succ] at hj
        obtain ⟨y, hy, hok⟩ := hy2 j d' hj
        refine ⟨y, by simpa using hy, ?_⟩
        have : (pre ++ [d]).length + j = pre.length + (j + 1) := by simp; omega
        rw [this] at hok
        exact hok

theorem dependency_bound (env : Env) (w t T : Nat) (deps : List Nat) (W : World) (n d : Nat)
    (hI : IterInv env w t T deps W)
    (hst : W.lua.stack = [Value.number ((n : Int) + 1), Value.table T])
    (hn : n < 2147483646) (hd : deps[n]? = some d) (hd0 : d ≠ 0)
    (hr : W.referenced_by_script d = true) :
    LuaTarget.dependency env W = Res.ok 1
      { W with lua := { W.lua with stack := lookup W.lua w d :: W.lua.stack } } := by
  obtain ⟨hB, hT, hthis, htype, hTn, hdeps⟩ := hI
  have hto := luaxx_to_stamped W.lua [Value.number ((n : Int) + 1)] [] T t env.TARGET_TYPE
    env.TARGET_TYPE (by rw [hst]; rfl) htype hthis
  simp only [List.length_nil, Nat.cast_zero, zero_add, ↓reduceIte] at hto
  have i2 : index2value W.lua 2 = some (Value.number ((n : Int) + 1)) := by
    simp [index2value, hst, LUA_REGISTRYINDEX]
  have ht : t ≠ 0 := by
    intro h; subst h; simp [lookup] at hT
  have hdep : W.dependency t ((n : Int) + 1 - 1) = d := by
    unfold World.dependency
    have : ((n : Int) + 1 - 1).toNat = n := by omega
    rw [if_pos (by omega), hdeps, List.getD_eq_getElem?_getD, this, hd]
    rfl
  have hW : ({ W with lua := W.lua } : World) = W := rfl
  have hw := hB.1
  have hp := luaxx_push_eq w W.lua d hw
  have h32 := toInt32_small ((n : Int) + 1) (by omega) (by omega)
  have hdt : decide (t ≠ 0) = true := decide_eq_true ht
  have hge : decide ((n : Int) + 1 ≥ 1) = true := decide_eq_true (by omega)
  unfold LuaTarget.dependency
  simp only [run_bind, run_pure, run_map, liftLua_run, LuaConverter.to, hto, luaL_argcheck, hdt,
    lua_isnumber, lua_tointeger, i2, getW, h32, hW, hdep, hge, ↓reduceIte]
  rw [if_pos hd0]
  simp only [run_bind, run_pure, run_map, liftLua_run, getW, hW, hr, LuaConverter.push]
  rw [if_neg (by simp)]
  simp only [run_bind, run_pure, run_map, liftLua_run, hp]
theorem dependencies_triple (env : Env) (w t T : Nat) (deps : List Nat) (W : World)
    (hI : IterInv env w t T deps W) (hst : W.lua.stack = [Value.table T]) :
    LuaTarget.dependencies env W = Res.ok 3
      (W.withStack [Value.number 1, Value.table T, Value.function DEPENDENCIES_ITERATOR,
        Value.table T]) := by
  obtain ⟨hB, hT, hthis, htype, hTn, hdeps⟩ := hI
  have hto := luaxx_to_stamped W.lua [] [] T t env.TARGET_TYPE
    env.TARGET_TYPE (by rw [hst]; rfl) htype hthis
  simp only [List.length_nil, Nat.cast_zero, zero_add, ↓reduceIte] at hto
  have ht : t ≠ 0 := by
    intro h; subst h; simp [lookup] at hT
  have hdt : decide (t ≠ 0) = true := decide_eq_true ht
  have hW : ({ W with lua := W.lua } : World) = W := rfl
  have hw := hB.1
  have hp := luaxx_push_eq w
    { W.lua with stack := Value.function DEPENDENCIES_ITERATOR :: W.lua.stack } t hw
  unfold LuaTarget.dependencies
  simp only [run_bind, run_pure, run_map, liftLua_run, LuaConverter.to, hto, luaL_argcheck, hdt,
    getW, hW, ↓reduceIte, lua_pushlightuserdata, push, lua_pushcclosure, List.drop_succ_cons,
    List.drop_zero, LuaConverter.push, hp, lua_pushinteger, lookup_stack, hT]
  simp only [World.withStack, hst]

/-- C17. In a world satisfying the binding invariant, for a target `t` bound to a
table `T` stamped for it, with the dependencies `deps`, all of them non-null
(fewer than 2^31 - 2): `t:dependencies()` returns the iterator function, `T`
and 1; driving them with the generic `for` terminates for every amount of
fuel above the number of dependencies, after exactly as many runs of the loop
body as there are dependencies; in the run number `n` (from 0) the second
value is a table, the dependency at place `n` of `deps` is referenced by
script and bound to that table, and `t:dependency( n + 1 )` called there
returns that same table; the first value of that run is the number `n + 2`. -/
theorem dependencies_iterates (env : Env) (w t T : Nat) (deps : List Nat) (W : World)
    (hI : IterInv env w t T deps W) (hst : W.lua.stack = [Value.table T])
    (hnn : ∀ d ∈ deps, d ≠ 0) (hlen : deps.length < 2147483646) :
    ∃ (W0 : World) (ys : List (Value × Value × World)) (Wf : World),
      LuaTarget.dependencies env W = Res.ok 3 W0 ∧
      returned (LuaTarget.dependencies env W)
        = [Value.number 1, Value.table T, Value.function DEPENDENCIES_ITERATOR] ∧
      (∀ fuel, deps.length < fuel →
        genericFor env fuel W0 (Value.table T) (Value.number 1) = some (ys, Wf)) ∧
      ys.length = deps.length ∧
      ∀ (n d : Nat), deps[n]? = some d →
        ∃ y, ys[n]? = some y ∧
          y.1 = Value.number ((n : Int) + 2) ∧
          isTable y.2.1 = true ∧
          y.2.2.referenced_by_script d = true ∧
          pushed y.2.2.lua d = some y.2.1 ∧
          LuaTarget.dependency env
              (y.2.2.withStack [Value.number ((n : Int) + 1), Value.table T])
            = Res.ok 1
              (y.2.2.withStack [y.2.1, Value.number ((n : Int) + 1), Value.table T]) := by
  have e0 := dependencies_triple env w t T deps W hI hst
  have hI0 := iterInv_withStack env w t T deps W
    [Value.number 1, Value.table T, Value.function DEPENDENCIES_ITERATOR, Value.table T] hI
  obtain ⟨ys, Wf, e1, _, hl, hy⟩ := genericFor_loop env w t T deps hnn hlen deps [] _ rfl hI0
  refine ⟨_, ys, Wf, e0, ?_, ?_, hl, ?_⟩
  · rw [e0]
    rfl
  · intro fuel hfuel
    have := e1 fuel hfuel
    simpa using this
  · intro n d hd
    obtain ⟨y, hyn, h1, h2, h3, h4, h5⟩ := hy n d hd
    have hn : n < deps.length := by
      by_contra hc
      rw [List.getElem?_eq_none (by omega)] at hd
      cases hd
    have hd0 : d ≠ 0 := by
      apply hnn d
      rw [List.getElem?_eq_getElem hn] at hd
      cases hd
      exact List.getElem_mem _
    have hdep := dependency_bound env w t T deps
      (y.2.2.withStack [Value.number ((n : Int) + 1), Value.table T]) n d
      (iterInv_withStack env w t T deps _ _ h5) rfl (by omega) hd hd0 h4
    refine ⟨y, hyn, ?_, h3, h4, ?_, ?_⟩
    · rw [h1]; simp
    · rw [pushed_eq w _ d h5.1.1, h2]
    · rw [hdep, h2]
      rfl
/-- Witness of C17: the target at 7 of `targetWorld`, bound to table 2, with the
dependencies 8 and 5. -/
theorem dependencies_iterates_witness :
    ∃ (W0 : World) (ys : List (Value × Value × World)) (Wf : World),
      LuaTarget.dependencies sampleEnv (targetWorld.withStack [Value.table 2]) = Res.ok 3 W0 ∧
      returned (LuaTarget.dependencies sampleEnv (targetWorld.withStack [Value.table 2]))
        = [Value.number 1, Value.table 2, Value.function DEPENDENCIES_ITERATOR] ∧
      (∀ fuel, [8, 5].length < fuel →
        genericFor sampleEnv fuel W0 (Value.table 2) (Value.number 1) = some (ys, Wf)) ∧
      ys.length = [8, 5].length ∧
      ∀ (n d : Nat), [8, 5][n]? = some d →
        ∃ y, ys[n]? = some y ∧
          y.1 = Value.number ((n : Int) + 2) ∧
          isTable y.2.1 = true ∧
          y.2.2.referenced_by_script d = true ∧
          pushed y.2.2.lua d = some y.2.1 ∧
          LuaTarget.dependency sampleEnv
              (y.2.2.withStack [Value.number ((n : Int) + 1), Value.table 2])
            = Res.ok 1
              (y.2.2.withStack [y.2.1, Value.number ((n : Int) + 1), Value.table 2]) :=
  dependencies_iterates sampleEnv 1 7 2 [8, 5] (targetWorld.withStack [Value.table 2])
    ⟨invariant_withStack 1 targetWorld _ targetWorld_invariant, rfl, rfl, rfl, by decide, rfl⟩
    rfl (by decide) (by decide)

/-- The runs of the loop body over the dependencies of the target at 7 of
`targetWorld`: the table of the target at 8, then the table made for the
target at 5, which had none. -/
theorem dependencies_sample :
    (genericFor sampleEnv 3 targetWorld (Value.table 2) (Value.number 1)).map
      (fun r => r.1.map (fun y => (y.1, y.2.1, y.2.2.referenced_by_script 5)))
      = some [(Value.number 2, Value.table 3, false), (Value.number 3, Value.table 11, true)] := by
  decide

/-! ## C19: the index the iterator yields -/

/-- C19, the code at a failing input. Iterating over the dependencies of the
target at 7 of `targetWorld` (table 2; dependencies 8 and 5, in that order):
`t:dependency( 1 )` is the table of 8 (table 3), yet the loop body first runs
with the index 2 and table 3, where `t:dependency( 2 )` returns the table of 5
(table 11), and then with the index 3 and table 11, where `t:dependency( 3 )`
returns nil: the iterator reads the dependency at `index - 1` and yields
`index + 1`, one more than the index `dependency` takes. -/
theorem dependencies_index_off_by_one :
    returned (LuaTarget.dependency sampleEnv
      (targetWorld.withStack [Value.number 1, Value.table 2])) = [Value.table 3] ∧
    (genericFor sampleEnv 3 targetWorld (Value.table 2) (Value.number 1)).map
      (fun r => dependencyOfYielded sampleEnv (Value.table 2) r.1)
      = some [(Value.number 2, Value.table 3, [Value.table 11]),
              (Value.number 3, Value.table 11, [Value.nil])] := by
  decide

end sweet
